import Mathlib

/-!
# The MLTrainingService HTTP gateway (`app/mltraining/v1/ml_training.pb.gw.go`)

A shallow embedding of the generated grpc-gateway glue for `MLTrainingService`.

The Go code is effectful: it reads the request body, calls a service and writes
an HTTP response.  The embedding passes an explicit `World` through every
function; the world records, in order, the externally visible actions (body
decoding, service invocation, error writer, response forwarder, cancellation of
the per-request context) and holds the per-request server transport stream.

Behaviour that lives outside the translated file (the marshaler's decoder, the
service implementation, context annotation, marshaler selection) is taken as a
parameter: a field of `Marshaler`, `MLTrainingServiceServer`,
`MLTrainingServiceClient` or `ServeMux`.
-/

namespace MLTraining

/-! ## Errors and status codes -/

/-- The gRPC status codes (`google.golang.org/grpc/codes`). -/
inductive Code where
  | OK | Canceled | Unknown | InvalidArgument | DeadlineExceeded | NotFound
  | AlreadyExists | PermissionDenied | ResourceExhausted | FailedPrecondition
  | Aborted | OutOfRange | Unimplemented | Internal | Unavailable | DataLoss
  | Unauthenticated
  deriving DecidableEq, Repr

/-- The text of a code as `codes.Code.String` prints it. -/
def Code.String : Code → String
  | .OK => "OK"
  | .Canceled => "Canceled"
  | .Unknown => "Unknown"
  | .InvalidArgument => "InvalidArgument"
  | .DeadlineExceeded => "DeadlineExceeded"
  | .NotFound => "NotFound"
  | .AlreadyExists => "AlreadyExists"
  | .PermissionDenied => "PermissionDenied"
  | .ResourceExhausted => "ResourceExhausted"
  | .FailedPrecondition => "FailedPrecondition"
  | .Aborted => "Aborted"
  | .OutOfRange => "OutOfRange"
  | .Unimplemented => "Unimplemented"
  | .Internal => "Internal"
  | .Unavailable => "Unavailable"
  | .DataLoss => "DataLoss"
  | .Unauthenticated => "Unauthenticated"

/-- A non-nil Go `error` value.  `EOF` is the sentinel `io.EOF` (compared by
identity in the source), `status` is an error built by the `status` package,
`plain` is any other error, known by its text. -/
inductive GoError where
  | EOF
  | plain (text : String)
  | status (code : Code) (msg : String)
  deriving DecidableEq, Repr

/-- The method `Error()` of an error value. -/
def GoError.Error : GoError → String
  | .EOF => "EOF"
  | .plain text => text
  | .status code msg => "rpc error: code = " ++ code.String ++ " desc = " ++ msg

/-- The status code carried by an error (`status.Code`): the code of a status
error, `Unknown` for every other non-nil error. -/
def GoError.Code : GoError → MLTraining.Code
  | .status code _ => code
  | _ => MLTraining.Code.Unknown

/-- The status message carried by an error (`status.Convert(err).Message()`). -/
def GoError.Message : GoError → String
  | .status _ msg => msg
  | e => e.Error

/-- What `fmt` prints for an `error` operand under the verb `%v`. -/
def fmt.v : Option GoError → String
  | none => "<nil>"
  | some e => e.Error

/-- The call `status.Errorf(c, "%v", err)` for a code `c` other than `OK`. -/
def status.Errorf (c : Code) (err : Option GoError) : GoError :=
  GoError.status c (fmt.v err)

/-! ## Messages, metadata, contexts -/

/-- Modelled from the spec: the request and response message types
(`SubmitTrainingJobRequest`, ... declared in `ml_training.pb.go`, which is not
part of the translated file) are flat schema-defined records.  A message is the
name of its type and the fields that are set; a field that is not listed has
its default (zero) value. -/
structure Message where
  typeName : String
  fields : List (String × String)
  deriving DecidableEq, Repr

/-- The zero value of a message type, as `var protoReq T` declares it. -/
def Message.zero (typeName : String) : Message := ⟨typeName, []⟩

def SubmitTrainingJobRequest : Message := Message.zero "SubmitTrainingJobRequest"
def SubmitCustomTrainingJobRequest : Message := Message.zero "SubmitCustomTrainingJobRequest"
def GetTrainingJobRequest : Message := Message.zero "GetTrainingJobRequest"
def ListTrainingJobsRequest : Message := Message.zero "ListTrainingJobsRequest"
def CancelTrainingJobRequest : Message := Message.zero "CancelTrainingJobRequest"
def DeleteCompletedTrainingJobRequest : Message := Message.zero "DeleteCompletedTrainingJobRequest"
def GetTrainingJobLogsRequest : Message := Message.zero "GetTrainingJobLogsRequest"

/-- Metadata (`metadata.MD`, a `map[string][]string`) as an association list
with one entry per key. -/
abbrev MD := List (String × List String)

/-- The values stored under a key (`md[k]`), empty when the key is absent. -/
def MD.get (md : MD) (k : String) : List String :=
  match md with
  | [] => []
  | (k', v) :: rest => if k' = k then v else MD.get rest k

/-- The assignment `out[k] = append(out[k], v...)`. -/
def MD.appendValues (out : MD) (k : String) (v : List String) : MD :=
  match out with
  | [] => [(k, v)]
  | (k', v') :: rest =>
    if k' = k then (k', v' ++ v) :: rest else (k', v') :: MD.appendValues rest k v

/-- The function `metadata.Join`: starting from an empty map, every value list
of every argument is appended under its key, in argument order. -/
def metadata.Join (mds : List MD) : MD :=
  mds.foldl (fun out md => md.foldl (fun o kv => MD.appendValues o kv.1 kv.2) out) []

/-- The struct `runtime.ServerMetadata`; its zero value has both maps empty. -/
structure ServerMetadata where
  HeaderMD : MD := []
  TrailerMD : MD := []
  deriving DecidableEq, Repr

/-- The struct `runtime.ServerTransportStream`: the header and trailer metadata
a server implementation recorded on it. -/
structure ServerTransportStream where
  header : MD := []
  trailer : MD := []
  deriving DecidableEq, Repr

def ServerTransportStream.Header (s : ServerTransportStream) : MD := s.header
def ServerTransportStream.Trailer (s : ServerTransportStream) : MD := s.trailer

/-- A `context.Context`, by the way it was derived. -/
inductive Context where
  | root (name : String)
  | WithCancel (parent : Context)
  | WithServerTransportStream (parent : Context)
  | annotated (parent : Context) (rpcMethodName : String) (httpPathPattern : String)
  | WithServerMetadata (parent : Context) (md : ServerMetadata)
  deriving DecidableEq, Repr

/-- The function `context.WithCancel`; the cancel function it also returns is
the action recorded by `Event.cancel` on this derived context. -/
def context.WithCancel (parent : Context) : Context := Context.WithCancel parent

/-- The function `grpc.NewContextWithServerTransportStream`. -/
def grpc.NewContextWithServerTransportStream (ctx : Context) : Context :=
  Context.WithServerTransportStream ctx

/-- The function `runtime.NewServerMetadataContext`. -/
def runtime.NewServerMetadataContext (ctx : Context) (md : ServerMetadata) : Context :=
  Context.WithServerMetadata ctx md

/-! ## HTTP requests and marshalers -/

/-- The part of `*http.Request` the gateway touches. -/
structure Request where
  ctx : Context
  Body : String
  Header : List (String × String) := []
  deriving DecidableEq, Repr

/-- The method `req.Context()`. -/
def Request.Context (req : Request) : MLTraining.Context := req.ctx

abbrev PathParams := List (String × String)

/-- An `http.ResponseWriter`, by identity. -/
abbrev ResponseWriter := Nat

/-- A `runtime.Decoder`: `Decode` receives the message as it stands and returns
it as the decoder left it, with the error (`none` is Go's nil). -/
structure Decoder where
  Decode : Message → Message × Option GoError

/-- A `runtime.Marshaler`, as far as the gateway uses it. -/
structure Marshaler where
  ContentType : String
  NewDecoder : String → Decoder

/-- One global forward-response option of the mux, by name. -/
abbrev ForwardResponseOption := String

/-! ## The service -/

/-- The seven RPC methods of `MLTrainingService`. -/
inductive Method where
  | SubmitTrainingJob
  | SubmitCustomTrainingJob
  | GetTrainingJob
  | ListTrainingJobs
  | CancelTrainingJob
  | DeleteCompletedTrainingJob
  | GetTrainingJobLogs
  deriving DecidableEq, Repr

/-- The result of one operation of the in-process server: the response, the
error, and the transport stream as the implementation left it (it reaches the
stream through the context). -/
structure ServerReply where
  msg : Option Message
  err : Option GoError
  stream : ServerTransportStream

/-- The interface `MLTrainingServiceServer` (declared in `ml_training_grpc.pb.go`,
outside the translated file), taken as a parameter: each operation receives the
context, the request and the current state of the transport stream. -/
structure MLTrainingServiceServer where
  SubmitTrainingJob : Context → Message → ServerTransportStream → ServerReply
  SubmitCustomTrainingJob : Context → Message → ServerTransportStream → ServerReply
  GetTrainingJob : Context → Message → ServerTransportStream → ServerReply
  ListTrainingJobs : Context → Message → ServerTransportStream → ServerReply
  CancelTrainingJob : Context → Message → ServerTransportStream → ServerReply
  DeleteCompletedTrainingJob : Context → Message → ServerTransportStream → ServerReply
  GetTrainingJobLogs : Context → Message → ServerTransportStream → ServerReply

/-- The result of one operation of the client stub: the response, the error,
and the header and trailer metadata the call stores through the call options
`grpc.Header(&metadata.HeaderMD)` and `grpc.Trailer(&metadata.TrailerMD)`. -/
structure ClientReply where
  msg : Option Message
  err : Option GoError
  header : MD
  trailer : MD

/-- The interface `MLTrainingServiceClient` (declared in `ml_training_grpc.pb.go`,
outside the translated file), taken as a parameter. -/
structure MLTrainingServiceClient where
  SubmitTrainingJob : Context → Message → ClientReply
  SubmitCustomTrainingJob : Context → Message → ClientReply
  GetTrainingJob : Context → Message → ClientReply
  ListTrainingJobs : Context → Message → ClientReply
  CancelTrainingJob : Context → Message → ClientReply
  DeleteCompletedTrainingJob : Context → Message → ClientReply
  GetTrainingJobLogs : Context → Message → ClientReply

/-! ## The world -/

/-- The externally visible actions of the gateway. -/
inductive Event where
  -- the call `marshaler.NewDecoder(req.Body).Decode(&protoReq)`: the body is read
  | decode (marshaler : Marshaler) (body : String)
  -- an operation of the in-process server is invoked
  | serverCall (m : Method) (ctx : Context) (req : Message)
  -- an operation of the client stub is invoked
  | clientCall (m : Method) (ctx : Context) (req : Message)
  -- the call `runtime.HTTPError(ctx, mux, marshaler, w, req, err)`
  | HTTPError (ctx : Context) (marshaler : Marshaler) (w : ResponseWriter) (req : Request)
      (err : GoError)
  -- the call `runtime.ForwardResponseMessage(ctx, mux, marshaler, w, req, resp, opts...)`
  | ForwardResponseMessage (ctx : Context) (marshaler : Marshaler) (w : ResponseWriter)
      (req : Request) (resp : Option Message) (opts : List ForwardResponseOption)
  -- the cancel function of a context derived by `context.WithCancel` is called
  | cancel (ctx : Context)

/-- The state threaded through the gateway: the actions so far, oldest first,
and the server transport stream of the request being handled. -/
structure World where
  trace : List Event := []
  stream : ServerTransportStream := {}

def World.emit (σ : World) (e : Event) : World := { σ with trace := σ.trace ++ [e] }

/-! ## Path patterns (`runtime.NewPattern`, `utilities` opcodes) -/

def utilities.OpNop : Int := 0
def utilities.OpPush : Int := 1
def utilities.OpLitPush : Int := 2
def utilities.OpPushM : Int := 3
def utilities.OpConcatN : Int := 4
def utilities.OpCapture : Int := 5

/-- The sentinel `runtime.ErrInvalidPattern`. -/
def runtime.ErrInvalidPattern : GoError := GoError.plain "invalid pattern"

/-- One typed instruction of a pattern. -/
structure op where
  code : Int
  operand : Int
  deriving DecidableEq, Repr

/-- The struct `runtime.Pattern`. -/
structure Pattern where
  ops : List op := []
  pool : List String := []
  vars : List String := []
  stacksize : Int := 0
  tailLen : Int := 0
  verb : String := ""
  deriving DecidableEq, Repr

/-- The local variables of the loop of `runtime.NewPattern`. -/
structure NewPatternState where
  typedOps : List op := []
  stack : Int := 0
  maxstack : Int := 0
  tailLen : Int := 0
  pushMSeen : Bool := false
  vars : List String := []

/-- The end of one iteration of the loop of `runtime.NewPattern`, reached by
every opcode but `OpNop`: the stack high-water mark is updated and the typed
instruction is appended. -/
def runtime.NewPattern.push (s : NewPatternState) (o : op) : NewPatternState :=
  { s with maxstack := if s.maxstack < s.stack then s.stack else s.maxstack,
           typedOps := s.typedOps ++ [o] }

/-- The loop of `runtime.NewPattern` over the (opcode, operand) pairs. -/
def runtime.NewPattern.loop (pool : List String) :
    List Int → NewPatternState → Except GoError NewPatternState
  | code :: operand :: rest, s =>
    if code = utilities.OpNop then
      runtime.NewPattern.loop pool rest s
    else if code = utilities.OpPush then
      let s := { s with tailLen := if s.pushMSeen then s.tailLen + 1 else s.tailLen,
                        stack := s.stack + 1 }
      runtime.NewPattern.loop pool rest (runtime.NewPattern.push s ⟨code, operand⟩)
    else if code = utilities.OpPushM then
      if s.pushMSeen then .error runtime.ErrInvalidPattern
      else
        let s := { s with pushMSeen := true, stack := s.stack + 1 }
        runtime.NewPattern.loop pool rest (runtime.NewPattern.push s ⟨code, operand⟩)
    else if code = utilities.OpLitPush then
      if operand < 0 ∨ (pool.length : Int) ≤ operand then .error runtime.ErrInvalidPattern
      else
        let s := { s with tailLen := if s.pushMSeen then s.tailLen + 1 else s.tailLen,
                          stack := s.stack + 1 }
        runtime.NewPattern.loop pool rest (runtime.NewPattern.push s ⟨code, operand⟩)
    else if code = utilities.OpConcatN then
      if operand ≤ 0 then .error runtime.ErrInvalidPattern
      else if s.stack - operand < 0 then .error runtime.ErrInvalidPattern
      else
        let s := { s with stack := s.stack - operand + 1 }
        runtime.NewPattern.loop pool rest (runtime.NewPattern.push s ⟨code, operand⟩)
    else if code = utilities.OpCapture then
      if operand < 0 ∨ (pool.length : Int) ≤ operand then .error runtime.ErrInvalidPattern
      else if s.stack - 1 < 0 then .error runtime.ErrInvalidPattern
      else
        let v := pool.getD operand.toNat ""
        let o : op := ⟨code, (s.vars.length : Int)⟩
        let s := { s with vars := s.vars ++ [v], stack := s.stack - 1 }
        runtime.NewPattern.loop pool rest (runtime.NewPattern.push s o)
    else .error runtime.ErrInvalidPattern
  | _, s => .ok s

/-- The function `runtime.NewPattern(version, ops, pool, verb)`. -/
def runtime.NewPattern (version : Int) (ops : List Int) (pool : List String) (verb : String) :
    Except GoError Pattern :=
  if version ≠ 1 then .error runtime.ErrInvalidPattern
  else if ops.length % 2 ≠ 0 then .error runtime.ErrInvalidPattern
  else
    match runtime.NewPattern.loop pool ops {} with
    | .error e => .error e
    | .ok s => .ok { ops := s.typedOps, pool := pool, vars := s.vars, stacksize := s.maxstack,
                     tailLen := s.tailLen, verb := verb }

/-- The function `runtime.MustPattern`: the pattern when there is no error.  The
Go function panics on an error; the zero pattern stands for that case. -/
def runtime.MustPattern (r : Except GoError Pattern) : Pattern :=
  match r with
  | .ok p => p
  | .error _ => {}

/-- The loop of `Pattern.String`: the stack of path segments after the typed
instructions have run. -/
def Pattern.segments (p : Pattern) : List op → List String → List String
  | [], stack => stack
  | o :: rest, stack =>
    if o.code = utilities.OpNop then Pattern.segments p rest stack
    else if o.code = utilities.OpPush then Pattern.segments p rest (stack ++ ["*"])
    else if o.code = utilities.OpLitPush then
      Pattern.segments p rest (stack ++ [p.pool.getD o.operand.toNat ""])
    else if o.code = utilities.OpPushM then Pattern.segments p rest (stack ++ ["**"])
    else if o.code = utilities.OpConcatN then
      let l := stack.length - o.operand.toNat
      Pattern.segments p rest (stack.take l ++ [String.intercalate "/" (stack.drop l)])
    else if o.code = utilities.OpCapture then
      let n := stack.length - 1
      Pattern.segments p rest
        (stack.set n ("\x7b" ++ p.vars.getD o.operand.toNat "" ++ "=" ++ stack.getD n "" ++ "\x7d"))
    else Pattern.segments p rest stack

/-- The method `Pattern.String`: the path template the pattern denotes. -/
def Pattern.String (p : Pattern) : String :=
  let segs := String.intercalate "/" (Pattern.segments p p.ops [])
  if p.verb ≠ "" then "/" ++ segs ++ ":" ++ p.verb else "/" ++ segs

/-! ## The mux -/

/-- The type `runtime.HandlerFunc`, with the world made explicit. -/
abbrev HandlerFunc := ResponseWriter → Request → PathParams → World → World

/-- One entry of the route table of the mux. -/
structure handler where
  pat : Pattern
  h : HandlerFunc

/-- The struct `runtime.ServeMux`.  `handlers` is the route table, a map from
the HTTP verb to the handlers registered for it (an absent verb has none).  The
other fields stand for what the runtime computes from the configuration of the
mux: the global forward-response options, the marshalers selected for a
request, and the outcome of annotating a context for a request. -/
structure ServeMux where
  handlers : String → List handler := fun _ => []
  forwardResponseOptions : List ForwardResponseOption := []
  marshalerForRequest : Request → Marshaler × Marshaler
  annotateContext : Context → Request → String → String → Except GoError Context
  annotateIncomingContext : Context → Request → String → String → Except GoError Context

/-- The method `mux.Handle(meth, pat, h)`: the new handler is put in front of
the handlers already registered for the verb. -/
def ServeMux.Handle (s : ServeMux) (meth : String) (pat : Pattern) (h : HandlerFunc) : ServeMux :=
  { s with handlers := fun m => if m = meth then ⟨pat, h⟩ :: s.handlers m else s.handlers m }

/-- The method `mux.GetForwardResponseOptions()`. -/
def ServeMux.GetForwardResponseOptions (s : ServeMux) : List ForwardResponseOption :=
  s.forwardResponseOptions

/-- The function `runtime.MarshalerForRequest(mux, req)`: the inbound and the
outbound marshaler. -/
def runtime.MarshalerForRequest (mux : ServeMux) (req : Request) : Marshaler × Marshaler :=
  mux.marshalerForRequest req

/-- The option `runtime.WithHTTPPathPattern(pattern)`, by the pattern it carries. -/
def runtime.WithHTTPPathPattern (pattern : String) : String := pattern

/-- The function `runtime.AnnotateContext(ctx, mux, req, rpcMethodName, opt)`. -/
def runtime.AnnotateContext (ctx : Context) (mux : ServeMux) (req : Request)
    (rpcMethodName : String) (httpPathPattern : String) : Except GoError Context :=
  mux.annotateContext ctx req rpcMethodName httpPathPattern

/-- The function `runtime.AnnotateIncomingContext(ctx, mux, req, rpcMethodName, opt)`. -/
def runtime.AnnotateIncomingContext (ctx : Context) (mux : ServeMux) (req : Request)
    (rpcMethodName : String) (httpPathPattern : String) : Except GoError Context :=
  mux.annotateIncomingContext ctx req rpcMethodName httpPathPattern

/-- The function `runtime.HTTPError`, as the action it performs on the world. -/
def runtime.HTTPError (ctx : Context) (_mux : ServeMux) (marshaler : Marshaler)
    (w : ResponseWriter) (req : Request) (err : GoError) (σ : World) : World :=
  σ.emit (Event.HTTPError ctx marshaler w req err)

/-- The function `runtime.ForwardResponseMessage`, as the action it performs on
the world. -/
def runtime.ForwardResponseMessage (ctx : Context) (_mux : ServeMux) (marshaler : Marshaler)
    (w : ResponseWriter) (req : Request) (resp : Option Message)
    (opts : List ForwardResponseOption) (σ : World) : World :=
  σ.emit (Event.ForwardResponseMessage ctx marshaler w req resp opts)

/-! ## Package-level variables -/

def pattern_MLTrainingService_SubmitTrainingJob_0 : Pattern :=
  runtime.MustPattern (runtime.NewPattern 1 [2, 0, 2, 1]
    ["viam.app.mltraining.v1.MLTrainingService", "SubmitTrainingJob"] "")

def pattern_MLTrainingService_SubmitCustomTrainingJob_0 : Pattern :=
  runtime.MustPattern (runtime.NewPattern 1 [2, 0, 2, 1]
    ["viam.app.mltraining.v1.MLTrainingService", "SubmitCustomTrainingJob"] "")

def pattern_MLTrainingService_GetTrainingJob_0 : Pattern :=
  runtime.MustPattern (runtime.NewPattern 1 [2, 0, 2, 1]
    ["viam.app.mltraining.v1.MLTrainingService", "GetTrainingJob"] "")

def pattern_MLTrainingService_ListTrainingJobs_0 : Pattern :=
  runtime.MustPattern (runtime.NewPattern 1 [2, 0, 2, 1]
    ["viam.app.mltraining.v1.MLTrainingService", "ListTrainingJobs"] "")

def pattern_MLTrainingService_CancelTrainingJob_0 : Pattern :=
  runtime.MustPattern (runtime.NewPattern 1 [2, 0, 2, 1]
    ["viam.app.mltraining.v1.MLTrainingService", "CancelTrainingJob"] "")

def pattern_MLTrainingService_DeleteCompletedTrainingJob_0 : Pattern :=
  runtime.MustPattern (runtime.NewPattern 1 [2, 0, 2, 1]
    ["viam.app.mltraining.v1.MLTrainingService", "DeleteCompletedTrainingJob"] "")

def pattern_MLTrainingService_GetTrainingJobLogs_0 : Pattern :=
  runtime.MustPattern (runtime.NewPattern 1 [2, 0, 2, 1]
    ["viam.app.mltraining.v1.MLTrainingService", "GetTrainingJobLogs"] "")

def forward_MLTrainingService_SubmitTrainingJob_0 := runtime.ForwardResponseMessage

def forward_MLTrainingService_SubmitCustomTrainingJob_0 := runtime.ForwardResponseMessage

def forward_MLTrainingService_GetTrainingJob_0 := runtime.ForwardResponseMessage

def forward_MLTrainingService_ListTrainingJobs_0 := runtime.ForwardResponseMessage

def forward_MLTrainingService_CancelTrainingJob_0 := runtime.ForwardResponseMessage

def forward_MLTrainingService_DeleteCompletedTrainingJob_0 := runtime.ForwardResponseMessage

def forward_MLTrainingService_GetTrainingJobLogs_0 := runtime.ForwardResponseMessage

/-! ## The request functions -/

/-- The result triple of a request function: message, metadata, error. -/
abbrev RequestResult := Option Message × ServerMetadata × Option GoError

def request_MLTrainingService_SubmitTrainingJob_0 (ctx : Context) (marshaler : Marshaler)
    (client : MLTrainingServiceClient) (req : Request) (_pathParams : PathParams) (σ : World) :
    RequestResult × World :=
  let protoReq : Message := SubmitTrainingJobRequest
  let metadata : ServerMetadata := {}
  let decoded := (marshaler.NewDecoder req.Body).Decode protoReq
  let σ := σ.emit (Event.decode marshaler req.Body)
  let protoReq := decoded.1
  let err := decoded.2
  if err ≠ none ∧ err ≠ some GoError.EOF then
    ((none, metadata, some (status.Errorf Code.InvalidArgument err)), σ)
  else
    let reply := client.SubmitTrainingJob ctx protoReq
    let σ := σ.emit (Event.clientCall Method.SubmitTrainingJob ctx protoReq)
    let metadata : ServerMetadata := { HeaderMD := reply.header, TrailerMD := reply.trailer }
    ((reply.msg, metadata, reply.err), σ)

def local_request_MLTrainingService_SubmitTrainingJob_0 (ctx : Context) (marshaler : Marshaler)
    (server : MLTrainingServiceServer) (req : Request) (_pathParams : PathParams) (σ : World) :
    RequestResult × World :=
  let protoReq : Message := SubmitTrainingJobRequest
  let metadata : ServerMetadata := {}
  let decoded := (marshaler.NewDecoder req.Body).Decode protoReq
  let σ := σ.emit (Event.decode marshaler req.Body)
  let protoReq := decoded.1
  let err := decoded.2
  if err ≠ none ∧ err ≠ some GoError.EOF then
    ((none, metadata, some (status.Errorf Code.InvalidArgument err)), σ)
  else
    let reply := server.SubmitTrainingJob ctx protoReq σ.stream
    let σ := { σ.emit (Event.serverCall Method.SubmitTrainingJob ctx protoReq) with stream := reply.stream }
    ((reply.msg, metadata, reply.err), σ)

def request_MLTrainingService_SubmitCustomTrainingJob_0 (ctx : Context) (marshaler : Marshaler)
    (client : MLTrainingServiceClient) (req : Request) (_pathParams : PathParams) (σ : World) :
    RequestResult × World :=
  let protoReq : Message := SubmitCustomTrainingJobRequest
  let metadata : ServerMetadata := {}
  let decoded := (marshaler.NewDecoder req.Body).Decode protoReq
  let σ := σ.emit (Event.decode marshaler req.Body)
  let protoReq := decoded.1
  let err := decoded.2
  if err ≠ none ∧ err ≠ some GoError.EOF then
    ((none, metadata, some (status.Errorf Code.InvalidArgument err)), σ)
  else
    let reply := client.SubmitCustomTrainingJob ctx protoReq
    let σ := σ.emit (Event.clientCall Method.SubmitCustomTrainingJob ctx protoReq)
    let metadata : ServerMetadata := { HeaderMD := reply.header, TrailerMD := reply.trailer }
    ((reply.msg, metadata, reply.err), σ)

def local_request_MLTrainingService_SubmitCustomTrainingJob_0 (ctx : Context) (marshaler : Marshaler)
    (server : MLTrainingServiceServer) (req : Request) (_pathParams : PathParams) (σ : World) :
    RequestResult × World :=
  let protoReq : Message := SubmitCustomTrainingJobRequest
  let metadata : ServerMetadata := {}
  let decoded := (marshaler.NewDecoder req.Body).Decode protoReq
  let σ := σ.emit (Event.decode marshaler req.Body)
  let protoReq := decoded.1
  let err := decoded.2
  if err ≠ none ∧ err ≠ some GoError.EOF then
    ((none, metadata, some (status.Errorf Code.InvalidArgument err)), σ)
  else
    let reply := server.SubmitCustomTrainingJob ctx protoReq σ.stream
    let σ := { σ.emit (Event.serverCall Method.SubmitCustomTrainingJob ctx protoReq) with stream := reply.stream }
    ((reply.msg, metadata, reply.err), σ)

def request_MLTrainingService_GetTrainingJob_0 (ctx : Context) (marshaler : Marshaler)
    (client : MLTrainingServiceClient) (req : Request) (_pathParams : PathParams) (σ : World) :
    RequestResult × World :=
  let protoReq : Message := GetTrainingJobRequest
  let metadata : ServerMetadata := {}
  let decoded := (marshaler.NewDecoder req.Body).Decode protoReq
  let σ := σ.emit (Event.decode marshaler req.Body)
  let protoReq := decoded.1
  let err := decoded.2
  if err ≠ none ∧ err ≠ some GoError.EOF then
    ((none, metadata, some (status.Errorf Code.InvalidArgument err)), σ)
  else
    let reply := client.GetTrainingJob ctx protoReq
    let σ := σ.emit (Event.clientCall Method.GetTrainingJob ctx protoReq)
    let metadata : ServerMetadata := { HeaderMD := reply.header, TrailerMD := reply.trailer }
    ((reply.msg, metadata, reply.err), σ)

def local_request_MLTrainingService_GetTrainingJob_0 (ctx : Context) (marshaler : Marshaler)
    (server : MLTrainingServiceServer) (req : Request) (_pathParams : PathParams) (σ : World) :
    RequestResult × World :=
  let protoReq : Message := GetTrainingJobRequest
  let metadata : ServerMetadata := {}
  let decoded := (marshaler.NewDecoder req.Body).Decode protoReq
  let σ := σ.emit (Event.decode marshaler req.Body)
  let protoReq := decoded.1
  let err := decoded.2
  if err ≠ none ∧ err ≠ some GoError.EOF then
    ((none, metadata, some (status.Errorf Code.InvalidArgument err)), σ)
  else
    let reply := server.GetTrainingJob ctx protoReq σ.stream
    let σ := { σ.emit (Event.serverCall Method.GetTrainingJob ctx protoReq) with stream := reply.stream }
    ((reply.msg, metadata, reply.err), σ)

def request_MLTrainingService_ListTrainingJobs_0 (ctx : Context) (marshaler : Marshaler)
    (client : MLTrainingServiceClient) (req : Request) (_pathParams : PathParams) (σ : World) :
    RequestResult × World :=
  let protoReq : Message := ListTrainingJobsRequest
  let metadata : ServerMetadata := {}
  let decoded := (marshaler.NewDecoder req.Body).Decode protoReq
  let σ := σ.emit (Event.decode marshaler req.Body)
  let protoReq := decoded.1
  let err := decoded.2
  if err ≠ none ∧ err ≠ some GoError.EOF then
    ((none, metadata, some (status.Errorf Code.InvalidArgument err)), σ)
  else
    let reply := client.ListTrainingJobs ctx protoReq
    let σ := σ.emit (Event.clientCall Method.ListTrainingJobs ctx protoReq)
    let metadata : ServerMetadata := { HeaderMD := reply.header, TrailerMD := reply.trailer }
    ((reply.msg, metadata, reply.err), σ)

def local_request_MLTrainingService_ListTrainingJobs_0 (ctx : Context) (marshaler : Marshaler)
    (server : MLTrainingServiceServer) (req : Request) (_pathParams : PathParams) (σ : World) :
    RequestResult × World :=
  let protoReq : Message := ListTrainingJobsRequest
  let metadata : ServerMetadata := {}
  let decoded := (marshaler.NewDecoder req.Body).Decode protoReq
  let σ := σ.emit (Event.decode marshaler req.Body)
  let protoReq := decoded.1
  let err := decoded.2
  if err ≠ none ∧ err ≠ some GoError.EOF then
    ((none, metadata, some (status.Errorf Code.InvalidArgument err)), σ)
  else
    let reply := server.ListTrainingJobs ctx protoReq σ.stream
    let σ := { σ.emit (Event.serverCall Method.ListTrainingJobs ctx protoReq) with stream := reply.stream }
    ((reply.msg, metadata, reply.err), σ)

def request_MLTrainingService_CancelTrainingJob_0 (ctx : Context) (marshaler : Marshaler)
    (client : MLTrainingServiceClient) (req : Request) (_pathParams : PathParams) (σ : World) :
    RequestResult × World :=
  let protoReq : Message := CancelTrainingJobRequest
  let metadata : ServerMetadata := {}
  let decoded := (marshaler.NewDecoder req.Body).Decode protoReq
  let σ := σ.emit (Event.decode marshaler req.Body)
  let protoReq := decoded.1
  let err := decoded.2
  if err ≠ none ∧ err ≠ some GoError.EOF then
    ((none, metadata, some (status.Errorf Code.InvalidArgument err)), σ)
  else
    let reply := client.CancelTrainingJob ctx protoReq
    let σ := σ.emit (Event.clientCall Method.CancelTrainingJob ctx protoReq)
    let metadata : ServerMetadata := { HeaderMD := reply.header, TrailerMD := reply.trailer }
    ((reply.msg, metadata, reply.err), σ)

def local_request_MLTrainingService_CancelTrainingJob_0 (ctx : Context) (marshaler : Marshaler)
    (server : MLTrainingServiceServer) (req : Request) (_pathParams : PathParams) (σ : World) :
    RequestResult × World :=
  let protoReq : Message := CancelTrainingJobRequest
  let metadata : ServerMetadata := {}
  let decoded := (marshaler.NewDecoder req.Body).Decode protoReq
  let σ := σ.emit (Event.decode marshaler req.Body)
  let protoReq := decoded.1
  let err := decoded.2
  if err ≠ none ∧ err ≠ some GoError.EOF then
    ((none, metadata, some (status.Errorf Code.InvalidArgument err)), σ)
  else
    let reply := server.CancelTrainingJob ctx protoReq σ.stream
    let σ := { σ.emit (Event.serverCall Method.CancelTrainingJob ctx protoReq) with stream := reply.stream }
    ((reply.msg, metadata, reply.err), σ)

def request_MLTrainingService_DeleteCompletedTrainingJob_0 (ctx : Context) (marshaler : Marshaler)
    (client : MLTrainingServiceClient) (req : Request) (_pathParams : PathParams) (σ : World) :
    RequestResult × World :=
  let protoReq : Message := DeleteCompletedTrainingJobRequest
  let metadata : ServerMetadata := {}
  let decoded := (marshaler.NewDecoder req.Body).Decode protoReq
  let σ := σ.emit (Event.decode marshaler req.Body)
  let protoReq := decoded.1
  let err := decoded.2
  if err ≠ none ∧ err ≠ some GoError.EOF then
    ((none, metadata, some (status.Errorf Code.InvalidArgument err)), σ)
  else
    let reply := client.DeleteCompletedTrainingJob ctx protoReq
    let σ := σ.emit (Event.clientCall Method.DeleteCompletedTrainingJob ctx protoReq)
    let metadata : ServerMetadata := { HeaderMD := reply.header, TrailerMD := reply.trailer }
    ((reply.msg, metadata, reply.err), σ)

def local_request_MLTrainingService_DeleteCompletedTrainingJob_0 (ctx : Context) (marshaler : Marshaler)
    (server : MLTrainingServiceServer) (req : Request) (_pathParams : PathParams) (σ : World) :
    RequestResult × World :=
  let protoReq : Message := DeleteCompletedTrainingJobRequest
  let metadata : ServerMetadata := {}
  let decoded := (marshaler.NewDecoder req.Body).Decode protoReq
  let σ := σ.emit (Event.decode marshaler req.Body)
  let protoReq := decoded.1
  let err := decoded.2
  if err ≠ none ∧ err ≠ some GoError.EOF then
    ((none, metadata, some (status.Errorf Code.InvalidArgument err)), σ)
  else
    let reply := server.DeleteCompletedTrainingJob ctx protoReq σ.stream
    let σ := { σ.emit (Event.serverCall Method.DeleteCompletedTrainingJob ctx protoReq) with stream := reply.stream }
    ((reply.msg, metadata, reply.err), σ)

def request_MLTrainingService_GetTrainingJobLogs_0 (ctx : Context) (marshaler : Marshaler)
    (client : MLTrainingServiceClient) (req : Request) (_pathParams : PathParams) (σ : World) :
    RequestResult × World :=
  let protoReq : Message := GetTrainingJobLogsRequest
  let metadata : ServerMetadata := {}
  let decoded := (marshaler.NewDecoder req.Body).Decode protoReq
  let σ := σ.emit (Event.decode marshaler req.Body)
  let protoReq := decoded.1
  let err := decoded.2
  if err ≠ none ∧ err ≠ some GoError.EOF then
    ((none, metadata, some (status.Errorf Code.InvalidArgument err)), σ)
  else
    let reply := client.GetTrainingJobLogs ctx protoReq
    let σ := σ.emit (Event.clientCall Method.GetTrainingJobLogs ctx protoReq)
    let metadata : ServerMetadata := { HeaderMD := reply.header, TrailerMD := reply.trailer }
    ((reply.msg, metadata, reply.err), σ)

def local_request_MLTrainingService_GetTrainingJobLogs_0 (ctx : Context) (marshaler : Marshaler)
    (server : MLTrainingServiceServer) (req : Request) (_pathParams : PathParams) (σ : World) :
    RequestResult × World :=
  let protoReq : Message := GetTrainingJobLogsRequest
  let metadata : ServerMetadata := {}
  let decoded := (marshaler.NewDecoder req.Body).Decode protoReq
  let σ := σ.emit (Event.decode marshaler req.Body)
  let protoReq := decoded.1
  let err := decoded.2
  if err ≠ none ∧ err ≠ some GoError.EOF then
    ((none, metadata, some (status.Errorf Code.InvalidArgument err)), σ)
  else
    let reply := server.GetTrainingJobLogs ctx protoReq σ.stream
    let σ := { σ.emit (Event.serverCall Method.GetTrainingJobLogs ctx protoReq) with stream := reply.stream }
    ((reply.msg, metadata, reply.err), σ)

/-! ## The handlers registered in local mode

`RegisterMLTrainingServiceHandlerServer_funcN` is the N-th function literal of
`RegisterMLTrainingServiceHandlerServer`, closed over `mux` and `server`.  The
deferred `cancel()` runs last on every path out of the handler. -/

def RegisterMLTrainingServiceHandlerServer_func1 (mux : ServeMux)
    (server : MLTrainingServiceServer) : HandlerFunc :=
  fun w req pathParams σ =>
    let ctx := context.WithCancel req.Context
    let cancel := Event.cancel ctx
    let σ : World :=
      let σ : World := { σ with stream := {} }
      let ctx := grpc.NewContextWithServerTransportStream ctx
      let marshalers := runtime.MarshalerForRequest mux req
      let inboundMarshaler := marshalers.1
      let outboundMarshaler := marshalers.2
      match runtime.AnnotateIncomingContext ctx mux req
          "/viam.app.mltraining.v1.MLTrainingService/SubmitTrainingJob"
          (runtime.WithHTTPPathPattern "/viam.app.mltraining.v1.MLTrainingService/SubmitTrainingJob") with
      | .error err => runtime.HTTPError ctx mux outboundMarshaler w req err σ
      | .ok annotatedContext =>
        let r := local_request_MLTrainingService_SubmitTrainingJob_0 annotatedContext
          inboundMarshaler server req pathParams σ
        let resp := r.1.1
        let md := r.1.2.1
        let err := r.1.2.2
        let σ := r.2
        let md : ServerMetadata :=
          { HeaderMD := metadata.Join [md.HeaderMD, σ.stream.Header],
            TrailerMD := metadata.Join [md.TrailerMD, σ.stream.Trailer] }
        let annotatedContext := runtime.NewServerMetadataContext annotatedContext md
        match err with
        | some err => runtime.HTTPError annotatedContext mux outboundMarshaler w req err σ
        | none =>
          forward_MLTrainingService_SubmitTrainingJob_0 annotatedContext mux outboundMarshaler w req resp
            mux.GetForwardResponseOptions σ
    σ.emit cancel

def RegisterMLTrainingServiceHandlerServer_func2 (mux : ServeMux)
    (server : MLTrainingServiceServer) : HandlerFunc :=
  fun w req pathParams σ =>
    let ctx := context.WithCancel req.Context
    let cancel := Event.cancel ctx
    let σ : World :=
      let σ : World := { σ with stream := {} }
      let ctx := grpc.NewContextWithServerTransportStream ctx
      let marshalers := runtime.MarshalerForRequest mux req
      let inboundMarshaler := marshalers.1
      let outboundMarshaler := marshalers.2
      match runtime.AnnotateIncomingContext ctx mux req
          "/viam.app.mltraining.v1.MLTrainingService/SubmitCustomTrainingJob"
          (runtime.WithHTTPPathPattern "/viam.app.mltraining.v1.MLTrainingService/SubmitCustomTrainingJob") with
      | .error err => runtime.HTTPError ctx mux outboundMarshaler w req err σ
      | .ok annotatedContext =>
        let r := local_request_MLTrainingService_SubmitCustomTrainingJob_0 annotatedContext
          inboundMarshaler server req pathParams σ
        let resp := r.1.1
        let md := r.1.2.1
        let err := r.1.2.2
        let σ := r.2
        let md : ServerMetadata :=
          { HeaderMD := metadata.Join [md.HeaderMD, σ.stream.Header],
            TrailerMD := metadata.Join [md.TrailerMD, σ.stream.Trailer] }
        let annotatedContext := runtime.NewServerMetadataContext annotatedContext md
        match err with
        | some err => runtime.HTTPError annotatedContext mux outboundMarshaler w req err σ
        | none =>
          forward_MLTrainingService_SubmitCustomTrainingJob_0 annotatedContext mux outboundMarshaler w req resp
            mux.GetForwardResponseOptions σ
    σ.emit cancel

def RegisterMLTrainingServiceHandlerServer_func3 (mux : ServeMux)
    (server : MLTrainingServiceServer) : HandlerFunc :=
  fun w req pathParams σ =>
    let ctx := context.WithCancel req.Context
    let cancel := Event.cancel ctx
    let σ : World :=
      let σ : World := { σ with stream := {} }
      let ctx := grpc.NewContextWithServerTransportStream ctx
      let marshalers := runtime.MarshalerForRequest mux req
      let inboundMarshaler := marshalers.1
      let outboundMarshaler := marshalers.2
      match runtime.AnnotateIncomingContext ctx mux req
          "/viam.app.mltraining.v1.MLTrainingService/GetTrainingJob"
          (runtime.WithHTTPPathPattern "/viam.app.mltraining.v1.MLTrainingService/GetTrainingJob") with
      | .error err => runtime.HTTPError ctx mux outboundMarshaler w req err σ
      | .ok annotatedContext =>
        let r := local_request_MLTrainingService_GetTrainingJob_0 annotatedContext
          inboundMarshaler server req pathParams σ
        let resp := r.1.1
        let md := r.1.2.1
        let err := r.1.2.2
        let σ := r.2
        let md : ServerMetadata :=
          { HeaderMD := metadata.Join [md.HeaderMD, σ.stream.Header],
            TrailerMD := metadata.Join [md.TrailerMD, σ.stream.Trailer] }
        let annotatedContext := runtime.NewServerMetadataContext annotatedContext md
        match err with
        | some err => runtime.HTTPError annotatedContext mux outboundMarshaler w req err σ
        | none =>
          forward_MLTrainingService_GetTrainingJob_0 annotatedContext mux outboundMarshaler w req resp
            mux.GetForwardResponseOptions σ
    σ.emit cancel

def RegisterMLTrainingServiceHandlerServer_func4 (mux : ServeMux)
    (server : MLTrainingServiceServer) : HandlerFunc :=
  fun w req pathParams σ =>
    let ctx := context.WithCancel req.Context
    let cancel := Event.cancel ctx
    let σ : World :=
      let σ : World := { σ with stream := {} }
      let ctx := grpc.NewContextWithServerTransportStream ctx
      let marshalers := runtime.MarshalerForRequest mux req
      let inboundMarshaler := marshalers.1
      let outboundMarshaler := marshalers.2
      match runtime.AnnotateIncomingContext ctx mux req
          "/viam.app.mltraining.v1.MLTrainingService/ListTrainingJobs"
          (runtime.WithHTTPPathPattern "/viam.app.mltraining.v1.MLTrainingService/ListTrainingJobs") with
      | .error err => runtime.HTTPError ctx mux outboundMarshaler w req err σ
      | .ok annotatedContext =>
        let r := local_request_MLTrainingService_ListTrainingJobs_0 annotatedContext
          inboundMarshaler server req pathParams σ
        let resp := r.1.1
        let md := r.1.2.1
        let err := r.1.2.2
        let σ := r.2
        let md : ServerMetadata :=
          { HeaderMD := metadata.Join [md.HeaderMD, σ.stream.Header],
            TrailerMD := metadata.Join [md.TrailerMD, σ.stream.Trailer] }
        let annotatedContext := runtime.NewServerMetadataContext annotatedContext md
        match err with
        | some err => runtime.HTTPError annotatedContext mux outboundMarshaler w req err σ
        | none =>
          forward_MLTrainingService_ListTrainingJobs_0 annotatedContext mux outboundMarshaler w req resp
            mux.GetForwardResponseOptions σ
    σ.emit cancel

def RegisterMLTrainingServiceHandlerServer_func5 (mux : ServeMux)
    (server : MLTrainingServiceServer) : HandlerFunc :=
  fun w req pathParams σ =>
    let ctx := context.WithCancel req.Context
    let cancel := Event.cancel ctx
    let σ : World :=
      let σ : World := { σ with stream := {} }
      let ctx := grpc.NewContextWithServerTransportStream ctx
      let marshalers := runtime.MarshalerForRequest mux req
      let inboundMarshaler := marshalers.1
      let outboundMarshaler := marshalers.2
      match runtime.AnnotateIncomingContext ctx mux req
          "/viam.app.mltraining.v1.MLTrainingService/CancelTrainingJob"
          (runtime.WithHTTPPathPattern "/viam.app.mltraining.v1.MLTrainingService/CancelTrainingJob") with
      | .error err => runtime.HTTPError ctx mux outboundMarshaler w req err σ
      | .ok annotatedContext =>
        let r := local_request_MLTrainingService_CancelTrainingJob_0 annotatedContext
          inboundMarshaler server req pathParams σ
        let resp := r.1.1
        let md := r.1.2.1
        let err := r.1.2.2
        let σ := r.2
        let md : ServerMetadata :=
          { HeaderMD := metadata.Join [md.HeaderMD, σ.stream.Header],
            TrailerMD := metadata.Join [md.TrailerMD, σ.stream.Trailer] }
        let annotatedContext := runtime.NewServerMetadataContext annotatedContext md
        match err with
        | some err => runtime.HTTPError annotatedContext mux outboundMarshaler w req err σ
        | none =>
          forward_MLTrainingService_CancelTrainingJob_0 annotatedContext mux outboundMarshaler w req resp
            mux.GetForwardResponseOptions σ
    σ.emit cancel

def RegisterMLTrainingServiceHandlerServer_func6 (mux : ServeMux)
    (server : MLTrainingServiceServer) : HandlerFunc :=
  fun w req pathParams σ =>
    let ctx := context.WithCancel req.Context
    let cancel := Event.cancel ctx
    let σ : World :=
      let σ : World := { σ with stream := {} }
      let ctx := grpc.NewContextWithServerTransportStream ctx
      let marshalers := runtime.MarshalerForRequest mux req
      let inboundMarshaler := marshalers.1
      let outboundMarshaler := marshalers.2
      match runtime.AnnotateIncomingContext ctx mux req
          "/viam.app.mltraining.v1.MLTrainingService/DeleteCompletedTrainingJob"
          (runtime.WithHTTPPathPattern "/viam.app.mltraining.v1.MLTrainingService/DeleteCompletedTrainingJob") with
      | .error err => runtime.HTTPError ctx mux outboundMarshaler w req err σ
      | .ok annotatedContext =>
        let r := local_request_MLTrainingService_DeleteCompletedTrainingJob_0 annotatedContext
          inboundMarshaler server req pathParams σ
        let resp := r.1.1
        let md := r.1.2.1
        let err := r.1.2.2
        let σ := r.2
        let md : ServerMetadata :=
          { HeaderMD := metadata.Join [md.HeaderMD, σ.stream.Header],
            TrailerMD := metadata.Join [md.TrailerMD, σ.stream.Trailer] }
        let annotatedContext := runtime.NewServerMetadataContext annotatedContext md
        match err with
        | some err => runtime.HTTPError annotatedContext mux outboundMarshaler w req err σ
        | none =>
          forward_MLTrainingService_DeleteCompletedTrainingJob_0 annotatedContext mux outboundMarshaler w req resp
            mux.GetForwardResponseOptions σ
    σ.emit cancel

def RegisterMLTrainingServiceHandlerServer_func7 (mux : ServeMux)
    (server : MLTrainingServiceServer) : HandlerFunc :=
  fun w req pathParams σ =>
    let ctx := context.WithCancel req.Context
    let cancel := Event.cancel ctx
    let σ : World :=
      let σ : World := { σ with stream := {} }
      let ctx := grpc.NewContextWithServerTransportStream ctx
      let marshalers := runtime.MarshalerForRequest mux req
      let inboundMarshaler := marshalers.1
      let outboundMarshaler := marshalers.2
      match runtime.AnnotateIncomingContext ctx mux req
          "/viam.app.mltraining.v1.MLTrainingService/GetTrainingJobLogs"
          (runtime.WithHTTPPathPattern "/viam.app.mltraining.v1.MLTrainingService/GetTrainingJobLogs") with
      | .error err => runtime.HTTPError ctx mux outboundMarshaler w req err σ
      | .ok annotatedContext =>
        let r := local_request_MLTrainingService_GetTrainingJobLogs_0 annotatedContext
          inboundMarshaler server req pathParams σ
        let resp := r.1.1
        let md := r.1.2.1
        let err := r.1.2.2
        let σ := r.2
        let md : ServerMetadata :=
          { HeaderMD := metadata.Join [md.HeaderMD, σ.stream.Header],
            TrailerMD := metadata.Join [md.TrailerMD, σ.stream.Trailer] }
        let annotatedContext := runtime.NewServerMetadataContext annotatedContext md
        match err with
        | some err => runtime.HTTPError annotatedContext mux outboundMarshaler w req err σ
        | none =>
          forward_MLTrainingService_GetTrainingJobLogs_0 annotatedContext mux outboundMarshaler w req resp
            mux.GetForwardResponseOptions σ
    σ.emit cancel

/-- The function `RegisterMLTrainingServiceHandlerServer`: the mux after the
seven calls of `mux.Handle`, and the returned error.  The handlers are closed
over the mux, of which they use the configuration only. -/
def RegisterMLTrainingServiceHandlerServer (_ctx : Context) (mux : ServeMux)
    (server : MLTrainingServiceServer) : ServeMux × Option GoError :=
  let h := mux
  let h := h.Handle "POST" pattern_MLTrainingService_SubmitTrainingJob_0
    (RegisterMLTrainingServiceHandlerServer_func1 mux server)
  let h := h.Handle "POST" pattern_MLTrainingService_SubmitCustomTrainingJob_0
    (RegisterMLTrainingServiceHandlerServer_func2 mux server)
  let h := h.Handle "POST" pattern_MLTrainingService_GetTrainingJob_0
    (RegisterMLTrainingServiceHandlerServer_func3 mux server)
  let h := h.Handle "POST" pattern_MLTrainingService_ListTrainingJobs_0
    (RegisterMLTrainingServiceHandlerServer_func4 mux server)
  let h := h.Handle "POST" pattern_MLTrainingService_CancelTrainingJob_0
    (RegisterMLTrainingServiceHandlerServer_func5 mux server)
  let h := h.Handle "POST" pattern_MLTrainingService_DeleteCompletedTrainingJob_0
    (RegisterMLTrainingServiceHandlerServer_func6 mux server)
  let h := h.Handle "POST" pattern_MLTrainingService_GetTrainingJobLogs_0
    (RegisterMLTrainingServiceHandlerServer_func7 mux server)
  (h, none)

/-! ## The handlers registered in remote mode -/

def RegisterMLTrainingServiceHandlerClient_func1 (mux : ServeMux)
    (client : MLTrainingServiceClient) : HandlerFunc :=
  fun w req pathParams σ =>
    let ctx := context.WithCancel req.Context
    let cancel := Event.cancel ctx
    let σ : World :=
      let marshalers := runtime.MarshalerForRequest mux req
      let inboundMarshaler := marshalers.1
      let outboundMarshaler := marshalers.2
      match runtime.AnnotateContext ctx mux req
          "/viam.app.mltraining.v1.MLTrainingService/SubmitTrainingJob"
          (runtime.WithHTTPPathPattern "/viam.app.mltraining.v1.MLTrainingService/SubmitTrainingJob") with
      | .error err => runtime.HTTPError ctx mux outboundMarshaler w req err σ
      | .ok annotatedContext =>
        let r := request_MLTrainingService_SubmitTrainingJob_0 annotatedContext
          inboundMarshaler client req pathParams σ
        let resp := r.1.1
        let md := r.1.2.1
        let err := r.1.2.2
        let σ := r.2
        let annotatedContext := runtime.NewServerMetadataContext annotatedContext md
        match err with
        | some err => runtime.HTTPError annotatedContext mux outboundMarshaler w req err σ
        | none =>
          forward_MLTrainingService_SubmitTrainingJob_0 annotatedContext mux outboundMarshaler w req resp
            mux.GetForwardResponseOptions σ
    σ.emit cancel

def RegisterMLTrainingServiceHandlerClient_func2 (mux : ServeMux)
    (client : MLTrainingServiceClient) : HandlerFunc :=
  fun w req pathParams σ =>
    let ctx := context.WithCancel req.Context
    let cancel := Event.cancel ctx
    let σ : World :=
      let marshalers := runtime.MarshalerForRequest mux req
      let inboundMarshaler := marshalers.1
      let outboundMarshaler := marshalers.2
      match runtime.AnnotateContext ctx mux req
          "/viam.app.mltraining.v1.MLTrainingService/SubmitCustomTrainingJob"
          (runtime.WithHTTPPathPattern "/viam.app.mltraining.v1.MLTrainingService/SubmitCustomTrainingJob") with
      | .error err => runtime.HTTPError ctx mux outboundMarshaler w req err σ
      | .ok annotatedContext =>
        let r := request_MLTrainingService_SubmitCustomTrainingJob_0 annotatedContext
          inboundMarshaler client req pathParams σ
        let resp := r.1.1
        let md := r.1.2.1
        let err := r.1.2.2
        let σ := r.2
        let annotatedContext := runtime.NewServerMetadataContext annotatedContext md
        match err with
        | some err => runtime.HTTPError annotatedContext mux outboundMarshaler w req err σ
        | none =>
          forward_MLTrainingService_SubmitCustomTrainingJob_0 annotatedContext mux outboundMarshaler w req resp
            mux.GetForwardResponseOptions σ
    σ.emit cancel

def RegisterMLTrainingServiceHandlerClient_func3 (mux : ServeMux)
    (client : MLTrainingServiceClient) : HandlerFunc :=
  fun w req pathParams σ =>
    let ctx := context.WithCancel req.Context
    let cancel := Event.cancel ctx
    let σ : World :=
      let marshalers := runtime.MarshalerForRequest mux req
      let inboundMarshaler := marshalers.1
      let outboundMarshaler := marshalers.2
      match runtime.AnnotateContext ctx mux req
          "/viam.app.mltraining.v1.MLTrainingService/GetTrainingJob"
          (runtime.WithHTTPPathPattern "/viam.app.mltraining.v1.MLTrainingService/GetTrainingJob") with
      | .error err => runtime.HTTPError ctx mux outboundMarshaler w req err σ
      | .ok annotatedContext =>
        let r := request_MLTrainingService_GetTrainingJob_0 annotatedContext
          inboundMarshaler client req pathParams σ
        let resp := r.1.1
        let md := r.1.2.1
        let err := r.1.2.2
        let σ := r.2
        let annotatedContext := runtime.NewServerMetadataContext annotatedContext md
        match err with
        | some err => runtime.HTTPError annotatedContext mux outboundMarshaler w req err σ
        | none =>
          forward_MLTrainingService_GetTrainingJob_0 annotatedContext mux outboundMarshaler w req resp
            mux.GetForwardResponseOptions σ
    σ.emit cancel

def RegisterMLTrainingServiceHandlerClient_func4 (mux : ServeMux)
    (client : MLTrainingServiceClient) : HandlerFunc :=
  fun w req pathParams σ =>
    let ctx := context.WithCancel req.Context
    let cancel := Event.cancel ctx
    let σ : World :=
      let marshalers := runtime.MarshalerForRequest mux req
      let inboundMarshaler := marshalers.1
      let outboundMarshaler := marshalers.2
      match runtime.AnnotateContext ctx mux req
          "/viam.app.mltraining.v1.MLTrainingService/ListTrainingJobs"
          (runtime.WithHTTPPathPattern "/viam.app.mltraining.v1.MLTrainingService/ListTrainingJobs") with
      | .error err => runtime.HTTPError ctx mux outboundMarshaler w req err σ
      | .ok annotatedContext =>
        let r := request_MLTrainingService_ListTrainingJobs_0 annotatedContext
          inboundMarshaler client req pathParams σ
        let resp := r.1.1
        let md := r.1.2.1
        let err := r.1.2.2
        let σ := r.2
        let annotatedContext := runtime.NewServerMetadataContext annotatedContext md
        match err with
        | some err => runtime.HTTPError annotatedContext mux outboundMarshaler w req err σ
        | none =>
          forward_MLTrainingService_ListTrainingJobs_0 annotatedContext mux outboundMarshaler w req resp
            mux.GetForwardResponseOptions σ
    σ.emit cancel

def RegisterMLTrainingServiceHandlerClient_func5 (mux : ServeMux)
    (client : MLTrainingServiceClient) : HandlerFunc :=
  fun w req pathParams σ =>
    let ctx := context.WithCancel req.Context
    let cancel := Event.cancel ctx
    let σ : World :=
      let marshalers := runtime.MarshalerForRequest mux req
      let inboundMarshaler := marshalers.1
      let outboundMarshaler := marshalers.2
      match runtime.AnnotateContext ctx mux req
          "/viam.app.mltraining.v1.MLTrainingService/CancelTrainingJob"
          (runtime.WithHTTPPathPattern "/viam.app.mltraining.v1.MLTrainingService/CancelTrainingJob") with
      | .error err => runtime.HTTPError ctx mux outboundMarshaler w req err σ
      | .ok annotatedContext =>
        let r := request_MLTrainingService_CancelTrainingJob_0 annotatedContext
          inboundMarshaler client req pathParams σ
        let resp := r.1.1
        let md := r.1.2.1
        let err := r.1.2.2
        let σ := r.2
        let annotatedContext := runtime.NewServerMetadataContext annotatedContext md
        match err with
        | some err => runtime.HTTPError annotatedContext mux outboundMarshaler w req err σ
        | none =>
          forward_MLTrainingService_CancelTrainingJob_0 annotatedContext mux outboundMarshaler w req resp
            mux.GetForwardResponseOptions σ
    σ.emit cancel

def RegisterMLTrainingServiceHandlerClient_func6 (mux : ServeMux)
    (client : MLTrainingServiceClient) : HandlerFunc :=
  fun w req pathParams σ =>
    let ctx := context.WithCancel req.Context
    let cancel := Event.cancel ctx
    let σ : World :=
      let marshalers := runtime.MarshalerForRequest mux req
      let inboundMarshaler := marshalers.1
      let outboundMarshaler := marshalers.2
      match runtime.AnnotateContext ctx mux req
          "/viam.app.mltraining.v1.MLTrainingService/DeleteCompletedTrainingJob"
          (runtime.WithHTTPPathPattern "/viam.app.mltraining.v1.MLTrainingService/DeleteCompletedTrainingJob") with
      | .error err => runtime.HTTPError ctx mux outboundMarshaler w req err σ
      | .ok annotatedContext =>
        let r := request_MLTrainingService_DeleteCompletedTrainingJob_0 annotatedContext
          inboundMarshaler client req pathParams σ
        let resp := r.1.1
        let md := r.1.2.1
        let err := r.1.2.2
        let σ := r.2
        let annotatedContext := runtime.NewServerMetadataContext annotatedContext md
        match err with
        | some err => runtime.HTTPError annotatedContext mux outboundMarshaler w req err σ
        | none =>
          forward_MLTrainingService_DeleteCompletedTrainingJob_0 annotatedContext mux outboundMarshaler w req resp
            mux.GetForwardResponseOptions σ
    σ.emit cancel

def RegisterMLTrainingServiceHandlerClient_func7 (mux : ServeMux)
    (client : MLTrainingServiceClient) : HandlerFunc :=
  fun w req pathParams σ =>
    let ctx := context.WithCancel req.Context
    let cancel := Event.cancel ctx
    let σ : World :=
      let marshalers := runtime.MarshalerForRequest mux req
      let inboundMarshaler := marshalers.1
      let outboundMarshaler := marshalers.2
      match runtime.AnnotateContext ctx mux req
          "/viam.app.mltraining.v1.MLTrainingService/GetTrainingJobLogs"
          (runtime.WithHTTPPathPattern "/viam.app.mltraining.v1.MLTrainingService/GetTrainingJobLogs") with
      | .error err => runtime.HTTPError ctx mux outboundMarshaler w req err σ
      | .ok annotatedContext =>
        let r := request_MLTrainingService_GetTrainingJobLogs_0 annotatedContext
          inboundMarshaler client req pathParams σ
        let resp := r.1.1
        let md := r.1.2.1
        let err := r.1.2.2
        let σ := r.2
        let annotatedContext := runtime.NewServerMetadataContext annotatedContext md
        match err with
        | some err => runtime.HTTPError annotatedContext mux outboundMarshaler w req err σ
        | none =>
          forward_MLTrainingService_GetTrainingJobLogs_0 annotatedContext mux outboundMarshaler w req resp
            mux.GetForwardResponseOptions σ
    σ.emit cancel

/-- The function `RegisterMLTrainingServiceHandlerClient`. -/
def RegisterMLTrainingServiceHandlerClient (_ctx : Context) (mux : ServeMux)
    (client : MLTrainingServiceClient) : ServeMux × Option GoError :=
  let h := mux
  let h := h.Handle "POST" pattern_MLTrainingService_SubmitTrainingJob_0
    (RegisterMLTrainingServiceHandlerClient_func1 mux client)
  let h := h.Handle "POST" pattern_MLTrainingService_SubmitCustomTrainingJob_0
    (RegisterMLTrainingServiceHandlerClient_func2 mux client)
  let h := h.Handle "POST" pattern_MLTrainingService_GetTrainingJob_0
    (RegisterMLTrainingServiceHandlerClient_func3 mux client)
  let h := h.Handle "POST" pattern_MLTrainingService_ListTrainingJobs_0
    (RegisterMLTrainingServiceHandlerClient_func4 mux client)
  let h := h.Handle "POST" pattern_MLTrainingService_CancelTrainingJob_0
    (RegisterMLTrainingServiceHandlerClient_func5 mux client)
  let h := h.Handle "POST" pattern_MLTrainingService_DeleteCompletedTrainingJob_0
    (RegisterMLTrainingServiceHandlerClient_func6 mux client)
  let h := h.Handle "POST" pattern_MLTrainingService_GetTrainingJobLogs_0
    (RegisterMLTrainingServiceHandlerClient_func7 mux client)
  (h, none)

/-! ## The seven methods, side by side

Tables that pick, for a method, the declarations the source repeats once per
method. -/

/-- The name of the method -/
def Method.name : Method → String
  | .SubmitTrainingJob => "SubmitTrainingJob"
  | .SubmitCustomTrainingJob => "SubmitCustomTrainingJob"
  | .GetTrainingJob => "GetTrainingJob"
  | .ListTrainingJobs => "ListTrainingJobs"
  | .CancelTrainingJob => "CancelTrainingJob"
  | .DeleteCompletedTrainingJob => "DeleteCompletedTrainingJob"
  | .GetTrainingJobLogs => "GetTrainingJobLogs"

/-- The string literal each handler of the method passes to context annotation, as the RPC method name and as the HTTP path pattern -/
def Method.rpcName : Method → String
  | .SubmitTrainingJob => "/viam.app.mltraining.v1.MLTrainingService/SubmitTrainingJob"
  | .SubmitCustomTrainingJob => "/viam.app.mltraining.v1.MLTrainingService/SubmitCustomTrainingJob"
  | .GetTrainingJob => "/viam.app.mltraining.v1.MLTrainingService/GetTrainingJob"
  | .ListTrainingJobs => "/viam.app.mltraining.v1.MLTrainingService/ListTrainingJobs"
  | .CancelTrainingJob => "/viam.app.mltraining.v1.MLTrainingService/CancelTrainingJob"
  | .DeleteCompletedTrainingJob => "/viam.app.mltraining.v1.MLTrainingService/DeleteCompletedTrainingJob"
  | .GetTrainingJobLogs => "/viam.app.mltraining.v1.MLTrainingService/GetTrainingJobLogs"

/-- The zero value of the request type of the method: the initial `protoReq` of its request functions -/
def Method.protoReq : Method → Message
  | .SubmitTrainingJob => SubmitTrainingJobRequest
  | .SubmitCustomTrainingJob => SubmitCustomTrainingJobRequest
  | .GetTrainingJob => GetTrainingJobRequest
  | .ListTrainingJobs => ListTrainingJobsRequest
  | .CancelTrainingJob => CancelTrainingJobRequest
  | .DeleteCompletedTrainingJob => DeleteCompletedTrainingJobRequest
  | .GetTrainingJobLogs => GetTrainingJobLogsRequest

/-- The variable `pattern_MLTrainingService_M_0` of the method -/
def Method.pattern : Method → Pattern
  | .SubmitTrainingJob => pattern_MLTrainingService_SubmitTrainingJob_0
  | .SubmitCustomTrainingJob => pattern_MLTrainingService_SubmitCustomTrainingJob_0
  | .GetTrainingJob => pattern_MLTrainingService_GetTrainingJob_0
  | .ListTrainingJobs => pattern_MLTrainingService_ListTrainingJobs_0
  | .CancelTrainingJob => pattern_MLTrainingService_CancelTrainingJob_0
  | .DeleteCompletedTrainingJob => pattern_MLTrainingService_DeleteCompletedTrainingJob_0
  | .GetTrainingJobLogs => pattern_MLTrainingService_GetTrainingJobLogs_0

/-- The function `request_MLTrainingService_M_0` of the method (remote mode) -/
def Method.request : Method → Context → Marshaler → MLTrainingServiceClient → Request → PathParams → World →
    RequestResult × World
  | .SubmitTrainingJob => request_MLTrainingService_SubmitTrainingJob_0
  | .SubmitCustomTrainingJob => request_MLTrainingService_SubmitCustomTrainingJob_0
  | .GetTrainingJob => request_MLTrainingService_GetTrainingJob_0
  | .ListTrainingJobs => request_MLTrainingService_ListTrainingJobs_0
  | .CancelTrainingJob => request_MLTrainingService_CancelTrainingJob_0
  | .DeleteCompletedTrainingJob => request_MLTrainingService_DeleteCompletedTrainingJob_0
  | .GetTrainingJobLogs => request_MLTrainingService_GetTrainingJobLogs_0

/-- The function `local_request_MLTrainingService_M_0` of the method (local mode) -/
def Method.local_request : Method → Context → Marshaler → MLTrainingServiceServer → Request → PathParams → World →
    RequestResult × World
  | .SubmitTrainingJob => local_request_MLTrainingService_SubmitTrainingJob_0
  | .SubmitCustomTrainingJob => local_request_MLTrainingService_SubmitCustomTrainingJob_0
  | .GetTrainingJob => local_request_MLTrainingService_GetTrainingJob_0
  | .ListTrainingJobs => local_request_MLTrainingService_ListTrainingJobs_0
  | .CancelTrainingJob => local_request_MLTrainingService_CancelTrainingJob_0
  | .DeleteCompletedTrainingJob => local_request_MLTrainingService_DeleteCompletedTrainingJob_0
  | .GetTrainingJobLogs => local_request_MLTrainingService_GetTrainingJobLogs_0

/-- The handler `RegisterMLTrainingServiceHandlerServer` registers for the method -/
def Method.serverHandler : Method → ServeMux → MLTrainingServiceServer → HandlerFunc
  | .SubmitTrainingJob => RegisterMLTrainingServiceHandlerServer_func1
  | .SubmitCustomTrainingJob => RegisterMLTrainingServiceHandlerServer_func2
  | .GetTrainingJob => RegisterMLTrainingServiceHandlerServer_func3
  | .ListTrainingJobs => RegisterMLTrainingServiceHandlerServer_func4
  | .CancelTrainingJob => RegisterMLTrainingServiceHandlerServer_func5
  | .DeleteCompletedTrainingJob => RegisterMLTrainingServiceHandlerServer_func6
  | .GetTrainingJobLogs => RegisterMLTrainingServiceHandlerServer_func7

/-- The handler `RegisterMLTrainingServiceHandlerClient` registers for the method -/
def Method.clientHandler : Method → ServeMux → MLTrainingServiceClient → HandlerFunc
  | .SubmitTrainingJob => RegisterMLTrainingServiceHandlerClient_func1
  | .SubmitCustomTrainingJob => RegisterMLTrainingServiceHandlerClient_func2
  | .GetTrainingJob => RegisterMLTrainingServiceHandlerClient_func3
  | .ListTrainingJobs => RegisterMLTrainingServiceHandlerClient_func4
  | .CancelTrainingJob => RegisterMLTrainingServiceHandlerClient_func5
  | .DeleteCompletedTrainingJob => RegisterMLTrainingServiceHandlerClient_func6
  | .GetTrainingJobLogs => RegisterMLTrainingServiceHandlerClient_func7

/-- The operation of the server interface that belongs to a method. -/
def MLTrainingServiceServer.op (server : MLTrainingServiceServer) :
    Method → Context → Message → ServerTransportStream → ServerReply
  | .SubmitTrainingJob => server.SubmitTrainingJob
  | .SubmitCustomTrainingJob => server.SubmitCustomTrainingJob
  | .GetTrainingJob => server.GetTrainingJob
  | .ListTrainingJobs => server.ListTrainingJobs
  | .CancelTrainingJob => server.CancelTrainingJob
  | .DeleteCompletedTrainingJob => server.DeleteCompletedTrainingJob
  | .GetTrainingJobLogs => server.GetTrainingJobLogs

/-- The operation of the client interface that belongs to a method. -/
def MLTrainingServiceClient.op (client : MLTrainingServiceClient) :
    Method → Context → Message → ClientReply
  | .SubmitTrainingJob => client.SubmitTrainingJob
  | .SubmitCustomTrainingJob => client.SubmitCustomTrainingJob
  | .GetTrainingJob => client.GetTrainingJob
  | .ListTrainingJobs => client.ListTrainingJobs
  | .CancelTrainingJob => client.CancelTrainingJob
  | .DeleteCompletedTrainingJob => client.DeleteCompletedTrainingJob
  | .GetTrainingJobLogs => client.GetTrainingJobLogs

/-- The seven methods in the order the registrars handle them. -/
def Method.all : List Method :=
  [.SubmitTrainingJob, .SubmitCustomTrainingJob, .GetTrainingJob, .ListTrainingJobs,
   .CancelTrainingJob, .DeleteCompletedTrainingJob, .GetTrainingJobLogs]

/-- The handler the mux would pick for a verb and a pattern: the first one
registered under the verb with that pattern. -/
def ServeMux.handlerFor (s : ServeMux) (meth : String) (pat : Pattern) : Option HandlerFunc :=
  ((s.handlers meth).find? (fun e => decide (e.pat = pat))).map (fun e => e.h)

/-! ## Reading a trace -/

/-- Whether the action is an invocation of a service operation. -/
def Event.isCall : Event → Bool
  | .serverCall _ _ _ => true
  | .clientCall _ _ _ => true
  | _ => false

/-- Whether the action is the decoding of the request body. -/
def Event.isDecode : Event → Bool
  | .decode _ _ => true
  | _ => false

/-- Whether the action is a call of the HTTP error writer. -/
def Event.isHTTPError : Event → Bool
  | .HTTPError _ _ _ _ _ => true
  | _ => false

/-- Whether the action is a call of the response forwarder. -/
def Event.isForward : Event → Bool
  | .ForwardResponseMessage _ _ _ _ _ _ => true
  | _ => false

/-- Whether the action writes the HTTP response. -/
def Event.isResponse (e : Event) : Bool := e.isHTTPError || e.isForward

/-- The actions a handler added to the world it was started in. -/
def World.since (σ' σ : World) : List Event := σ'.trace.drop σ.trace.length

/-- What the HTTP caller can tell of a response-writing action: which of the
two writers ran, with which marshaler, for which request, and the error or the
response message and options it was given.  The context is left out. -/
inductive Observation where
  | errorWritten (marshaler : Marshaler) (w : ResponseWriter) (req : Request) (err : GoError)
  | forwarded (marshaler : Marshaler) (w : ResponseWriter) (req : Request)
      (resp : Option Message) (opts : List ForwardResponseOption)

/-- The observation an action gives rise to, if it writes the response. -/
def Event.observe : Event → Option Observation
  | .HTTPError _ marshaler w req err => some (Observation.errorWritten marshaler w req err)
  | .ForwardResponseMessage _ marshaler w req resp opts =>
    some (Observation.forwarded marshaler w req resp opts)
  | _ => none

/-- The observations of a trace, in order. -/
def observable (l : List Event) : List Observation := l.filterMap Event.observe

/-! ## Fixtures for the worked instances -/

/-- A toy marshaler: the empty body is end-of-input with the message untouched,
`id=job-123` and `id=missing` set the field `id`, `id=` stops in the middle of
the field with end-of-input, anything else is a syntax error. -/
def demoMarshaler : Marshaler :=
  { ContentType := "application/json",
    NewDecoder := fun body =>
      { Decode := fun msg =>
          if body = "" then (msg, some GoError.EOF)
          else if body = "id=job-123" then ({ msg with fields := [("id", "job-123")] }, none)
          else if body = "id=missing" then ({ msg with fields := [("id", "missing")] }, none)
          else if body = "id=" then ({ msg with fields := [("id", "")] }, some GoError.EOF)
          else (msg, some (GoError.plain "invalid character")) } }

/-- The logic of the toy service: job `job-123` is known and completed, a
request without an id lists nothing, every other id is not found. -/
def demoService (req : Message) : Option Message × Option GoError :=
  if req.fields = [("id", "job-123")] then
    (some ⟨"Response", [("id", "job-123"), ("status", "COMPLETED")]⟩, none)
  else if req.fields = [] then (some ⟨"Response", []⟩, none)
  else (none, some (GoError.status Code.NotFound "training job not found"))

/-- One operation of the toy in-process server; it records a header on the
transport stream. -/
def demoServerOp (_ctx : Context) (req : Message) (stream : ServerTransportStream) :
    ServerReply :=
  { msg := (demoService req).1, err := (demoService req).2,
    stream := { stream with header := metadata.Join [stream.header, [("x-served-by", ["local"])]] } }

/-- One operation of the toy client stub. -/
def demoClientOp (_ctx : Context) (req : Message) : ClientReply :=
  { msg := (demoService req).1, err := (demoService req).2,
    header := [("x-served-by", ["remote"])], trailer := [] }

def demoServer : MLTrainingServiceServer :=
  { SubmitTrainingJob := demoServerOp, SubmitCustomTrainingJob := demoServerOp,
    GetTrainingJob := demoServerOp, ListTrainingJobs := demoServerOp,
    CancelTrainingJob := demoServerOp, DeleteCompletedTrainingJob := demoServerOp,
    GetTrainingJobLogs := demoServerOp }

def demoClient : MLTrainingServiceClient :=
  { SubmitTrainingJob := demoClientOp, SubmitCustomTrainingJob := demoClientOp,
    GetTrainingJob := demoClientOp, ListTrainingJobs := demoClientOp,
    CancelTrainingJob := demoClientOp, DeleteCompletedTrainingJob := demoClientOp,
    GetTrainingJobLogs := demoClientOp }

/-- The outcome of annotation in the toy mux: a request with the header
`Grpc-Timeout: bogus` is refused, every other request is annotated. -/
def demoAnnotate (ctx : Context) (req : Request) (rpcMethodName httpPathPattern : String) :
    Except GoError Context :=
  if req.Header = [("Grpc-Timeout", "bogus")] then
    .error (GoError.status Code.InvalidArgument "invalid grpc-timeout: bogus")
  else .ok (Context.annotated ctx rpcMethodName httpPathPattern)

/-- A mux without routes, with one forward-response option. -/
def demoMux : ServeMux :=
  { forwardResponseOptions := ["setStatus"],
    marshalerForRequest := fun _ => (demoMarshaler, demoMarshaler),
    annotateContext := demoAnnotate,
    annotateIncomingContext := demoAnnotate }

/-- A request with a given body and no header. -/
def demoRequest (body : String) : Request := { ctx := Context.root "http", Body := body }

/-- A request that fails annotation. -/
def demoBadTimeoutRequest : Request :=
  { ctx := Context.root "http", Body := "id=job-123", Header := [("Grpc-Timeout", "bogus")] }

/-! ## The HTTP status of an error response -/

/-- Modelled from the spec: the canonical translation of an error category into
an HTTP status that the error writer `runtime.HTTPError` applies (the function
`runtime.HTTPStatusFromCode` of the gateway runtime, which is not part of the
translated file): invalid-argument gives 400, not-found gives 404, and so on
for the other categories. -/
def runtime.HTTPStatusFromCode : Code → Nat
  | .OK => 200
  | .Canceled => 499
  | .Unknown => 500
  | .InvalidArgument => 400
  | .DeadlineExceeded => 504
  | .NotFound => 404
  | .AlreadyExists => 409
  | .PermissionDenied => 403
  | .Unauthenticated => 401
  | .ResourceExhausted => 429
  | .FailedPrecondition => 400
  | .Aborted => 409
  | .OutOfRange => 400
  | .Unimplemented => 501
  | .Internal => 500
  | .Unavailable => 503
  | .DataLoss => 500

/-- Modelled from the spec: the HTTP status `runtime.HTTPError` writes for an
error, the translation of the category the error carries. -/
def runtime.HTTPErrorStatus (err : GoError) : Nat := runtime.HTTPStatusFromCode err.Code

/-- The class of an HTTP status: 4 for 400 to 499, 5 for 500 to 599. -/
def statusClass (status : Nat) : Nat := status / 100

/-- The HTTP status an action writes, when the action is a call of the HTTP
error writer. -/
def Event.errorStatus : Event → Option Nat
  | .HTTPError _ _ _ _ err => some (runtime.HTTPErrorStatus err)
  | _ => none

/-- The context a response-writing action is given. -/
def Event.responseContext : Event → Option Context
  | .HTTPError ctx _ _ _ _ => some ctx
  | .ForwardResponseMessage ctx _ _ _ _ _ => some ctx
  | _ => none

/-- Whether the action is a call of a cancel function. -/
def Event.isCancel : Event → Bool
  | .cancel _ => true
  | _ => false

/-- The sentinel `context.Canceled`. -/
def context.Canceled : GoError := GoError.plain "context canceled"

/-- Whether an error reports cancellation: the sentinel `context.Canceled`, or
an error of category Canceled. -/
def GoError.isCancellation (e : GoError) : Bool :=
  decide (e = context.Canceled) || decide (e.Code = MLTraining.Code.Canceled)

/-- The keys of a metadata map. -/
def MD.keys (md : MD) : List String := md.map Prod.fst

/-- Whether the association list is a map: no key occurs twice. -/
def MD.WellFormed (md : MD) : Prop := md.keys.Nodup

instance (md : MD) : Decidable md.WellFormed := by
  unfold MD.WellFormed; infer_instance

/-! ## More fixtures -/

/-- One operation of a toy server whose caller went away: it records a header
and returns `context.Canceled`. -/
def canceledServerOp (_ctx : Context) (_req : Message) (stream : ServerTransportStream) :
    ServerReply :=
  { msg := none, err := some context.Canceled,
    stream := { stream with header := metadata.Join [stream.header, [("x-served-by", ["local"])]] } }

/-- One operation of a toy client stub whose call was cancelled. -/
def canceledClientOp (_ctx : Context) (_req : Message) : ClientReply :=
  { msg := none, err := some (GoError.status Code.Canceled "context canceled"),
    header := [], trailer := [] }

def canceledServer : MLTrainingServiceServer :=
  { SubmitTrainingJob := canceledServerOp, SubmitCustomTrainingJob := canceledServerOp,
    GetTrainingJob := canceledServerOp, ListTrainingJobs := canceledServerOp,
    CancelTrainingJob := canceledServerOp, DeleteCompletedTrainingJob := canceledServerOp,
    GetTrainingJobLogs := canceledServerOp }

def canceledClient : MLTrainingServiceClient :=
  { SubmitTrainingJob := canceledClientOp, SubmitCustomTrainingJob := canceledClientOp,
    GetTrainingJob := canceledClientOp, ListTrainingJobs := canceledClientOp,
    CancelTrainingJob := canceledClientOp, DeleteCompletedTrainingJob := canceledClientOp,
    GetTrainingJobLogs := canceledClientOp }

/-- A toy marshaler that reads a stream of `;`-terminated fields: `id=job-123;`
is complete, `id=job-123` stops in the middle of the stream and is reported as
end-of-input with the field already set, the empty body is end-of-input with
the message untouched, anything else is a syntax error. -/
def streamMarshaler : Marshaler :=
  { ContentType := "application/x-stream",
    NewDecoder := fun body =>
      { Decode := fun msg =>
          if body = "" then (msg, some GoError.EOF)
          else if body = "id=job-123;" then ({ msg with fields := [("id", "job-123")] }, none)
          else if body = "id=job-123" then
            ({ msg with fields := [("id", "job-123")] }, some GoError.EOF)
          else (msg, some (GoError.plain "invalid character")) } }

/-- The values of all entries of an association list under a key, in order; for
a map this is the value list stored under the key. -/
def MD.collect (md : MD) (k : String) : List String :=
  match md with
  | [] => []
  | (k', v) :: rest => if k' = k then v ++ MD.collect rest k else MD.collect rest k

/-! ## Registration from an endpoint

`RegisterMLTrainingServiceHandlerFromEndpoint` acts on the process outside the
mux: it dials, it may close the connection, it starts a goroutine.  These
effects are threaded through a `Process`: the actions so far and the goroutines
that were started and have not yet passed `<-ctx.Done()`.  A started goroutine
runs concurrently with the function that started it: `Process.step` is one step
of the scheduler, possible as soon as the context of the goroutine is done. -/

/-- A `grpc.DialOption`, by name. -/
abbrev DialOption := String

/-- A `*grpc.ClientConn`, by the target and the options it was created for. -/
structure ClientConn where
  target : String
  opts : List DialOption
  deriving DecidableEq, Repr

/-- What the gateway uses from outside the translated file when it dials, taken
as a parameter: the outcome of `grpc.NewClient`, the error `conn.Close()`
returns, and the constructor `NewMLTrainingServiceClient` (declared in
`ml_training_grpc.pb.go`). -/
structure GrpcEnv where
  NewClient : String → List DialOption → Except GoError ClientConn
  Close : ClientConn → Option GoError
  NewMLTrainingServiceClient : ClientConn → MLTrainingServiceClient

/-- The actions on the process outside the mux. -/
inductive ProcessEvent where
  -- the call `grpc.NewClient(endpoint, opts...)`
  | NewClient (endpoint : String) (opts : List DialOption)
  -- the call `conn.Close()`
  | Close (conn : ClientConn)
  -- the call `grpclog.Errorf(...)`, by the text logged
  | Errorf (text : String)
  deriving DecidableEq, Repr

/-- A goroutine started by `RegisterMLTrainingServiceHandlerFromEndpoint` that has
not yet passed `<-ctx.Done()`, by the variables it closes over. -/
structure Goroutine where
  ctx : Context
  endpoint : String
  conn : ClientConn
  deriving DecidableEq, Repr

/-- The state of the process outside the mux. -/
structure Process where
  events : List ProcessEvent := []
  goroutines : List Goroutine := []
  deriving DecidableEq, Repr

def Process.emit (p : Process) (e : ProcessEvent) : Process :=
  { p with events := p.events ++ [e] }

/-- The body of the goroutine of `RegisterMLTrainingServiceHandlerFromEndpoint`
after `<-ctx.Done()` has returned: the connection is closed and a close error is
logged. -/
def RegisterMLTrainingServiceHandlerFromEndpoint_func1_1 (g : GrpcEnv) (endpoint : String)
    (conn : ClientConn) (p : Process) : Process :=
  let cerr := g.Close conn
  let p := p.emit (ProcessEvent.Close conn)
  if cerr ≠ none then
    p.emit (ProcessEvent.Errorf ("Failed to close conn to " ++ endpoint ++ ": " ++ fmt.v cerr))
  else p

/-- The deferred function of `RegisterMLTrainingServiceHandlerFromEndpoint`; `err`
is the named result of the enclosing function at the time the function
returns. -/
def RegisterMLTrainingServiceHandlerFromEndpoint_func1 (g : GrpcEnv) (ctx : Context)
    (endpoint : String) (conn : ClientConn) (err : Option GoError) (p : Process) : Process :=
  if err ≠ none then
    let cerr := g.Close conn
    let p := p.emit (ProcessEvent.Close conn)
    if cerr ≠ none then
      p.emit (ProcessEvent.Errorf ("Failed to close conn to " ++ endpoint ++ ": " ++ fmt.v cerr))
    else p
  else
    { p with goroutines := p.goroutines ++ [{ ctx := ctx, endpoint := endpoint, conn := conn }] }

/-- The function `RegisterMLTrainingServiceHandler`. -/
def RegisterMLTrainingServiceHandler (g : GrpcEnv) (ctx : Context) (mux : ServeMux)
    (conn : ClientConn) : ServeMux × Option GoError :=
  RegisterMLTrainingServiceHandlerClient ctx mux (g.NewMLTrainingServiceClient conn)

/-- The function `RegisterMLTrainingServiceHandlerFromEndpoint`: the mux and the
error it returns, and the process as the function's own thread leaves it, the
deferred function included.  What a goroutine started by the deferred function
does meanwhile is not part of it: see
`RegisterMLTrainingServiceHandlerFromEndpoint.atReturn`. -/
def RegisterMLTrainingServiceHandlerFromEndpoint (g : GrpcEnv) (ctx : Context)
    (mux : ServeMux) (endpoint : String) (opts : List DialOption) (p : Process) :
    (ServeMux × Option GoError) × Process :=
  let p := p.emit (ProcessEvent.NewClient endpoint opts)
  match g.NewClient endpoint opts with
  | .error err => ((mux, some err), p)
  | .ok conn =>
    let r := RegisterMLTrainingServiceHandler g ctx mux conn
    (r, RegisterMLTrainingServiceHandlerFromEndpoint_func1 g ctx endpoint conn r.2 p)

/-- One step of the scheduler, for the goroutine `r`, while the contexts for
which `done` holds are done: if `r` was started and its context is done,
`<-ctx.Done()` returns and the goroutine runs to its end; otherwise the
goroutine cannot move (`none`): it was never started, or it is blocked. -/
def Process.step (g : GrpcEnv) (done : Context → Bool) (r : Goroutine) (p : Process) :
    Option Process :=
  if r ∈ p.goroutines ∧ done r.ctx = true then
    some (RegisterMLTrainingServiceHandlerFromEndpoint_func1_1 g r.endpoint r.conn
      { p with goroutines := p.goroutines.erase r })
  else none

/-- A run of the scheduler: the goroutines of `sched` move one after the other;
`none` when one of them cannot move. -/
def Process.run (g : GrpcEnv) (done : Context → Bool) :
    List Goroutine → Process → Option Process
  | [], p => some p
  | r :: rest, p =>
    match Process.step g done r p with
    | none => none
    | some q => Process.run g done rest q

/-- The call `RegisterMLTrainingServiceHandlerFromEndpoint(ctx, mux, endpoint, opts)`
as its caller sees it at the moment the call returns.  The `go` statement is
inside the deferred function, so between that statement and the return the
scheduler may already run goroutines: `sched` lists the ones it runs, `done`
tells which contexts are done by then.  The result is `none` when the scheduler
cannot run `sched`. -/
def RegisterMLTrainingServiceHandlerFromEndpoint.atReturn (g : GrpcEnv)
    (done : Context → Bool) (sched : List Goroutine) (ctx : Context) (mux : ServeMux)
    (endpoint : String) (opts : List DialOption) (p : Process) :
    Option ((ServeMux × Option GoError) × Process) :=
  let r := RegisterMLTrainingServiceHandlerFromEndpoint g ctx mux endpoint opts p
  (Process.run g done sched r.2).map (fun q => (r.1, q))

/-- A toy environment: the target `bad target` cannot be dialed, closing the
connection to `flaky:443` fails, every connection leads to the toy client. -/
def demoGrpc : GrpcEnv :=
  { NewClient := fun endpoint opts =>
      if endpoint = "bad target" then .error (GoError.plain "grpc: invalid target")
      else .ok { target := endpoint, opts := opts },
    Close := fun conn =>
      if conn.target = "flaky:443" then some (GoError.plain "connection is closing") else none,
    NewMLTrainingServiceClient := fun _ => demoClient }

/-! ## What the request functions and the handlers compute -/

/-- Whether the decode error makes the request functions give up: the test
`err != nil && err != io.EOF`. -/
def decodeFailed (err : Option GoError) : Prop := err ≠ none ∧ err ≠ some GoError.EOF

instance (err : Option GoError) : Decidable (decodeFailed err) := by
  unfold decodeFailed; infer_instance

theorem request_eq (m : Method) (ctx : Context) (marshaler : Marshaler)
    (client : MLTrainingServiceClient) (req : Request) (pathParams : PathParams) (σ : World) :
    m.request ctx marshaler client req pathParams σ =
      if decodeFailed ((marshaler.NewDecoder req.Body).Decode m.protoReq).2 then
        ((none, {}, some (status.Errorf Code.InvalidArgument
            ((marshaler.NewDecoder req.Body).Decode m.protoReq).2)),
          σ.emit (Event.decode marshaler req.Body))
      else
        (((client.op m ctx ((marshaler.NewDecoder req.Body).Decode m.protoReq).1).msg,
          { HeaderMD := (client.op m ctx ((marshaler.NewDecoder req.Body).Decode m.protoReq).1).header,
            TrailerMD := (client.op m ctx ((marshaler.NewDecoder req.Body).Decode m.protoReq).1).trailer },
          (client.op m ctx ((marshaler.NewDecoder req.Body).Decode m.protoReq).1).err),
          (σ.emit (Event.decode marshaler req.Body)).emit
            (Event.clientCall m ctx ((marshaler.NewDecoder req.Body).Decode m.protoReq).1)) := by
  cases m <;> rfl

theorem local_request_eq (m : Method) (ctx : Context) (marshaler : Marshaler)
    (server : MLTrainingServiceServer) (req : Request) (pathParams : PathParams) (σ : World) :
    m.local_request ctx marshaler server req pathParams σ =
      if decodeFailed ((marshaler.NewDecoder req.Body).Decode m.protoReq).2 then
        ((none, {}, some (status.Errorf Code.InvalidArgument
            ((marshaler.NewDecoder req.Body).Decode m.protoReq).2)),
          σ.emit (Event.decode marshaler req.Body))
      else
        (((server.op m ctx ((marshaler.NewDecoder req.Body).Decode m.protoReq).1 σ.stream).msg,
          {},
          (server.op m ctx ((marshaler.NewDecoder req.Body).Decode m.protoReq).1 σ.stream).err),
          { trace := σ.trace ++ [Event.decode marshaler req.Body,
              Event.serverCall m ctx ((marshaler.NewDecoder req.Body).Decode m.protoReq).1],
            stream :=
              (server.op m ctx ((marshaler.NewDecoder req.Body).Decode m.protoReq).1 σ.stream).stream }) := by
  cases m <;> simp [Method.local_request, Method.protoReq, MLTrainingServiceServer.op,
    local_request_MLTrainingService_SubmitTrainingJob_0,
    local_request_MLTrainingService_SubmitCustomTrainingJob_0,
    local_request_MLTrainingService_GetTrainingJob_0,
    local_request_MLTrainingService_ListTrainingJobs_0,
    local_request_MLTrainingService_CancelTrainingJob_0,
    local_request_MLTrainingService_DeleteCompletedTrainingJob_0,
    local_request_MLTrainingService_GetTrainingJobLogs_0, decodeFailed, World.emit]

theorem since_of_trace (σ' σ : World) (l : List Event) (h : σ'.trace = σ.trace ++ l) :
    σ'.since σ = l := by
  simp [World.since, h]

theorem join_nil_nil : metadata.Join [[], []] = [] := rfl

/-- The handler of a method in local mode, in terms of the request function of
the method. -/
theorem serverHandler_eq (m : Method) (mux : ServeMux) (server : MLTrainingServiceServer)
    (w : ResponseWriter) (req : Request) (pathParams : PathParams) (σ : World) :
    m.serverHandler mux server w req pathParams σ =
      World.emit
        (match mux.annotateIncomingContext
            (Context.WithServerTransportStream (Context.WithCancel req.ctx)) req
            m.rpcName m.rpcName with
        | .error err =>
          World.emit { σ with stream := {} }
            (Event.HTTPError (Context.WithServerTransportStream (Context.WithCancel req.ctx))
              (mux.marshalerForRequest req).2 w req err)
        | .ok actx =>
          match (m.local_request actx (mux.marshalerForRequest req).1 server req pathParams
              { σ with stream := {} }).1.2.2 with
          | some err =>
            World.emit
              (m.local_request actx (mux.marshalerForRequest req).1 server req pathParams
                { σ with stream := {} }).2
              (Event.HTTPError
                (Context.WithServerMetadata actx
                  { HeaderMD := metadata.Join
                      [(m.local_request actx (mux.marshalerForRequest req).1 server req pathParams
                          { σ with stream := {} }).1.2.1.HeaderMD,
                       (m.local_request actx (mux.marshalerForRequest req).1 server req pathParams
                          { σ with stream := {} }).2.stream.header],
                    TrailerMD := metadata.Join
                      [(m.local_request actx (mux.marshalerForRequest req).1 server req pathParams
                          { σ with stream := {} }).1.2.1.TrailerMD,
                       (m.local_request actx (mux.marshalerForRequest req).1 server req pathParams
                          { σ with stream := {} }).2.stream.trailer] })
                (mux.marshalerForRequest req).2 w req err)
          | none =>
            World.emit
              (m.local_request actx (mux.marshalerForRequest req).1 server req pathParams
                { σ with stream := {} }).2
              (Event.ForwardResponseMessage
                (Context.WithServerMetadata actx
                  { HeaderMD := metadata.Join
                      [(m.local_request actx (mux.marshalerForRequest req).1 server req pathParams
                          { σ with stream := {} }).1.2.1.HeaderMD,
                       (m.local_request actx (mux.marshalerForRequest req).1 server req pathParams
                          { σ with stream := {} }).2.stream.header],
                    TrailerMD := metadata.Join
                      [(m.local_request actx (mux.marshalerForRequest req).1 server req pathParams
                          { σ with stream := {} }).1.2.1.TrailerMD,
                       (m.local_request actx (mux.marshalerForRequest req).1 server req pathParams
                          { σ with stream := {} }).2.stream.trailer] })
                (mux.marshalerForRequest req).2 w req
                (m.local_request actx (mux.marshalerForRequest req).1 server req pathParams
                  { σ with stream := {} }).1.1
                mux.forwardResponseOptions))
        (Event.cancel (Context.WithCancel req.ctx)) := by
  cases m <;> rfl

/-- The handler of a method in remote mode, in terms of the request function of
the method. -/
theorem clientHandler_eq (m : Method) (mux : ServeMux) (client : MLTrainingServiceClient)
    (w : ResponseWriter) (req : Request) (pathParams : PathParams) (σ : World) :
    m.clientHandler mux client w req pathParams σ =
      World.emit
        (match mux.annotateContext (Context.WithCancel req.ctx) req m.rpcName m.rpcName with
        | .error err =>
          World.emit σ
            (Event.HTTPError (Context.WithCancel req.ctx) (mux.marshalerForRequest req).2 w req err)
        | .ok actx =>
          match (m.request actx (mux.marshalerForRequest req).1 client req pathParams σ).1.2.2 with
          | some err =>
            World.emit (m.request actx (mux.marshalerForRequest req).1 client req pathParams σ).2
              (Event.HTTPError
                (Context.WithServerMetadata actx
                  (m.request actx (mux.marshalerForRequest req).1 client req pathParams σ).1.2.1)
                (mux.marshalerForRequest req).2 w req err)
          | none =>
            World.emit (m.request actx (mux.marshalerForRequest req).1 client req pathParams σ).2
              (Event.ForwardResponseMessage
                (Context.WithServerMetadata actx
                  (m.request actx (mux.marshalerForRequest req).1 client req pathParams σ).1.2.1)
                (mux.marshalerForRequest req).2 w req
                (m.request actx (mux.marshalerForRequest req).1 client req pathParams σ).1.1
                mux.forwardResponseOptions))
        (Event.cancel (Context.WithCancel req.ctx)) := by
  cases m <;> rfl

/-! ### The paths through a handler -/

theorem serverHandler_annotate_error (m : Method) (mux : ServeMux)
    (server : MLTrainingServiceServer) (w : ResponseWriter) (req : Request)
    (pathParams : PathParams) (σ : World) (e : GoError)
    (hann : mux.annotateIncomingContext (Context.WithServerTransportStream (Context.WithCancel req.ctx)) req m.rpcName m.rpcName = .error e) :
    m.serverHandler mux server w req pathParams σ =
      { trace := σ.trace ++
          [Event.HTTPError (Context.WithServerTransportStream (Context.WithCancel req.ctx)) (mux.marshalerForRequest req).2 w req e,
           Event.cancel (Context.WithCancel req.ctx)],
        stream := {} } := by
  rw [serverHandler_eq, hann]
  simp [World.emit]

theorem clientHandler_annotate_error (m : Method) (mux : ServeMux)
    (client : MLTrainingServiceClient) (w : ResponseWriter) (req : Request)
    (pathParams : PathParams) (σ : World) (e : GoError)
    (hann : mux.annotateContext (Context.WithCancel req.ctx) req m.rpcName m.rpcName = .error e) :
    m.clientHandler mux client w req pathParams σ =
      { trace := σ.trace ++
          [Event.HTTPError (Context.WithCancel req.ctx) (mux.marshalerForRequest req).2 w req e,
           Event.cancel (Context.WithCancel req.ctx)],
        stream := σ.stream } := by
  rw [clientHandler_eq, hann]
  simp [World.emit]

theorem serverHandler_decode_failed (m : Method) (mux : ServeMux)
    (server : MLTrainingServiceServer) (w : ResponseWriter) (req : Request)
    (pathParams : PathParams) (σ : World) (actx : Context)
    (hann : mux.annotateIncomingContext (Context.WithServerTransportStream (Context.WithCancel req.ctx)) req m.rpcName m.rpcName = .ok actx)
    (hfail : decodeFailed (((mux.marshalerForRequest req).1.NewDecoder req.Body).Decode m.protoReq).2) :
    m.serverHandler mux server w req pathParams σ =
      { trace := σ.trace ++
          [Event.decode (mux.marshalerForRequest req).1 req.Body,
           Event.HTTPError (Context.WithServerMetadata actx {}) (mux.marshalerForRequest req).2
             w req (status.Errorf Code.InvalidArgument (((mux.marshalerForRequest req).1.NewDecoder req.Body).Decode m.protoReq).2),
           Event.cancel (Context.WithCancel req.ctx)],
        stream := {} } := by
  rw [serverHandler_eq, hann]
  simp [local_request_eq, hfail, World.emit, join_nil_nil]

theorem clientHandler_decode_failed (m : Method) (mux : ServeMux)
    (client : MLTrainingServiceClient) (w : ResponseWriter) (req : Request)
    (pathParams : PathParams) (σ : World) (actx : Context)
    (hann : mux.annotateContext (Context.WithCancel req.ctx) req m.rpcName m.rpcName = .ok actx)
    (hfail : decodeFailed (((mux.marshalerForRequest req).1.NewDecoder req.Body).Decode m.protoReq).2) :
    m.clientHandler mux client w req pathParams σ =
      { trace := σ.trace ++
          [Event.decode (mux.marshalerForRequest req).1 req.Body,
           Event.HTTPError (Context.WithServerMetadata actx {}) (mux.marshalerForRequest req).2
             w req (status.Errorf Code.InvalidArgument (((mux.marshalerForRequest req).1.NewDecoder req.Body).Decode m.protoReq).2),
           Event.cancel (Context.WithCancel req.ctx)],
        stream := σ.stream } := by
  rw [clientHandler_eq, hann]
  simp [request_eq, hfail, World.emit]

theorem serverHandler_dispatched (m : Method) (mux : ServeMux)
    (server : MLTrainingServiceServer) (w : ResponseWriter) (req : Request)
    (pathParams : PathParams) (σ : World) (actx : Context)
    (hann : mux.annotateIncomingContext (Context.WithServerTransportStream (Context.WithCancel req.ctx)) req m.rpcName m.rpcName = .ok actx)
    (hdec : ¬ decodeFailed (((mux.marshalerForRequest req).1.NewDecoder req.Body).Decode m.protoReq).2) :
    m.serverHandler mux server w req pathParams σ =
      { trace := σ.trace ++
          [Event.decode (mux.marshalerForRequest req).1 req.Body,
           Event.serverCall m actx (((mux.marshalerForRequest req).1.NewDecoder req.Body).Decode m.protoReq).1,
           (match (server.op m actx (((mux.marshalerForRequest req).1.NewDecoder req.Body).Decode m.protoReq).1 {}).err with
            | some e =>
              Event.HTTPError
                (Context.WithServerMetadata actx
                  { HeaderMD := metadata.Join [[], (server.op m actx (((mux.marshalerForRequest req).1.NewDecoder req.Body).Decode m.protoReq).1 {}).stream.header],
                    TrailerMD := metadata.Join [[], (server.op m actx (((mux.marshalerForRequest req).1.NewDecoder req.Body).Decode m.protoReq).1 {}).stream.trailer] })
                (mux.marshalerForRequest req).2 w req e
            | none =>
              Event.ForwardResponseMessage
                (Context.WithServerMetadata actx
                  { HeaderMD := metadata.Join [[], (server.op m actx (((mux.marshalerForRequest req).1.NewDecoder req.Body).Decode m.protoReq).1 {}).stream.header],
                    TrailerMD := metadata.Join [[], (server.op m actx (((mux.marshalerForRequest req).1.NewDecoder req.Body).Decode m.protoReq).1 {}).stream.trailer] })
                (mux.marshalerForRequest req).2 w req (server.op m actx (((mux.marshalerForRequest req).1.NewDecoder req.Body).Decode m.protoReq).1 {}).msg mux.forwardResponseOptions),
           Event.cancel (Context.WithCancel req.ctx)],
        stream := (server.op m actx (((mux.marshalerForRequest req).1.NewDecoder req.Body).Decode m.protoReq).1 {}).stream } := by
  rw [serverHandler_eq, hann]
  simp only [local_request_eq, hdec, if_false]
  cases (server.op m actx (((mux.marshalerForRequest req).1.NewDecoder req.Body).Decode m.protoReq).1 {}).err <;> simp [World.emit]

theorem clientHandler_dispatched (m : Method) (mux : ServeMux)
    (client : MLTrainingServiceClient) (w : ResponseWriter) (req : Request)
    (pathParams : PathParams) (σ : World) (actx : Context)
    (hann : mux.annotateContext (Context.WithCancel req.ctx) req m.rpcName m.rpcName = .ok actx)
    (hdec : ¬ decodeFailed (((mux.marshalerForRequest req).1.NewDecoder req.Body).Decode m.protoReq).2) :
    m.clientHandler mux client w req pathParams σ =
      { trace := σ.trace ++
          [Event.decode (mux.marshalerForRequest req).1 req.Body,
           Event.clientCall m actx (((mux.marshalerForRequest req).1.NewDecoder req.Body).Decode m.protoReq).1,
           (match (client.op m actx (((mux.marshalerForRequest req).1.NewDecoder req.Body).Decode m.protoReq).1).err with
            | some e =>
              Event.HTTPError
                (Context.WithServerMetadata actx
                  { HeaderMD := (client.op m actx (((mux.marshalerForRequest req).1.NewDecoder req.Body).Decode m.protoReq).1).header, TrailerMD := (client.op m actx (((mux.marshalerForRequest req).1.NewDecoder req.Body).Decode m.protoReq).1).trailer })
                (mux.marshalerForRequest req).2 w req e
            | none =>
              Event.ForwardResponseMessage
                (Context.WithServerMetadata actx
                  { HeaderMD := (client.op m actx (((mux.marshalerForRequest req).1.NewDecoder req.Body).Decode m.protoReq).1).header, TrailerMD := (client.op m actx (((mux.marshalerForRequest req).1.NewDecoder req.Body).Decode m.protoReq).1).trailer })
                (mux.marshalerForRequest req).2 w req (client.op m actx (((mux.marshalerForRequest req).1.NewDecoder req.Body).Decode m.protoReq).1).msg mux.forwardResponseOptions),
           Event.cancel (Context.WithCancel req.ctx)],
        stream := σ.stream } := by
  rw [clientHandler_eq, hann]
  simp only [request_eq, hdec, if_false]
  cases (client.op m actx (((mux.marshalerForRequest req).1.NewDecoder req.Body).Decode m.protoReq).1).err <;> simp [World.emit]

/-! ### The route table after registration -/

theorem pattern_injective (m m' : Method) (h : m.pattern = m'.pattern) : m = m' := by
  cases m <;> cases m' <;> first | rfl | (exfalso; revert h; decide)

theorem register_server_handlers (rctx : Context) (mux : ServeMux)
    (server : MLTrainingServiceServer) (v : String) :
    (RegisterMLTrainingServiceHandlerServer rctx mux server).1.handlers v =
      if v = "POST" then
        (Method.all.reverse.map
          (fun m => ({ pat := m.pattern, h := m.serverHandler mux server } : handler))) ++
          mux.handlers v
      else mux.handlers v := by
  by_cases hv : v = "POST"
  · simp [RegisterMLTrainingServiceHandlerServer, ServeMux.Handle, hv, Method.all,
      Method.pattern, Method.serverHandler]
  · simp [RegisterMLTrainingServiceHandlerServer, ServeMux.Handle, hv]

theorem register_client_handlers (rctx : Context) (mux : ServeMux)
    (client : MLTrainingServiceClient) (v : String) :
    (RegisterMLTrainingServiceHandlerClient rctx mux client).1.handlers v =
      if v = "POST" then
        (Method.all.reverse.map
          (fun m => ({ pat := m.pattern, h := m.clientHandler mux client } : handler))) ++
          mux.handlers v
      else mux.handlers v := by
  by_cases hv : v = "POST"
  · simp [RegisterMLTrainingServiceHandlerClient, ServeMux.Handle, hv, Method.all,
      Method.pattern, Method.clientHandler]
  · simp [RegisterMLTrainingServiceHandlerClient, ServeMux.Handle, hv]

theorem find_registered (m : Method) (f : Method → HandlerFunc) (rest : List handler) :
    ((Method.all.reverse.map (fun m' => ({ pat := m'.pattern, h := f m' } : handler)) ++
        rest).find? (fun e => decide (e.pat = m.pattern))).map (fun e => e.h) = some (f m) := by
  have hne : ∀ m' : Method, m' ≠ m → decide (m'.pattern = m.pattern) = false := by
    intro m' h
    simp only [decide_eq_false_iff_not]
    exact fun hp => h (pattern_injective _ _ hp)
  cases m <;> simp [Method.all, List.find?, hne]

theorem handlerFor_register_server (m : Method) (rctx : Context) (mux : ServeMux)
    (server : MLTrainingServiceServer) :
    (RegisterMLTrainingServiceHandlerServer rctx mux server).1.handlerFor "POST" m.pattern =
      some (m.serverHandler mux server) := by
  unfold ServeMux.handlerFor
  rw [register_server_handlers, if_pos rfl]
  exact find_registered m (fun m' => m'.serverHandler mux server) _

theorem handlerFor_register_client (m : Method) (rctx : Context) (mux : ServeMux)
    (client : MLTrainingServiceClient) :
    (RegisterMLTrainingServiceHandlerClient rctx mux client).1.handlerFor "POST" m.pattern =
      some (m.clientHandler mux client) := by
  unfold ServeMux.handlerFor
  rw [register_client_handlers, if_pos rfl]
  exact find_registered m (fun m' => m'.clientHandler mux client) _

theorem serverHandler_pathParams (m : Method) (mux : ServeMux)
    (server : MLTrainingServiceServer) (w : ResponseWriter) (req : Request)
    (pathParams pathParams' : PathParams) (σ : World) :
    m.serverHandler mux server w req pathParams' σ =
      m.serverHandler mux server w req pathParams σ := by
  cases m <;> rfl

theorem clientHandler_pathParams (m : Method) (mux : ServeMux)
    (client : MLTrainingServiceClient) (w : ResponseWriter) (req : Request)
    (pathParams pathParams' : PathParams) (σ : World) :
    m.clientHandler mux client w req pathParams' σ =
      m.clientHandler mux client w req pathParams σ := by
  cases m <;> rfl

/-! ### The join of metadata -/

theorem get_appendValues (out : MD) (k : String) (v : List String) (k' : String) :
    (MD.appendValues out k v).get k' = if k' = k then out.get k ++ v else out.get k' := by
  induction out with
  | nil =>
    by_cases h : k' = k
    · subst h; simp [MD.appendValues, MD.get]
    · have h' : ¬ k = k' := fun e => h e.symm
      simp [MD.appendValues, MD.get, h, h']
  | cons hd tl ih =>
    obtain ⟨k0, v0⟩ := hd
    by_cases h0 : k0 = k
    · subst h0
      by_cases h : k' = k0
      · subst h; simp [MD.appendValues, MD.get]
      · have h' : ¬ k0 = k' := fun e => h e.symm
        simp [MD.appendValues, MD.get, h, h']
    · by_cases h : k' = k
      · subst h
        simp [MD.appendValues, MD.get, h0, ih]
      · by_cases h1 : k0 = k'
        · simp [MD.appendValues, MD.get, h0, h, h1]
        · simp [MD.appendValues, MD.get, h0, h, h1, ih]

theorem get_foldl_appendValues (md out : MD) (k : String) :
    (md.foldl (fun o kv => MD.appendValues o kv.1 kv.2) out).get k =
      out.get k ++ MD.collect md k := by
  induction md generalizing out with
  | nil => simp [MD.collect]
  | cons hd tl ih =>
    obtain ⟨k0, v0⟩ := hd
    simp only [List.foldl_cons, ih, get_appendValues, MD.collect]
    by_cases h : k0 = k
    · subst h; simp
    · have h' : ¬ k = k0 := fun e => h e.symm
      simp [h, h']

theorem collect_of_not_mem (md : MD) (k : String) (h : k ∉ md.keys) :
    MD.collect md k = [] := by
  induction md with
  | nil => rfl
  | cons hd tl ih =>
    obtain ⟨k0, v0⟩ := hd
    simp only [MD.keys, List.map_cons, List.mem_cons, not_or] at h
    have h0 : ¬ k0 = k := fun e => h.1 e.symm
    simp only [MD.collect, h0, if_false]
    exact ih h.2

theorem collect_eq_get (md : MD) (k : String) (hwf : md.WellFormed) :
    MD.collect md k = md.get k := by
  induction md with
  | nil => rfl
  | cons hd tl ih =>
    obtain ⟨k0, v0⟩ := hd
    simp only [MD.WellFormed, MD.keys, List.map_cons, List.nodup_cons] at hwf
    by_cases h : k0 = k
    · subst h
      simp [MD.collect, MD.get, collect_of_not_mem tl k0 hwf.1]
    · simp only [MD.collect, MD.get, h, if_false]
      exact ih hwf.2

theorem keys_appendValues (out : MD) (k : String) (v : List String) :
    (MD.appendValues out k v).keys = if k ∈ out.keys then out.keys else out.keys ++ [k] := by
  induction out with
  | nil => simp [MD.appendValues, MD.keys]
  | cons hd tl ih =>
    obtain ⟨k0, v0⟩ := hd
    by_cases h0 : k0 = k
    · subst h0; simp [MD.appendValues, MD.keys]
    · have h0' : ¬ k = k0 := fun e => h0 e.symm
      simp only [MD.keys] at ih
      simp only [MD.appendValues, h0, if_false, MD.keys, List.map_cons, ih, List.mem_cons, h0',
        false_or]
      split <;> simp

theorem wellFormed_appendValues (out : MD) (k : String) (v : List String)
    (h : out.WellFormed) : (MD.appendValues out k v).WellFormed := by
  unfold MD.WellFormed at *
  rw [keys_appendValues]
  split
  · exact h
  · rename_i hk
    rw [List.nodup_append]
    refine ⟨h, List.nodup_singleton k, ?_⟩
    intro a ha hb
    simp only [List.mem_singleton] at hb
    subst hb
    exact hk ha

theorem mem_keys_appendValues (out : MD) (k : String) (v : List String) (k' : String) :
    k' ∈ (MD.appendValues out k v).keys ↔ k' ∈ out.keys ∨ k' = k := by
  rw [keys_appendValues]
  split
  · rename_i hk
    constructor
    · exact Or.inl
    · rintro (h | h)
      · exact h
      · subst h; exact hk
  · simp

theorem foldl_appendValues_keys (md out : MD) (h : out.WellFormed) :
    (md.foldl (fun o kv => MD.appendValues o kv.1 kv.2) out).WellFormed ∧
    ∀ k, k ∈ (md.foldl (fun o kv => MD.appendValues o kv.1 kv.2) out).keys ↔
      k ∈ out.keys ∨ k ∈ md.keys := by
  induction md generalizing out with
  | nil => simp [h, MD.keys]
  | cons hd tl ih =>
    obtain ⟨k0, v0⟩ := hd
    simp only [List.foldl_cons]
    have := ih (MD.appendValues out k0 v0) (wellFormed_appendValues out k0 v0 h)
    refine ⟨this.1, ?_⟩
    intro k
    rw [this.2 k, mem_keys_appendValues]
    simp only [MD.keys, List.map_cons, List.mem_cons]
    tauto

theorem join_pair (a b : MD) :
    (metadata.Join [a, b]).WellFormed ∧
    (∀ k, k ∈ (metadata.Join [a, b]).keys ↔ k ∈ a.keys ∨ k ∈ b.keys) ∧
    (∀ k, (metadata.Join [a, b]).get k = MD.collect a k ++ MD.collect b k) := by
  have hnil : MD.WellFormed [] := by simp [MD.WellFormed, MD.keys]
  have ha := foldl_appendValues_keys a [] hnil
  have hb := foldl_appendValues_keys b _ ha.1
  refine ⟨hb.1, ?_, ?_⟩
  · intro k
    have h1 := hb.2 k
    have h2 := ha.2 k
    simp only [metadata.Join, List.foldl_cons, List.foldl_nil]
    rw [h1, h2]
    simp [MD.keys]
  · intro k
    simp only [metadata.Join, List.foldl_cons, List.foldl_nil]
    rw [get_foldl_appendValues, get_foldl_appendValues]
    simp [MD.get]

/-! ### The registrars return no error -/

theorem register_server_nil (rctx : Context) (mux : ServeMux)
    (server : MLTrainingServiceServer) :
    (RegisterMLTrainingServiceHandlerServer rctx mux server).2 = none := rfl

theorem register_client_nil (rctx : Context) (mux : ServeMux)
    (client : MLTrainingServiceClient) :
    (RegisterMLTrainingServiceHandlerClient rctx mux client).2 = none := rfl

theorem register_handler_nil (g : GrpcEnv) (rctx : Context) (mux : ServeMux)
    (conn : ClientConn) :
    (RegisterMLTrainingServiceHandler g rctx mux conn).2 = none := rfl

/-! ### Goroutines and the scheduler -/

theorem func1_1_goroutines (g : GrpcEnv) (endpoint : String) (conn : ClientConn)
    (p : Process) :
    (RegisterMLTrainingServiceHandlerFromEndpoint_func1_1 g endpoint conn p).goroutines =
      p.goroutines := by
  unfold RegisterMLTrainingServiceHandlerFromEndpoint_func1_1
  simp only [Process.emit]
  split <;> rfl

theorem run_keeps_blocked (g : GrpcEnv) (done : Context → Bool) (gr : Goroutine)
    (hnd : done gr.ctx = false) (sched : List Goroutine) :
    ∀ p q : Process, gr ∈ p.goroutines → Process.run g done sched p = some q →
      gr ∈ q.goroutines := by
  induction sched with
  | nil =>
    intro p q hmem hrun
    simp only [Process.run, Option.some.injEq] at hrun
    subst hrun
    exact hmem
  | cons r rest ih =>
    intro p q hmem hrun
    simp only [Process.run] at hrun
    by_cases hr : r ∈ p.goroutines ∧ done r.ctx = true
    · simp only [Process.step, hr, and_self, if_true] at hrun
      apply ih _ q _ hrun
      rw [func1_1_goroutines]
      have hne : gr ≠ r := by
        intro h
        subst h
        rw [hnd] at hr
        exact Bool.false_ne_true hr.2
      exact (List.mem_erase_of_ne hne).mpr hmem
    · simp [Process.step, hr] at hrun

/-! ## The properties of the specification -/

/-- C1: for each of the seven methods and in both modes, when the decoder
reports end-of-input and leaves the message untouched (as it does on an empty
body), the request function returns no decode error: it invokes the operation of
the method with the zero-valued request (no field set) and returns what the
operation returned. -/
theorem C1_end_of_input_dispatches_default_request (m : Method) (ctx : Context)
    (marshaler : Marshaler) (client : MLTrainingServiceClient)
    (server : MLTrainingServiceServer) (req : Request) (pathParams : PathParams) (σ : World)
    (hdec : (marshaler.NewDecoder req.Body).Decode m.protoReq = (m.protoReq, some GoError.EOF)) :
    m.protoReq.fields = [] ∧
    m.request ctx marshaler client req pathParams σ =
      (((client.op m ctx m.protoReq).msg,
        { HeaderMD := (client.op m ctx m.protoReq).header,
          TrailerMD := (client.op m ctx m.protoReq).trailer },
        (client.op m ctx m.protoReq).err),
       { trace := σ.trace ++
           [Event.decode marshaler req.Body, Event.clientCall m ctx m.protoReq],
         stream := σ.stream }) ∧
    m.local_request ctx marshaler server req pathParams σ =
      (((server.op m ctx m.protoReq σ.stream).msg, {},
        (server.op m ctx m.protoReq σ.stream).err),
       { trace := σ.trace ++
           [Event.decode marshaler req.Body, Event.serverCall m ctx m.protoReq],
         stream := (server.op m ctx m.protoReq σ.stream).stream }) := by
  refine ⟨by cases m <;> rfl, ?_, ?_⟩
  · rw [request_eq, hdec]
    simp [decodeFailed, World.emit]
  · rw [local_request_eq, hdec]
    simp [decodeFailed]

/-- An instance of C1: the empty body sent to GetTrainingJob in both modes
reaches the toy service with the zero-valued request. -/
theorem C1_end_of_input_dispatches_default_request_witness :
    (demoMarshaler.NewDecoder (demoRequest "").Body).Decode Method.GetTrainingJob.protoReq =
      (Method.GetTrainingJob.protoReq, some GoError.EOF) ∧
    request_MLTrainingService_GetTrainingJob_0 (Context.root "rpc") demoMarshaler demoClient
        (demoRequest "") [] {} =
      ((some ⟨"Response", []⟩, { HeaderMD := [("x-served-by", ["remote"])], TrailerMD := [] },
        none),
       { trace := [Event.decode demoMarshaler "",
           Event.clientCall Method.GetTrainingJob (Context.root "rpc")
             ⟨"GetTrainingJobRequest", []⟩],
         stream := {} }) ∧
    local_request_MLTrainingService_GetTrainingJob_0 (Context.root "rpc") demoMarshaler
        demoServer (demoRequest "") [] {} =
      ((some ⟨"Response", []⟩, {}, none),
       { trace := [Event.decode demoMarshaler "",
           Event.serverCall Method.GetTrainingJob (Context.root "rpc")
             ⟨"GetTrainingJobRequest", []⟩],
         stream := { header := [("x-served-by", ["local"])], trailer := [] } }) :=
  ⟨by decide,
   (C1_end_of_input_dispatches_default_request Method.GetTrainingJob (Context.root "rpc")
      demoMarshaler demoClient demoServer (demoRequest "") [] {} (by decide)).2⟩

/-- C2: for each of the seven methods and in both modes, if decoding the body
fails with an error other than end-of-input, no service operation is invoked
for the request: neither by the request function nor by the handler around it,
whatever the outcome of context annotation. -/
theorem C2_decode_failure_never_invokes_service (m : Method) (ctx : Context)
    (marshaler : Marshaler) (mux : ServeMux) (client : MLTrainingServiceClient)
    (server : MLTrainingServiceServer) (w : ResponseWriter) (req : Request)
    (pathParams : PathParams) (σ : World) (msg : Message) (e : GoError)
    (hmux : (runtime.MarshalerForRequest mux req).1 = marshaler)
    (hdec : (marshaler.NewDecoder req.Body).Decode m.protoReq = (msg, some e))
    (hne : e ≠ GoError.EOF) :
    (∀ ev ∈ (m.request ctx marshaler client req pathParams σ).2.since σ, ev.isCall = false) ∧
    (∀ ev ∈ (m.local_request ctx marshaler server req pathParams σ).2.since σ,
      ev.isCall = false) ∧
    (∀ ev ∈ (m.clientHandler mux client w req pathParams σ).since σ, ev.isCall = false) ∧
    (∀ ev ∈ (m.serverHandler mux server w req pathParams σ).since σ, ev.isCall = false) := by
  subst hmux
  have hfail : decodeFailed
      (((mux.marshalerForRequest req).1.NewDecoder req.Body).Decode m.protoReq).2 := by
    simp only [runtime.MarshalerForRequest] at hdec
    rw [hdec]
    simp [decodeFailed, hne]
  refine ⟨?_, ?_, ?_, ?_⟩
  · intro ev hev
    simp only [runtime.MarshalerForRequest] at hev
    rw [request_eq, if_pos hfail, since_of_trace _ σ [Event.decode _ req.Body] rfl] at hev
    simp only [List.mem_singleton] at hev
    subst hev
    rfl
  · intro ev hev
    simp only [runtime.MarshalerForRequest] at hev
    rw [local_request_eq, if_pos hfail, since_of_trace _ σ [Event.decode _ req.Body] rfl] at hev
    simp only [List.mem_singleton] at hev
    subst hev
    rfl
  · intro ev hev
    cases hann : mux.annotateContext (Context.WithCancel req.ctx) req m.rpcName m.rpcName with
    | error err =>
      rw [clientHandler_annotate_error m mux client w req pathParams σ err hann,
        since_of_trace _ σ _ rfl] at hev
      simp only [List.mem_cons, List.mem_singleton, List.not_mem_nil, or_false] at hev
      rcases hev with h | h <;> subst h <;> rfl
    | ok actx =>
      rw [clientHandler_decode_failed m mux client w req pathParams σ actx hann hfail,
        since_of_trace _ σ _ rfl] at hev
      simp only [List.mem_cons, List.mem_singleton, List.not_mem_nil, or_false] at hev
      rcases hev with h | h | h <;> subst h <;> rfl
  · intro ev hev
    cases hann : mux.annotateIncomingContext
        (Context.WithServerTransportStream (Context.WithCancel req.ctx)) req
        m.rpcName m.rpcName with
    | error err =>
      rw [serverHandler_annotate_error m mux server w req pathParams σ err hann,
        since_of_trace _ σ _ rfl] at hev
      simp only [List.mem_cons, List.mem_singleton, List.not_mem_nil, or_false] at hev
      rcases hev with h | h <;> subst h <;> rfl
    | ok actx =>
      rw [serverHandler_decode_failed m mux server w req pathParams σ actx hann hfail,
        since_of_trace _ σ _ rfl] at hev
      simp only [List.mem_cons, List.mem_singleton, List.not_mem_nil, or_false] at hev
      rcases hev with h | h | h <;> subst h <;> rfl

/-- An instance of C2: the malformed body `???` sent to GetTrainingJob; the
remote-mode handler decodes, writes the error and cancels, and calls nothing. -/
theorem C2_decode_failure_never_invokes_service_witness :
    ((runtime.MarshalerForRequest demoMux (demoRequest "???")).1 = demoMarshaler ∧
     (demoMarshaler.NewDecoder (demoRequest "???").Body).Decode
        Method.GetTrainingJob.protoReq =
      (⟨"GetTrainingJobRequest", []⟩, some (GoError.plain "invalid character")) ∧
     GoError.plain "invalid character" ≠ GoError.EOF) ∧
    ((∀ ev ∈ (request_MLTrainingService_GetTrainingJob_0 (Context.root "rpc") demoMarshaler
        demoClient (demoRequest "???") [] {}).2.since {}, ev.isCall = false) ∧
     (∀ ev ∈ (local_request_MLTrainingService_GetTrainingJob_0 (Context.root "rpc")
        demoMarshaler demoServer (demoRequest "???") [] {}).2.since {}, ev.isCall = false) ∧
     (∀ ev ∈ (RegisterMLTrainingServiceHandlerClient_func3 demoMux demoClient 0
        (demoRequest "???") [] {}).since {}, ev.isCall = false) ∧
     (∀ ev ∈ (RegisterMLTrainingServiceHandlerServer_func3 demoMux demoServer 0
        (demoRequest "???") [] {}).since {}, ev.isCall = false)) :=
  ⟨⟨rfl, by decide, by decide⟩,
   C2_decode_failure_never_invokes_service Method.GetTrainingJob (Context.root "rpc")
     demoMarshaler demoMux demoClient demoServer 0 (demoRequest "???") [] {}
     ⟨"GetTrainingJobRequest", []⟩ (GoError.plain "invalid character") rfl (by decide)
     (by decide)⟩

/-- C3: for each of the seven methods and in both modes, if decoding the body
fails with an error e other than end-of-input, the request function returns a
nil message, zero-valued header and trailer metadata and the status error with
code InvalidArgument whose message is the text of e; when annotation succeeded,
the handler passes exactly that error to the HTTP error writer (and calls
neither the service nor the forwarder). -/
theorem C3_decode_failure_is_invalid_argument (m : Method) (ctx : Context)
    (marshaler : Marshaler) (mux : ServeMux) (client : MLTrainingServiceClient)
    (server : MLTrainingServiceServer) (w : ResponseWriter) (req : Request)
    (pathParams : PathParams) (σ : World) (msg : Message) (e : GoError)
    (hmux : (runtime.MarshalerForRequest mux req).1 = marshaler)
    (hdec : (marshaler.NewDecoder req.Body).Decode m.protoReq = (msg, some e))
    (hne : e ≠ GoError.EOF) :
    (m.request ctx marshaler client req pathParams σ).1 =
      (none, { HeaderMD := [], TrailerMD := [] },
        some (GoError.status Code.InvalidArgument e.Error)) ∧
    (m.local_request ctx marshaler server req pathParams σ).1 =
      (none, { HeaderMD := [], TrailerMD := [] },
        some (GoError.status Code.InvalidArgument e.Error)) ∧
    (GoError.status Code.InvalidArgument e.Error).Code = Code.InvalidArgument ∧
    (GoError.status Code.InvalidArgument e.Error).Message = e.Error ∧
    (∀ actx, runtime.AnnotateContext (context.WithCancel req.Context) mux req m.rpcName
        (runtime.WithHTTPPathPattern m.rpcName) = .ok actx →
      (m.clientHandler mux client w req pathParams σ).since σ =
        [Event.decode marshaler req.Body,
         Event.HTTPError (runtime.NewServerMetadataContext actx {})
           (runtime.MarshalerForRequest mux req).2 w req
           (GoError.status Code.InvalidArgument e.Error),
         Event.cancel (context.WithCancel req.Context)]) ∧
    (∀ actx, runtime.AnnotateIncomingContext
        (grpc.NewContextWithServerTransportStream (context.WithCancel req.Context)) mux req
        m.rpcName (runtime.WithHTTPPathPattern m.rpcName) = .ok actx →
      (m.serverHandler mux server w req pathParams σ).since σ =
        [Event.decode marshaler req.Body,
         Event.HTTPError (runtime.NewServerMetadataContext actx {})
           (runtime.MarshalerForRequest mux req).2 w req
           (GoError.status Code.InvalidArgument e.Error),
         Event.cancel (context.WithCancel req.Context)]) := by
  subst hmux
  simp only [runtime.MarshalerForRequest] at hdec
  have hfail : decodeFailed
      (((mux.marshalerForRequest req).1.NewDecoder req.Body).Decode m.protoReq).2 := by
    rw [hdec]
    simp [decodeFailed, hne]
  refine ⟨?_, ?_, rfl, rfl, ?_, ?_⟩
  · simp only [runtime.MarshalerForRequest]
    rw [request_eq, if_pos hfail, hdec]
    rfl
  · simp only [runtime.MarshalerForRequest]
    rw [local_request_eq, if_pos hfail, hdec]
    rfl
  · intro actx hann
    rw [clientHandler_decode_failed m mux client w req pathParams σ actx hann hfail,
      since_of_trace _ σ _ rfl, hdec]
    rfl
  · intro actx hann
    rw [serverHandler_decode_failed m mux server w req pathParams σ actx hann hfail,
      since_of_trace _ σ _ rfl, hdec]
    rfl

/-- An instance of C3: the malformed body `???` sent to GetTrainingJob in local
mode ends in the error writer with InvalidArgument and the decoder's text. -/
theorem C3_decode_failure_is_invalid_argument_witness :
    ((runtime.MarshalerForRequest demoMux (demoRequest "???")).1 = demoMarshaler ∧
     (demoMarshaler.NewDecoder (demoRequest "???").Body).Decode
        Method.GetTrainingJob.protoReq =
      (⟨"GetTrainingJobRequest", []⟩, some (GoError.plain "invalid character")) ∧
     GoError.plain "invalid character" ≠ GoError.EOF) ∧
    (local_request_MLTrainingService_GetTrainingJob_0 (Context.root "rpc") demoMarshaler
        demoServer (demoRequest "???") [] {}).1 =
      (none, { HeaderMD := [], TrailerMD := [] },
        some (GoError.status Code.InvalidArgument "invalid character")) ∧
    (RegisterMLTrainingServiceHandlerServer_func3 demoMux demoServer 0 (demoRequest "???") []
        {}).since {} =
      [Event.decode demoMarshaler "???",
       Event.HTTPError
         (Context.WithServerMetadata
           (Context.annotated
             (Context.WithServerTransportStream (Context.WithCancel (Context.root "http")))
             "/viam.app.mltraining.v1.MLTrainingService/GetTrainingJob"
             "/viam.app.mltraining.v1.MLTrainingService/GetTrainingJob") {})
         demoMarshaler 0 (demoRequest "???")
         (GoError.status Code.InvalidArgument "invalid character"),
       Event.cancel (Context.WithCancel (Context.root "http"))] :=
  ⟨⟨rfl, by decide, by decide⟩,
   (C3_decode_failure_is_invalid_argument Method.GetTrainingJob (Context.root "rpc")
     demoMarshaler demoMux demoClient demoServer 0 (demoRequest "???") [] {}
     ⟨"GetTrainingJobRequest", []⟩ (GoError.plain "invalid character") rfl (by decide)
     (by decide)).2.1,
   (C3_decode_failure_is_invalid_argument Method.GetTrainingJob (Context.root "rpc")
     demoMarshaler demoMux demoClient demoServer 0 (demoRequest "???") [] {}
     ⟨"GetTrainingJobRequest", []⟩ (GoError.plain "invalid character") rfl (by decide)
     (by decide)).2.2.2.2.2 _ rfl⟩

/-- C4: for each of the seven methods and in both modes, when annotation and
decoding succeeded and the service operation returns an error e, the handler
hands exactly e to the HTTP error writer, and the response forwarder is not
called: the handler decodes, invokes the operation, writes e, cancels. -/
theorem C4_service_error_reaches_error_writer_unchanged (m : Method) (mux : ServeMux)
    (client : MLTrainingServiceClient) (server : MLTrainingServiceServer)
    (w : ResponseWriter) (req : Request) (pathParams : PathParams) (σ : World)
    (actx : Context) (msg : Message) (derr : Option GoError)
    (hdec : ((runtime.MarshalerForRequest mux req).1.NewDecoder req.Body).Decode m.protoReq = (msg, derr))
    (hok : derr = none ∨ derr = some GoError.EOF) (e : GoError) :
    (runtime.AnnotateContext (context.WithCancel req.Context) mux req m.rpcName
        (runtime.WithHTTPPathPattern m.rpcName) = .ok actx →
      (client.op m actx msg).err = some e →
      (m.clientHandler mux client w req pathParams σ).since σ =
        [Event.decode (runtime.MarshalerForRequest mux req).1 req.Body,
         Event.clientCall m actx msg,
         Event.HTTPError
           (runtime.NewServerMetadataContext actx
             { HeaderMD := (client.op m actx msg).header,
               TrailerMD := (client.op m actx msg).trailer })
           (runtime.MarshalerForRequest mux req).2 w req e,
         Event.cancel (context.WithCancel req.Context)]) ∧
    (runtime.AnnotateIncomingContext
        (grpc.NewContextWithServerTransportStream (context.WithCancel req.Context)) mux req
        m.rpcName (runtime.WithHTTPPathPattern m.rpcName) = .ok actx →
      (server.op m actx msg {}).err = some e →
      (m.serverHandler mux server w req pathParams σ).since σ =
        [Event.decode (runtime.MarshalerForRequest mux req).1 req.Body,
         Event.serverCall m actx msg,
         Event.HTTPError
           (runtime.NewServerMetadataContext actx
             { HeaderMD := metadata.Join [[], (server.op m actx msg {}).stream.Header],
               TrailerMD := metadata.Join [[], (server.op m actx msg {}).stream.Trailer] })
           (runtime.MarshalerForRequest mux req).2 w req e,
         Event.cancel (context.WithCancel req.Context)]) := by
  simp only [runtime.MarshalerForRequest] at hdec
  have hnf : ¬ decodeFailed
      (((mux.marshalerForRequest req).1.NewDecoder req.Body).Decode m.protoReq).2 := by
    rw [hdec]
    rcases hok with h | h <;> simp [decodeFailed, h]
  constructor
  · intro hann herr
    rw [clientHandler_dispatched m mux client w req pathParams σ actx hann hnf,
      since_of_trace _ σ _ rfl, hdec]
    simp only [herr]
    rfl
  · intro hann herr
    rw [serverHandler_dispatched m mux server w req pathParams σ actx hann hnf,
      since_of_trace _ σ _ rfl, hdec]
    simp only [herr]
    rfl

/-- An instance of C4: GetTrainingJob for the unknown id `missing`; the
not-found error of the toy service reaches the error writer as it is, in both
modes. -/
theorem C4_service_error_reaches_error_writer_unchanged_witness :
    (((runtime.MarshalerForRequest demoMux (demoRequest "id=missing")).1.NewDecoder
        (demoRequest "id=missing").Body).Decode Method.GetTrainingJob.protoReq =
      (⟨"GetTrainingJobRequest", [("id", "missing")]⟩, none) ∧
     ((none : Option GoError) = none ∨ (none : Option GoError) = some GoError.EOF)) ∧
    (RegisterMLTrainingServiceHandlerClient_func3 demoMux demoClient 0
        (demoRequest "id=missing") [] {}).since {} =
      [Event.decode demoMarshaler "id=missing",
       Event.clientCall Method.GetTrainingJob
         (Context.annotated (Context.WithCancel (Context.root "http"))
           "/viam.app.mltraining.v1.MLTrainingService/GetTrainingJob"
           "/viam.app.mltraining.v1.MLTrainingService/GetTrainingJob")
         ⟨"GetTrainingJobRequest", [("id", "missing")]⟩,
       Event.HTTPError
         (Context.WithServerMetadata
           (Context.annotated (Context.WithCancel (Context.root "http"))
             "/viam.app.mltraining.v1.MLTrainingService/GetTrainingJob"
             "/viam.app.mltraining.v1.MLTrainingService/GetTrainingJob")
           { HeaderMD := [("x-served-by", ["remote"])], TrailerMD := [] })
         demoMarshaler 0 (demoRequest "id=missing")
         (GoError.status Code.NotFound "training job not found"),
       Event.cancel (Context.WithCancel (Context.root "http"))] ∧
    (RegisterMLTrainingServiceHandlerServer_func3 demoMux demoServer 0
        (demoRequest "id=missing") [] {}).since {} =
      [Event.decode demoMarshaler "id=missing",
       Event.serverCall Method.GetTrainingJob
         (Context.annotated
           (Context.WithServerTransportStream (Context.WithCancel (Context.root "http")))
           "/viam.app.mltraining.v1.MLTrainingService/GetTrainingJob"
           "/viam.app.mltraining.v1.MLTrainingService/GetTrainingJob")
         ⟨"GetTrainingJobRequest", [("id", "missing")]⟩,
       Event.HTTPError
         (Context.WithServerMetadata
           (Context.annotated
             (Context.WithServerTransportStream (Context.WithCancel (Context.root "http")))
             "/viam.app.mltraining.v1.MLTrainingService/GetTrainingJob"
             "/viam.app.mltraining.v1.MLTrainingService/GetTrainingJob")
           { HeaderMD := [("x-served-by", ["local"])], TrailerMD := [] })
         demoMarshaler 0 (demoRequest "id=missing")
         (GoError.status Code.NotFound "training job not found"),
       Event.cancel (Context.WithCancel (Context.root "http"))] :=
  ⟨⟨by decide, Or.inl rfl⟩,
   (C4_service_error_reaches_error_writer_unchanged Method.GetTrainingJob demoMux demoClient
     demoServer 0 (demoRequest "id=missing") [] {} _
     ⟨"GetTrainingJobRequest", [("id", "missing")]⟩ none (by decide) (Or.inl rfl)
     (GoError.status Code.NotFound "training job not found")).1 rfl (by decide),
   (C4_service_error_reaches_error_writer_unchanged Method.GetTrainingJob demoMux demoClient
     demoServer 0 (demoRequest "id=missing") [] {} _
     ⟨"GetTrainingJobRequest", [("id", "missing")]⟩ none (by decide) (Or.inl rfl)
     (GoError.status Code.NotFound "training job not found")).2 rfl (by decide)⟩

/-- C5: for each of the seven methods M and in both modes, whenever context
annotation and decoding succeed, the handler registered on the route of M
invokes operation M of the bound service exactly once and no other operation,
with the annotated context and the request message exactly as the decoder
filled it; what the handler does is independent of pathParams. -/
theorem C5_route_invokes_its_operation_once (m : Method) (rctx : Context) (mux : ServeMux)
    (client : MLTrainingServiceClient) (server : MLTrainingServiceServer)
    (w : ResponseWriter) (req : Request) (pathParams pathParams' : PathParams) (σ : World)
    (actx : Context) (msg : Message) (derr : Option GoError)
    (hdec : ((runtime.MarshalerForRequest mux req).1.NewDecoder req.Body).Decode m.protoReq = (msg, derr))
    (hok : derr = none ∨ derr = some GoError.EOF) :
    (runtime.AnnotateIncomingContext
        (grpc.NewContextWithServerTransportStream (context.WithCancel req.Context)) mux req
        m.rpcName (runtime.WithHTTPPathPattern m.rpcName) = .ok actx →
      ∃ h, (RegisterMLTrainingServiceHandlerServer rctx mux server).1.handlerFor "POST"
          m.pattern = some h ∧
        ((h w req pathParams σ).since σ).filter Event.isCall = [Event.serverCall m actx msg] ∧
        h w req pathParams' σ = h w req pathParams σ) ∧
    (runtime.AnnotateContext (context.WithCancel req.Context) mux req m.rpcName
        (runtime.WithHTTPPathPattern m.rpcName) = .ok actx →
      ∃ h, (RegisterMLTrainingServiceHandlerClient rctx mux client).1.handlerFor "POST"
          m.pattern = some h ∧
        ((h w req pathParams σ).since σ).filter Event.isCall = [Event.clientCall m actx msg] ∧
        h w req pathParams' σ = h w req pathParams σ) := by
  simp only [runtime.MarshalerForRequest] at hdec
  have hnf : ¬ decodeFailed
      (((mux.marshalerForRequest req).1.NewDecoder req.Body).Decode m.protoReq).2 := by
    rw [hdec]
    rcases hok with h | h <;> simp [decodeFailed, h]
  constructor
  · intro hann
    refine ⟨m.serverHandler mux server, handlerFor_register_server m rctx mux server, ?_,
      serverHandler_pathParams m mux server w req pathParams pathParams' σ⟩
    rw [serverHandler_dispatched m mux server w req pathParams σ actx hann hnf,
      since_of_trace _ σ _ rfl, hdec]
    cases (server.op m actx (msg, derr).1 {}).err <;> rfl
  · intro hann
    refine ⟨m.clientHandler mux client, handlerFor_register_client m rctx mux client, ?_,
      clientHandler_pathParams m mux client w req pathParams pathParams' σ⟩
    rw [clientHandler_dispatched m mux client w req pathParams σ actx hann hnf,
      since_of_trace _ σ _ rfl, hdec]
    cases (client.op m actx (msg, derr).1).err <;> rfl

/-- An instance of C5: CancelTrainingJob for `job-123` on the toy mux; the
handler found on the route calls CancelTrainingJob once, in both modes. -/
theorem C5_route_invokes_its_operation_once_witness :
    (((runtime.MarshalerForRequest demoMux (demoRequest "id=job-123")).1.NewDecoder
        (demoRequest "id=job-123").Body).Decode Method.CancelTrainingJob.protoReq =
      (⟨"CancelTrainingJobRequest", [("id", "job-123")]⟩, none) ∧
     ((none : Option GoError) = none ∨ (none : Option GoError) = some GoError.EOF)) ∧
    (∃ h, (RegisterMLTrainingServiceHandlerServer (Context.root "main") demoMux
          demoServer).1.handlerFor "POST" pattern_MLTrainingService_CancelTrainingJob_0 =
        some h ∧
      ((h 0 (demoRequest "id=job-123") [] {}).since {}).filter Event.isCall =
        [Event.serverCall Method.CancelTrainingJob
           (Context.annotated
           (Context.WithServerTransportStream (Context.WithCancel (Context.root "http")))
           "/viam.app.mltraining.v1.MLTrainingService/CancelTrainingJob"
           "/viam.app.mltraining.v1.MLTrainingService/CancelTrainingJob")
           ⟨"CancelTrainingJobRequest", [("id", "job-123")]⟩] ∧
      h 0 (demoRequest "id=job-123") [("id", "other")] {} =
        h 0 (demoRequest "id=job-123") [] {}) ∧
    (∃ h, (RegisterMLTrainingServiceHandlerClient (Context.root "main") demoMux
          demoClient).1.handlerFor "POST" pattern_MLTrainingService_CancelTrainingJob_0 =
        some h ∧
      ((h 0 (demoRequest "id=job-123") [] {}).since {}).filter Event.isCall =
        [Event.clientCall Method.CancelTrainingJob
           (Context.annotated (Context.WithCancel (Context.root "http"))
           "/viam.app.mltraining.v1.MLTrainingService/CancelTrainingJob"
           "/viam.app.mltraining.v1.MLTrainingService/CancelTrainingJob")
           ⟨"CancelTrainingJobRequest", [("id", "job-123")]⟩] ∧
      h 0 (demoRequest "id=job-123") [("id", "other")] {} =
        h 0 (demoRequest "id=job-123") [] {}) :=
  ⟨⟨by decide, Or.inl rfl⟩,
   (C5_route_invokes_its_operation_once Method.CancelTrainingJob (Context.root "main") demoMux
     demoClient demoServer 0 (demoRequest "id=job-123") [] [("id", "other")] {} _
     ⟨"CancelTrainingJobRequest", [("id", "job-123")]⟩ none (by decide) (Or.inl rfl)).1 rfl,
   (C5_route_invokes_its_operation_once Method.CancelTrainingJob (Context.root "main") demoMux
     demoClient demoServer 0 (demoRequest "id=job-123") [] [("id", "other")] {} _
     ⟨"CancelTrainingJobRequest", [("id", "job-123")]⟩ none (by decide) (Or.inl rfl)).2 rfl⟩

/-- C6: each of the two registrars adds exactly seven routes to the mux, all
under the verb POST and one per method (the routes of other verbs and the routes
already present are untouched); the pattern of method M is built without error
from exactly the two literal segments `viam.app.mltraining.v1.MLTrainingService`
and M, with no variable and no verb suffix; distinct methods have distinct
patterns; and the path the pattern denotes is the string
`/viam.app.mltraining.v1.MLTrainingService/M`, the very string the handler of M
passes to context annotation as RPC name and as HTTP path pattern. -/
theorem C6_seven_post_routes (rctx : Context) (mux : ServeMux)
    (client : MLTrainingServiceClient) (server : MLTrainingServiceServer) :
    (∀ v, (RegisterMLTrainingServiceHandlerServer rctx mux server).1.handlers v =
      if v = "POST" then
        (Method.all.reverse.map
          (fun m => ({ pat := m.pattern, h := m.serverHandler mux server } : handler))) ++
          mux.handlers v
      else mux.handlers v) ∧
    (∀ v, (RegisterMLTrainingServiceHandlerClient rctx mux client).1.handlers v =
      if v = "POST" then
        (Method.all.reverse.map
          (fun m => ({ pat := m.pattern, h := m.clientHandler mux client } : handler))) ++
          mux.handlers v
      else mux.handlers v) ∧
    (Method.all.length = 7 ∧ Method.all.Nodup ∧ ∀ m : Method, m ∈ Method.all) ∧
    (∀ m m' : Method, m.pattern = m'.pattern → m = m') ∧
    (∀ m : Method,
      runtime.NewPattern 1 [utilities.OpLitPush, 0, utilities.OpLitPush, 1]
        ["viam.app.mltraining.v1.MLTrainingService", m.name] "" = .ok m.pattern ∧
      m.pattern.ops = [⟨utilities.OpLitPush, 0⟩, ⟨utilities.OpLitPush, 1⟩] ∧
      m.pattern.pool = ["viam.app.mltraining.v1.MLTrainingService", m.name] ∧
      m.pattern.vars = [] ∧
      m.pattern.verb = "" ∧
      m.pattern.String = "/viam.app.mltraining.v1.MLTrainingService/" ++ m.name ∧
      m.pattern.String = m.rpcName) ∧
    (∀ (m : Method) (w : ResponseWriter) (req : Request) (pathParams : PathParams) (σ : World)
        (e : GoError),
      runtime.AnnotateIncomingContext
          (grpc.NewContextWithServerTransportStream (context.WithCancel req.Context)) mux req
          m.pattern.String (runtime.WithHTTPPathPattern m.pattern.String) = .error e →
      (m.serverHandler mux server w req pathParams σ).since σ =
        [Event.HTTPError
           (grpc.NewContextWithServerTransportStream (context.WithCancel req.Context))
           (runtime.MarshalerForRequest mux req).2 w req e,
         Event.cancel (context.WithCancel req.Context)]) ∧
    (∀ (m : Method) (w : ResponseWriter) (req : Request) (pathParams : PathParams) (σ : World)
        (e : GoError),
      runtime.AnnotateContext (context.WithCancel req.Context) mux req
          m.pattern.String (runtime.WithHTTPPathPattern m.pattern.String) = .error e →
      (m.clientHandler mux client w req pathParams σ).since σ =
        [Event.HTTPError (context.WithCancel req.Context)
           (runtime.MarshalerForRequest mux req).2 w req e,
         Event.cancel (context.WithCancel req.Context)]) := by
  have hstr : ∀ m : Method, m.pattern.String = m.rpcName := by
    intro m
    cases m <;> rfl
  refine ⟨register_server_handlers rctx mux server, register_client_handlers rctx mux client,
    ⟨rfl, by decide, fun m => by cases m <;> decide⟩, pattern_injective, ?_, ?_, ?_⟩
  · intro m
    cases m <;> exact ⟨rfl, rfl, rfl, rfl, rfl, by decide, rfl⟩
  · intro m w req pathParams σ e hann
    rw [hstr] at hann
    rw [serverHandler_annotate_error m mux server w req pathParams σ e hann,
      since_of_trace _ σ _ rfl]
    rfl
  · intro m w req pathParams σ e hann
    rw [hstr] at hann
    rw [clientHandler_annotate_error m mux client w req pathParams σ e hann,
      since_of_trace _ σ _ rfl]
    rfl

/-- An instance of C6 on the toy mux: the paths of the patterns registered under
POST, in the order of the route table, and the annotation failure of
ListTrainingJobs, raised for the path of its pattern and written by its
local-mode handler. -/
theorem C6_seven_post_routes_witness :
    (runtime.AnnotateIncomingContext
        (grpc.NewContextWithServerTransportStream
          (context.WithCancel demoBadTimeoutRequest.Context)) demoMux demoBadTimeoutRequest
        Method.ListTrainingJobs.pattern.String
        (runtime.WithHTTPPathPattern Method.ListTrainingJobs.pattern.String) =
      .error (GoError.status Code.InvalidArgument "invalid grpc-timeout: bogus")) ∧
    ((RegisterMLTrainingServiceHandlerServer (Context.root "main") demoMux
        demoServer).1.handlers "POST").map (fun e => e.pat.String) =
      ["/viam.app.mltraining.v1.MLTrainingService/GetTrainingJobLogs",
       "/viam.app.mltraining.v1.MLTrainingService/DeleteCompletedTrainingJob",
       "/viam.app.mltraining.v1.MLTrainingService/CancelTrainingJob",
       "/viam.app.mltraining.v1.MLTrainingService/ListTrainingJobs",
       "/viam.app.mltraining.v1.MLTrainingService/GetTrainingJob",
       "/viam.app.mltraining.v1.MLTrainingService/SubmitCustomTrainingJob",
       "/viam.app.mltraining.v1.MLTrainingService/SubmitTrainingJob"] ∧
    (RegisterMLTrainingServiceHandlerServer_func4 demoMux demoServer 0 demoBadTimeoutRequest []
        {}).since {} =
      [Event.HTTPError
         (Context.WithServerTransportStream (Context.WithCancel (Context.root "http")))
         demoMarshaler 0 demoBadTimeoutRequest
         (GoError.status Code.InvalidArgument "invalid grpc-timeout: bogus"),
       Event.cancel (Context.WithCancel (Context.root "http"))] :=
  ⟨rfl,
   by
    rw [(C6_seven_post_routes (Context.root "main") demoMux demoClient demoServer).1 "POST"]
    decide,
   (C6_seven_post_routes (Context.root "main") demoMux demoClient
      demoServer).2.2.2.2.2.1 Method.ListTrainingJobs 0 demoBadTimeoutRequest [] {}
        (GoError.status Code.InvalidArgument "invalid grpc-timeout: bogus") rfl⟩

/-- C7: for each of the seven methods and in both modes, when annotation and
decoding succeeded and the service operation returns a response r with no error,
the handler calls the response forwarder exactly once, with r unchanged, with
the outbound marshaler that MarshalerForRequest selected for the request and
with exactly the forward-response options of the mux; the HTTP error writer is
not called. -/
theorem C7_success_is_forwarded_once (m : Method) (mux : ServeMux)
    (client : MLTrainingServiceClient) (server : MLTrainingServiceServer)
    (w : ResponseWriter) (req : Request) (pathParams : PathParams) (σ : World)
    (actx : Context) (msg : Message) (derr : Option GoError)
    (hdec : ((runtime.MarshalerForRequest mux req).1.NewDecoder req.Body).Decode m.protoReq = (msg, derr))
    (hok : derr = none ∨ derr = some GoError.EOF) :
    (runtime.AnnotateContext (context.WithCancel req.Context) mux req m.rpcName
        (runtime.WithHTTPPathPattern m.rpcName) = .ok actx →
      (client.op m actx msg).err = none →
      (m.clientHandler mux client w req pathParams σ).since σ =
        [Event.decode (runtime.MarshalerForRequest mux req).1 req.Body,
         Event.clientCall m actx msg,
         Event.ForwardResponseMessage
           (runtime.NewServerMetadataContext actx
             { HeaderMD := (client.op m actx msg).header,
               TrailerMD := (client.op m actx msg).trailer })
           (runtime.MarshalerForRequest mux req).2 w req (client.op m actx msg).msg
           mux.GetForwardResponseOptions,
         Event.cancel (context.WithCancel req.Context)]) ∧
    (runtime.AnnotateIncomingContext
        (grpc.NewContextWithServerTransportStream (context.WithCancel req.Context)) mux req
        m.rpcName (runtime.WithHTTPPathPattern m.rpcName) = .ok actx →
      (server.op m actx msg {}).err = none →
      (m.serverHandler mux server w req pathParams σ).since σ =
        [Event.decode (runtime.MarshalerForRequest mux req).1 req.Body,
         Event.serverCall m actx msg,
         Event.ForwardResponseMessage
           (runtime.NewServerMetadataContext actx
             { HeaderMD := metadata.Join [[], (server.op m actx msg {}).stream.Header],
               TrailerMD := metadata.Join [[], (server.op m actx msg {}).stream.Trailer] })
           (runtime.MarshalerForRequest mux req).2 w req (server.op m actx msg {}).msg
           mux.GetForwardResponseOptions,
         Event.cancel (context.WithCancel req.Context)]) := by
  simp only [runtime.MarshalerForRequest] at hdec
  have hnf : ¬ decodeFailed
      (((mux.marshalerForRequest req).1.NewDecoder req.Body).Decode m.protoReq).2 := by
    rw [hdec]
    rcases hok with h | h <;> simp [decodeFailed, h]
  constructor
  · intro hann herr
    rw [clientHandler_dispatched m mux client w req pathParams σ actx hann hnf,
      since_of_trace _ σ _ rfl, hdec]
    simp only [herr]
    rfl
  · intro hann herr
    rw [serverHandler_dispatched m mux server w req pathParams σ actx hann hnf,
      since_of_trace _ σ _ rfl, hdec]
    simp only [herr]
    rfl

/-- An instance of C7: GetTrainingJob for the known id `job-123`; the record of
the toy service is forwarded as it is, in both modes. -/
theorem C7_success_is_forwarded_once_witness :
    (((runtime.MarshalerForRequest demoMux (demoRequest "id=job-123")).1.NewDecoder
        (demoRequest "id=job-123").Body).Decode Method.GetTrainingJob.protoReq =
      (⟨"GetTrainingJobRequest", [("id", "job-123")]⟩, none) ∧
     ((none : Option GoError) = none ∨ (none : Option GoError) = some GoError.EOF)) ∧
    (RegisterMLTrainingServiceHandlerClient_func3 demoMux demoClient 0
        (demoRequest "id=job-123") [] {}).since {} =
      [Event.decode demoMarshaler "id=job-123",
       Event.clientCall Method.GetTrainingJob
         (Context.annotated (Context.WithCancel (Context.root "http"))
           "/viam.app.mltraining.v1.MLTrainingService/GetTrainingJob"
           "/viam.app.mltraining.v1.MLTrainingService/GetTrainingJob")
         ⟨"GetTrainingJobRequest", [("id", "job-123")]⟩,
       Event.ForwardResponseMessage
         (Context.WithServerMetadata
           (Context.annotated (Context.WithCancel (Context.root "http"))
           "/viam.app.mltraining.v1.MLTrainingService/GetTrainingJob"
           "/viam.app.mltraining.v1.MLTrainingService/GetTrainingJob")
           { HeaderMD := [("x-served-by", ["remote"])], TrailerMD := [] })
         demoMarshaler 0 (demoRequest "id=job-123")
         (some ⟨"Response", [("id", "job-123"), ("status", "COMPLETED")]⟩) ["setStatus"],
       Event.cancel (Context.WithCancel (Context.root "http"))] ∧
    (RegisterMLTrainingServiceHandlerServer_func3 demoMux demoServer 0
        (demoRequest "id=job-123") [] {}).since {} =
      [Event.decode demoMarshaler "id=job-123",
       Event.serverCall Method.GetTrainingJob
         (Context.annotated
           (Context.WithServerTransportStream (Context.WithCancel (Context.root "http")))
           "/viam.app.mltraining.v1.MLTrainingService/GetTrainingJob"
           "/viam.app.mltraining.v1.MLTrainingService/GetTrainingJob")
         ⟨"GetTrainingJobRequest", [("id", "job-123")]⟩,
       Event.ForwardResponseMessage
         (Context.WithServerMetadata
           (Context.annotated
           (Context.WithServerTransportStream (Context.WithCancel (Context.root "http")))
           "/viam.app.mltraining.v1.MLTrainingService/GetTrainingJob"
           "/viam.app.mltraining.v1.MLTrainingService/GetTrainingJob")
           { HeaderMD := [("x-served-by", ["local"])], TrailerMD := [] })
         demoMarshaler 0 (demoRequest "id=job-123")
         (some ⟨"Response", [("id", "job-123"), ("status", "COMPLETED")]⟩) ["setStatus"],
       Event.cancel (Context.WithCancel (Context.root "http"))] :=
  ⟨⟨by decide, Or.inl rfl⟩,
   (C7_success_is_forwarded_once Method.GetTrainingJob demoMux demoClient
     demoServer 0 (demoRequest "id=job-123") [] {} _
     ⟨"GetTrainingJobRequest", [("id", "job-123")]⟩ none (by decide) (Or.inl rfl)).1
     rfl (by decide),
   (C7_success_is_forwarded_once Method.GetTrainingJob demoMux demoClient
     demoServer 0 (demoRequest "id=job-123") [] {} _
     ⟨"GetTrainingJobRequest", [("id", "job-123")]⟩ none (by decide) (Or.inl rfl)).2
     rfl (by decide)⟩

/-- C8: every handler registered by either registrar performs, for every
outcome of annotation, decoding and dispatch, exactly one response-writing
action: either one call of the HTTP error writer and none of the forwarder, or
one call of the forwarder and none of the error writer. -/
theorem C8_exactly_one_response (m : Method) (mux : ServeMux)
    (client : MLTrainingServiceClient) (server : MLTrainingServiceServer)
    (w : ResponseWriter) (req : Request) (pathParams : PathParams) (σ : World) :
    ((((m.serverHandler mux server w req pathParams σ).since σ).countP Event.isHTTPError = 1 ∧
      ((m.serverHandler mux server w req pathParams σ).since σ).countP Event.isForward = 0) ∨
     (((m.serverHandler mux server w req pathParams σ).since σ).countP Event.isHTTPError = 0 ∧
      ((m.serverHandler mux server w req pathParams σ).since σ).countP Event.isForward = 1)) ∧
    ((((m.clientHandler mux client w req pathParams σ).since σ).countP Event.isHTTPError = 1 ∧
      ((m.clientHandler mux client w req pathParams σ).since σ).countP Event.isForward = 0) ∨
     (((m.clientHandler mux client w req pathParams σ).since σ).countP Event.isHTTPError = 0 ∧
      ((m.clientHandler mux client w req pathParams σ).since σ).countP Event.isForward = 1)) ∧
    ((m.serverHandler mux server w req pathParams σ).since σ).countP Event.isResponse = 1 ∧
    ((m.clientHandler mux client w req pathParams σ).since σ).countP Event.isResponse = 1 := by
  have hs : ((((m.serverHandler mux server w req pathParams σ).since σ).countP
        Event.isHTTPError = 1 ∧
      ((m.serverHandler mux server w req pathParams σ).since σ).countP Event.isForward = 0) ∨
     (((m.serverHandler mux server w req pathParams σ).since σ).countP Event.isHTTPError = 0 ∧
      ((m.serverHandler mux server w req pathParams σ).since σ).countP Event.isForward = 1)) ∧
      ((m.serverHandler mux server w req pathParams σ).since σ).countP Event.isResponse = 1 := by
    cases hann : mux.annotateIncomingContext
        (Context.WithServerTransportStream (Context.WithCancel req.ctx)) req
        m.rpcName m.rpcName with
    | error err =>
      rw [serverHandler_annotate_error m mux server w req pathParams σ err hann,
        since_of_trace _ σ _ rfl]
      exact ⟨Or.inl ⟨rfl, rfl⟩, rfl⟩
    | ok actx =>
      by_cases hfail : decodeFailed
          (((mux.marshalerForRequest req).1.NewDecoder req.Body).Decode m.protoReq).2
      · rw [serverHandler_decode_failed m mux server w req pathParams σ actx hann hfail,
          since_of_trace _ σ _ rfl]
        exact ⟨Or.inl ⟨rfl, rfl⟩, rfl⟩
      · rw [serverHandler_dispatched m mux server w req pathParams σ actx hann hfail,
          since_of_trace _ σ _ rfl]
        cases (server.op m actx
          (((mux.marshalerForRequest req).1.NewDecoder req.Body).Decode m.protoReq).1 {}).err
        · exact ⟨Or.inr ⟨rfl, rfl⟩, rfl⟩
        · exact ⟨Or.inl ⟨rfl, rfl⟩, rfl⟩
  have hc : ((((m.clientHandler mux client w req pathParams σ).since σ).countP
        Event.isHTTPError = 1 ∧
      ((m.clientHandler mux client w req pathParams σ).since σ).countP Event.isForward = 0) ∨
     (((m.clientHandler mux client w req pathParams σ).since σ).countP Event.isHTTPError = 0 ∧
      ((m.clientHandler mux client w req pathParams σ).since σ).countP Event.isForward = 1)) ∧
      ((m.clientHandler mux client w req pathParams σ).since σ).countP Event.isResponse = 1 := by
    cases hann : mux.annotateContext (Context.WithCancel req.ctx) req m.rpcName m.rpcName with
    | error err =>
      rw [clientHandler_annotate_error m mux client w req pathParams σ err hann,
        since_of_trace _ σ _ rfl]
      exact ⟨Or.inl ⟨rfl, rfl⟩, rfl⟩
    | ok actx =>
      by_cases hfail : decodeFailed
          (((mux.marshalerForRequest req).1.NewDecoder req.Body).Decode m.protoReq).2
      · rw [clientHandler_decode_failed m mux client w req pathParams σ actx hann hfail,
          since_of_trace _ σ _ rfl]
        exact ⟨Or.inl ⟨rfl, rfl⟩, rfl⟩
      · rw [clientHandler_dispatched m mux client w req pathParams σ actx hann hfail,
          since_of_trace _ σ _ rfl]
        cases (client.op m actx
          (((mux.marshalerForRequest req).1.NewDecoder req.Body).Decode m.protoReq).1).err
        · exact ⟨Or.inr ⟨rfl, rfl⟩, rfl⟩
        · exact ⟨Or.inl ⟨rfl, rfl⟩, rfl⟩
  exact ⟨hs.1, hc.1, hs.2, hc.2⟩

/-- The toy server and the toy client answer alike. -/
theorem demo_services_agree (m : Method) (c1 c2 : Context) (r : Message)
    (s : ServerTransportStream) :
    (demoServer.op m c1 r s).msg = (demoClient.op m c2 r).msg ∧
    (demoServer.op m c1 r s).err = (demoClient.op m c2 r).err := by
  cases m <;> exact ⟨rfl, rfl⟩

/-- C9: for each of the seven methods, for the same request on the same mux (so
the same marshalers and options), the same outcome of annotation, and a server
and a client that return the same response and error for the same request, the
handler registered in local mode and the one registered in remote mode produce
the same observations: the same choice between error writer and forwarder, the
same error, the same response message (and the same marshaler and options). -/
theorem C9_local_and_remote_agree (m : Method) (mux : ServeMux)
    (client : MLTrainingServiceClient) (server : MLTrainingServiceServer)
    (w : ResponseWriter) (req : Request) (pathParams : PathParams) (σ : World)
    (hann :
      (∃ e,
        runtime.AnnotateIncomingContext
          (grpc.NewContextWithServerTransportStream (context.WithCancel req.Context)) mux req
          m.rpcName (runtime.WithHTTPPathPattern m.rpcName) = .error e ∧
        runtime.AnnotateContext (context.WithCancel req.Context) mux req m.rpcName
          (runtime.WithHTTPPathPattern m.rpcName) = .error e) ∨
      (∃ a b,
        runtime.AnnotateIncomingContext
          (grpc.NewContextWithServerTransportStream (context.WithCancel req.Context)) mux req
          m.rpcName (runtime.WithHTTPPathPattern m.rpcName) = .ok a ∧
        runtime.AnnotateContext (context.WithCancel req.Context) mux req m.rpcName
          (runtime.WithHTTPPathPattern m.rpcName) = .ok b))
    (hsvc : ∀ (c1 c2 : Context) (r : Message) (s : ServerTransportStream),
      (server.op m c1 r s).msg = (client.op m c2 r).msg ∧
      (server.op m c1 r s).err = (client.op m c2 r).err) :
    observable ((m.serverHandler mux server w req pathParams σ).since σ) =
      observable ((m.clientHandler mux client w req pathParams σ).since σ) := by
  rcases hann with ⟨e, hs, hc⟩ | ⟨a, b, hs, hc⟩
  · rw [serverHandler_annotate_error m mux server w req pathParams σ e hs,
      clientHandler_annotate_error m mux client w req pathParams σ e hc,
      since_of_trace _ σ _ rfl, since_of_trace _ σ _ rfl]
    rfl
  · by_cases hfail : decodeFailed
        (((mux.marshalerForRequest req).1.NewDecoder req.Body).Decode m.protoReq).2
    · rw [serverHandler_decode_failed m mux server w req pathParams σ a hs hfail,
        clientHandler_decode_failed m mux client w req pathParams σ b hc hfail,
        since_of_trace _ σ _ rfl, since_of_trace _ σ _ rfl]
      rfl
    · rw [serverHandler_dispatched m mux server w req pathParams σ a hs hfail,
        clientHandler_dispatched m mux client w req pathParams σ b hc hfail,
        since_of_trace _ σ _ rfl, since_of_trace _ σ _ rfl]
      obtain ⟨hm, he⟩ := hsvc a b
        (((mux.marshalerForRequest req).1.NewDecoder req.Body).Decode m.protoReq).1 {}
      rw [he]
      cases (client.op m b
        (((mux.marshalerForRequest req).1.NewDecoder req.Body).Decode m.protoReq).1).err
      · simp [observable, Event.observe, hm]
      · simp [observable, Event.observe]

/-- An instance of C9: GetTrainingJob for the unknown id `missing` on the toy
mux; annotation succeeds in both modes, the toy services agree, and both modes
write the same not-found error. -/
theorem C9_local_and_remote_agree_witness :
    ((∃ a b,
        runtime.AnnotateIncomingContext
          (grpc.NewContextWithServerTransportStream
            (context.WithCancel (demoRequest "id=missing").Context)) demoMux
          (demoRequest "id=missing") Method.GetTrainingJob.rpcName
          (runtime.WithHTTPPathPattern Method.GetTrainingJob.rpcName) = .ok a ∧
        runtime.AnnotateContext (context.WithCancel (demoRequest "id=missing").Context) demoMux
          (demoRequest "id=missing") Method.GetTrainingJob.rpcName
          (runtime.WithHTTPPathPattern Method.GetTrainingJob.rpcName) = .ok b) ∧
     (∀ (c1 c2 : Context) (r : Message) (s : ServerTransportStream),
        (demoServer.op Method.GetTrainingJob c1 r s).msg =
          (demoClient.op Method.GetTrainingJob c2 r).msg ∧
        (demoServer.op Method.GetTrainingJob c1 r s).err =
          (demoClient.op Method.GetTrainingJob c2 r).err)) ∧
    observable ((RegisterMLTrainingServiceHandlerServer_func3 demoMux demoServer 0
        (demoRequest "id=missing") [] {}).since {}) =
      observable ((RegisterMLTrainingServiceHandlerClient_func3 demoMux demoClient 0
        (demoRequest "id=missing") [] {}).since {}) ∧
    observable ((RegisterMLTrainingServiceHandlerClient_func3 demoMux demoClient 0
        (demoRequest "id=missing") [] {}).since {}) =
      [Observation.errorWritten demoMarshaler 0 (demoRequest "id=missing")
         (GoError.status Code.NotFound "training job not found")] :=
  ⟨⟨⟨_, _, rfl, rfl⟩, demo_services_agree Method.GetTrainingJob⟩,
   C9_local_and_remote_agree Method.GetTrainingJob demoMux demoClient demoServer 0
     (demoRequest "id=missing") [] {} (Or.inr ⟨_, _, rfl, rfl⟩)
     (demo_services_agree Method.GetTrainingJob),
   rfl⟩

/-- C10: for every handler in both modes, if building the annotated context
fails with error e, the handler writes e through the HTTP error writer and
returns: the body is not decoded and no service operation is invoked. -/
theorem C10_annotation_failure_short_circuits (m : Method) (mux : ServeMux)
    (client : MLTrainingServiceClient) (server : MLTrainingServiceServer)
    (w : ResponseWriter) (req : Request) (pathParams : PathParams) (σ : World) (e : GoError) :
    (runtime.AnnotateIncomingContext
        (grpc.NewContextWithServerTransportStream (context.WithCancel req.Context)) mux req
        m.rpcName (runtime.WithHTTPPathPattern m.rpcName) = .error e →
      (m.serverHandler mux server w req pathParams σ).since σ =
        [Event.HTTPError
           (grpc.NewContextWithServerTransportStream (context.WithCancel req.Context))
           (runtime.MarshalerForRequest mux req).2 w req e,
         Event.cancel (context.WithCancel req.Context)] ∧
      ∀ ev ∈ (m.serverHandler mux server w req pathParams σ).since σ,
        ev.isDecode = false ∧ ev.isCall = false) ∧
    (runtime.AnnotateContext (context.WithCancel req.Context) mux req m.rpcName
        (runtime.WithHTTPPathPattern m.rpcName) = .error e →
      (m.clientHandler mux client w req pathParams σ).since σ =
        [Event.HTTPError (context.WithCancel req.Context)
           (runtime.MarshalerForRequest mux req).2 w req e,
         Event.cancel (context.WithCancel req.Context)] ∧
      ∀ ev ∈ (m.clientHandler mux client w req pathParams σ).since σ,
        ev.isDecode = false ∧ ev.isCall = false) := by
  constructor
  · intro hann
    rw [serverHandler_annotate_error m mux server w req pathParams σ e hann,
      since_of_trace _ σ _ rfl]
    refine ⟨rfl, ?_⟩
    intro ev hev
    simp only [List.mem_cons, List.mem_singleton, List.not_mem_nil, or_false] at hev
    rcases hev with h | h <;> subst h <;> exact ⟨rfl, rfl⟩
  · intro hann
    rw [clientHandler_annotate_error m mux client w req pathParams σ e hann,
      since_of_trace _ σ _ rfl]
    refine ⟨rfl, ?_⟩
    intro ev hev
    simp only [List.mem_cons, List.mem_singleton, List.not_mem_nil, or_false] at hev
    rcases hev with h | h <;> subst h <;> exact ⟨rfl, rfl⟩

/-- An instance of C10: a request with an unparsable `Grpc-Timeout` header sent
to GetTrainingJob; in both modes the handler writes the annotation error and
cancels, nothing else. -/
theorem C10_annotation_failure_short_circuits_witness :
    (runtime.AnnotateIncomingContext
        (grpc.NewContextWithServerTransportStream
          (context.WithCancel demoBadTimeoutRequest.Context)) demoMux demoBadTimeoutRequest
        Method.GetTrainingJob.rpcName
        (runtime.WithHTTPPathPattern Method.GetTrainingJob.rpcName) =
      .error (GoError.status Code.InvalidArgument "invalid grpc-timeout: bogus")) ∧
    (RegisterMLTrainingServiceHandlerServer_func3 demoMux demoServer 0 demoBadTimeoutRequest []
        {}).since {} =
      [Event.HTTPError
         (Context.WithServerTransportStream (Context.WithCancel (Context.root "http")))
         demoMarshaler 0 demoBadTimeoutRequest
         (GoError.status Code.InvalidArgument "invalid grpc-timeout: bogus"),
       Event.cancel (Context.WithCancel (Context.root "http"))] ∧
    (RegisterMLTrainingServiceHandlerClient_func3 demoMux demoClient 0 demoBadTimeoutRequest []
        {}).since {} =
      [Event.HTTPError (Context.WithCancel (Context.root "http"))
         demoMarshaler 0 demoBadTimeoutRequest
         (GoError.status Code.InvalidArgument "invalid grpc-timeout: bogus"),
       Event.cancel (Context.WithCancel (Context.root "http"))] :=
  ⟨rfl,
   ((C10_annotation_failure_short_circuits Method.GetTrainingJob demoMux demoClient demoServer
      0 demoBadTimeoutRequest [] {}
      (GoError.status Code.InvalidArgument "invalid grpc-timeout: bogus")).1 rfl).1,
   ((C10_annotation_failure_short_circuits Method.GetTrainingJob demoMux demoClient demoServer
      0 demoBadTimeoutRequest [] {}
      (GoError.status Code.InvalidArgument "invalid grpc-timeout: bogus")).2 rfl).1⟩

/-- C11: the translation of a service error into an HTTP error response is the
same for all seven methods and both modes: when the operation of any method
returns error e, the handler's only response-writing action is the shared error
writer `runtime.HTTPError`, given the outbound marshaler, the writer, the
request and e, and the status written is the translation of the category of e,
an expression in which neither the method nor the mode occurs.  The translation
is a function of the category (same category, same status), invalid-argument
gives 400 (class 4xx) and not-found gives 404 (class 4xx). -/
theorem C11_error_status_is_uniform (m : Method) (mux : ServeMux)
    (client : MLTrainingServiceClient) (server : MLTrainingServiceServer)
    (w : ResponseWriter) (req : Request) (pathParams : PathParams) (σ : World) :
    (∀ (actx : Context) (msg : Message) (derr : Option GoError) (e : GoError),
      ((runtime.MarshalerForRequest mux req).1.NewDecoder req.Body).Decode m.protoReq = (msg, derr) →
      (derr = none ∨ derr = some GoError.EOF) →
      runtime.AnnotateContext (context.WithCancel req.Context) mux req m.rpcName
          (runtime.WithHTTPPathPattern m.rpcName) = .ok actx →
      (client.op m actx msg).err = some e →
      ((m.clientHandler mux client w req pathParams σ).since σ).filter Event.isResponse =
        [Event.HTTPError
           (runtime.NewServerMetadataContext actx
             { HeaderMD := (client.op m actx msg).header,
               TrailerMD := (client.op m actx msg).trailer })
           (runtime.MarshalerForRequest mux req).2 w req e] ∧
      ((m.clientHandler mux client w req pathParams σ).since σ).filterMap Event.errorStatus =
        [runtime.HTTPStatusFromCode e.Code]) ∧
    (∀ (actx : Context) (msg : Message) (derr : Option GoError) (e : GoError),
      ((runtime.MarshalerForRequest mux req).1.NewDecoder req.Body).Decode m.protoReq = (msg, derr) →
      (derr = none ∨ derr = some GoError.EOF) →
      runtime.AnnotateIncomingContext
          (grpc.NewContextWithServerTransportStream (context.WithCancel req.Context)) mux req
          m.rpcName (runtime.WithHTTPPathPattern m.rpcName) = .ok actx →
      (server.op m actx msg {}).err = some e →
      ((m.serverHandler mux server w req pathParams σ).since σ).filter Event.isResponse =
        [Event.HTTPError
           (runtime.NewServerMetadataContext actx
             { HeaderMD := metadata.Join [[], (server.op m actx msg {}).stream.Header],
               TrailerMD := metadata.Join [[], (server.op m actx msg {}).stream.Trailer] })
           (runtime.MarshalerForRequest mux req).2 w req e] ∧
      ((m.serverHandler mux server w req pathParams σ).since σ).filterMap Event.errorStatus =
        [runtime.HTTPStatusFromCode e.Code]) ∧
    (∀ e e' : GoError, e.Code = e'.Code →
      runtime.HTTPErrorStatus e = runtime.HTTPErrorStatus e') ∧
    (∀ e : GoError, e.Code = Code.InvalidArgument →
      runtime.HTTPErrorStatus e = 400 ∧ statusClass (runtime.HTTPErrorStatus e) = 4) ∧
    (∀ e : GoError, e.Code = Code.NotFound →
      runtime.HTTPErrorStatus e = 404 ∧ statusClass (runtime.HTTPErrorStatus e) = 4) := by
  refine ⟨?_, ?_, ?_, ?_, ?_⟩
  · intro actx msg derr e hdec hok hann herr
    simp only [runtime.MarshalerForRequest] at hdec
    have hnf : ¬ decodeFailed
        (((mux.marshalerForRequest req).1.NewDecoder req.Body).Decode m.protoReq).2 := by
      rw [hdec]
      rcases hok with h | h <;> simp [decodeFailed, h]
    rw [clientHandler_dispatched m mux client w req pathParams σ actx hann hnf,
      since_of_trace _ σ _ rfl, hdec]
    simp only [herr]
    exact ⟨rfl, rfl⟩
  · intro actx msg derr e hdec hok hann herr
    simp only [runtime.MarshalerForRequest] at hdec
    have hnf : ¬ decodeFailed
        (((mux.marshalerForRequest req).1.NewDecoder req.Body).Decode m.protoReq).2 := by
      rw [hdec]
      rcases hok with h | h <;> simp [decodeFailed, h]
    rw [serverHandler_dispatched m mux server w req pathParams σ actx hann hnf,
      since_of_trace _ σ _ rfl, hdec]
    simp only [herr]
    exact ⟨rfl, rfl⟩
  · intro e e' h
    simp [runtime.HTTPErrorStatus, h]
  · intro e h
    simp [runtime.HTTPErrorStatus, h, runtime.HTTPStatusFromCode, statusClass]
  · intro e h
    simp [runtime.HTTPErrorStatus, h, runtime.HTTPStatusFromCode, statusClass]

/-- An instance of C11: the unknown id `missing` sent to GetTrainingJob in remote
mode and to CancelTrainingJob in local mode; both failures are not-found and
both are written with status 404. -/
theorem C11_error_status_is_uniform_witness :
    (((runtime.MarshalerForRequest demoMux (demoRequest "id=missing")).1.NewDecoder
        (demoRequest "id=missing").Body).Decode Method.GetTrainingJob.protoReq =
      (⟨"GetTrainingJobRequest", [("id", "missing")]⟩, none) ∧
     ((runtime.MarshalerForRequest demoMux (demoRequest "id=missing")).1.NewDecoder
        (demoRequest "id=missing").Body).Decode Method.CancelTrainingJob.protoReq =
      (⟨"CancelTrainingJobRequest", [("id", "missing")]⟩, none)) ∧
    ((RegisterMLTrainingServiceHandlerClient_func3 demoMux demoClient 0
        (demoRequest "id=missing") [] {}).since {}).filterMap Event.errorStatus = [404] ∧
    ((RegisterMLTrainingServiceHandlerServer_func5 demoMux demoServer 0
        (demoRequest "id=missing") [] {}).since {}).filterMap Event.errorStatus = [404] :=
  ⟨⟨by decide, by decide⟩,
   ((C11_error_status_is_uniform Method.GetTrainingJob demoMux demoClient demoServer 0
      (demoRequest "id=missing") [] {}).1 _ ⟨"GetTrainingJobRequest", [("id", "missing")]⟩
      none (GoError.status Code.NotFound "training job not found") (by decide) (Or.inl rfl)
      rfl (by decide)).2,
   ((C11_error_status_is_uniform Method.CancelTrainingJob demoMux demoClient demoServer 0
      (demoRequest "id=missing") [] {}).2.1 _
      ⟨"CancelTrainingJobRequest", [("id", "missing")]⟩
      none (GoError.status Code.NotFound "training job not found") (by decide) (Or.inl rfl)
      rfl (by decide)).2⟩

/-- C12, as stated, fails: GetTrainingJob on the toy mux with a service whose
call returns a cancellation error (the client stub a status error of category
Canceled, the in-process server `context.Canceled`).  In both modes the handler
does write a response: its trace is decode, call, HTTP error writer with the
cancellation error, cancel; the number of response-writing actions is 1, not
0. -/
theorem C12_cancellation_counterexample :
    ((canceledClient.op Method.GetTrainingJob
        (Context.annotated (Context.WithCancel (Context.root "http"))
           "/viam.app.mltraining.v1.MLTrainingService/GetTrainingJob"
           "/viam.app.mltraining.v1.MLTrainingService/GetTrainingJob")
        ⟨"GetTrainingJobRequest", [("id", "job-123")]⟩).err =
      some (GoError.status Code.Canceled "context canceled") ∧
     (GoError.status Code.Canceled "context canceled").isCancellation = true ∧
     context.Canceled.isCancellation = true) ∧
    (RegisterMLTrainingServiceHandlerClient_func3 demoMux canceledClient 0
        (demoRequest "id=job-123") [] {}).since {} =
      [Event.decode demoMarshaler "id=job-123",
       Event.clientCall Method.GetTrainingJob
         (Context.annotated (Context.WithCancel (Context.root "http"))
           "/viam.app.mltraining.v1.MLTrainingService/GetTrainingJob"
           "/viam.app.mltraining.v1.MLTrainingService/GetTrainingJob")
         ⟨"GetTrainingJobRequest", [("id", "job-123")]⟩,
       Event.HTTPError
         (Context.WithServerMetadata
           (Context.annotated (Context.WithCancel (Context.root "http"))
           "/viam.app.mltraining.v1.MLTrainingService/GetTrainingJob"
           "/viam.app.mltraining.v1.MLTrainingService/GetTrainingJob")
           { HeaderMD := [], TrailerMD := [] })
         demoMarshaler 0 (demoRequest "id=job-123")
         (GoError.status Code.Canceled "context canceled"),
       Event.cancel (Context.WithCancel (Context.root "http"))] ∧
    ((RegisterMLTrainingServiceHandlerClient_func3 demoMux canceledClient 0
        (demoRequest "id=job-123") [] {}).since {}).countP Event.isResponse = 1 ∧
    (RegisterMLTrainingServiceHandlerServer_func3 demoMux canceledServer 0
        (demoRequest "id=job-123") [] {}).since {} =
      [Event.decode demoMarshaler "id=job-123",
       Event.serverCall Method.GetTrainingJob
         (Context.annotated
           (Context.WithServerTransportStream (Context.WithCancel (Context.root "http")))
           "/viam.app.mltraining.v1.MLTrainingService/GetTrainingJob"
           "/viam.app.mltraining.v1.MLTrainingService/GetTrainingJob")
         ⟨"GetTrainingJobRequest", [("id", "job-123")]⟩,
       Event.HTTPError
         (Context.WithServerMetadata
           (Context.annotated
           (Context.WithServerTransportStream (Context.WithCancel (Context.root "http")))
           "/viam.app.mltraining.v1.MLTrainingService/GetTrainingJob"
           "/viam.app.mltraining.v1.MLTrainingService/GetTrainingJob")
           { HeaderMD := [("x-served-by", ["local"])], TrailerMD := [] })
         demoMarshaler 0 (demoRequest "id=job-123") context.Canceled,
       Event.cancel (Context.WithCancel (Context.root "http"))] ∧
    ((RegisterMLTrainingServiceHandlerServer_func3 demoMux canceledServer 0
        (demoRequest "id=job-123") [] {}).since {}).countP Event.isResponse = 1 :=
  ⟨⟨rfl, by decide, by decide⟩, rfl, rfl, rfl, rfl⟩

/-- C12, amended: for every handler, if the underlying service call returns a
cancellation error e (as it does when the inbound request's context is cancelled
before the call completes), the handler performs exactly one response-writing
action, the HTTP error writer with e (the forwarder is not called), and the
last thing it does is cancel the per-request derived context. -/
theorem C12_cancellation_error_is_written (m : Method) (mux : ServeMux)
    (client : MLTrainingServiceClient) (server : MLTrainingServiceServer)
    (w : ResponseWriter) (req : Request) (pathParams : PathParams) (σ : World)
    (actx : Context) (msg : Message) (derr : Option GoError) (e : GoError)
    (hdec : ((runtime.MarshalerForRequest mux req).1.NewDecoder req.Body).Decode m.protoReq = (msg, derr))
    (hok : derr = none ∨ derr = some GoError.EOF)
    (_hcancel : e.isCancellation = true) :
    (runtime.AnnotateContext (context.WithCancel req.Context) mux req m.rpcName
        (runtime.WithHTTPPathPattern m.rpcName) = .ok actx →
      (client.op m actx msg).err = some e →
      ((m.clientHandler mux client w req pathParams σ).since σ).filter Event.isResponse =
        [Event.HTTPError
           (runtime.NewServerMetadataContext actx
             { HeaderMD := (client.op m actx msg).header,
               TrailerMD := (client.op m actx msg).trailer })
           (runtime.MarshalerForRequest mux req).2 w req e] ∧
      ((m.clientHandler mux client w req pathParams σ).since σ).countP Event.isResponse = 1 ∧
      ((m.clientHandler mux client w req pathParams σ).since σ).countP Event.isForward = 0 ∧
      ((m.clientHandler mux client w req pathParams σ).since σ).getLast? =
        some (Event.cancel (context.WithCancel req.Context))) ∧
    (runtime.AnnotateIncomingContext
        (grpc.NewContextWithServerTransportStream (context.WithCancel req.Context)) mux req
        m.rpcName (runtime.WithHTTPPathPattern m.rpcName) = .ok actx →
      (server.op m actx msg {}).err = some e →
      ((m.serverHandler mux server w req pathParams σ).since σ).filter Event.isResponse =
        [Event.HTTPError
           (runtime.NewServerMetadataContext actx
             { HeaderMD := metadata.Join [[], (server.op m actx msg {}).stream.Header],
               TrailerMD := metadata.Join [[], (server.op m actx msg {}).stream.Trailer] })
           (runtime.MarshalerForRequest mux req).2 w req e] ∧
      ((m.serverHandler mux server w req pathParams σ).since σ).countP Event.isResponse = 1 ∧
      ((m.serverHandler mux server w req pathParams σ).since σ).countP Event.isForward = 0 ∧
      ((m.serverHandler mux server w req pathParams σ).since σ).getLast? =
        some (Event.cancel (context.WithCancel req.Context))) := by
  simp only [runtime.MarshalerForRequest] at hdec
  have hnf : ¬ decodeFailed
      (((mux.marshalerForRequest req).1.NewDecoder req.Body).Decode m.protoReq).2 := by
    rw [hdec]
    rcases hok with h | h <;> simp [decodeFailed, h]
  constructor
  · intro hann herr
    rw [clientHandler_dispatched m mux client w req pathParams σ actx hann hnf,
      since_of_trace _ σ _ rfl, hdec]
    simp only [herr]
    exact ⟨rfl, rfl, rfl, rfl⟩
  · intro hann herr
    rw [serverHandler_dispatched m mux server w req pathParams σ actx hann hnf,
      since_of_trace _ σ _ rfl, hdec]
    simp only [herr]
    exact ⟨rfl, rfl, rfl, rfl⟩

/-- An instance of the amended C12: GetTrainingJob in remote mode against the
client stub whose call was cancelled; the error writer receives the Canceled
status error and the handler ends with the cancel of its context. -/
theorem C12_cancellation_error_is_written_witness :
    (((runtime.MarshalerForRequest demoMux (demoRequest "id=job-123")).1.NewDecoder
        (demoRequest "id=job-123").Body).Decode Method.GetTrainingJob.protoReq =
      (⟨"GetTrainingJobRequest", [("id", "job-123")]⟩, none) ∧
     (GoError.status Code.Canceled "context canceled").isCancellation = true) ∧
    ((RegisterMLTrainingServiceHandlerClient_func3 demoMux canceledClient 0
        (demoRequest "id=job-123") [] {}).since {}).filter Event.isResponse =
      [Event.HTTPError
         (Context.WithServerMetadata
           (Context.annotated (Context.WithCancel (Context.root "http"))
           "/viam.app.mltraining.v1.MLTrainingService/GetTrainingJob"
           "/viam.app.mltraining.v1.MLTrainingService/GetTrainingJob")
           { HeaderMD := [], TrailerMD := [] })
         demoMarshaler 0 (demoRequest "id=job-123")
         (GoError.status Code.Canceled "context canceled")] ∧
    ((RegisterMLTrainingServiceHandlerClient_func3 demoMux canceledClient 0
        (demoRequest "id=job-123") [] {}).since {}).getLast? =
      some (Event.cancel (Context.WithCancel (Context.root "http"))) :=
  ⟨⟨by decide, by decide⟩,
   ((C12_cancellation_error_is_written Method.GetTrainingJob demoMux canceledClient
      canceledServer 0 (demoRequest "id=job-123") [] {} _
      ⟨"GetTrainingJobRequest", [("id", "job-123")]⟩ none
      (GoError.status Code.Canceled "context canceled") (by decide) (Or.inl rfl)
      (by decide)).1 rfl rfl).1,
   ((C12_cancellation_error_is_written Method.GetTrainingJob demoMux canceledClient
      canceledServer 0 (demoRequest "id=job-123") [] {} _
      ⟨"GetTrainingJobRequest", [("id", "job-123")]⟩ none
      (GoError.status Code.Canceled "context canceled") (by decide) (Or.inl rfl)
      (by decide)).1 rfl rfl).2.2.2⟩

/-- C13: every handler cancels the context it derived from the request's
context with `context.WithCancel` exactly once on every path out (annotation
failure, decode failure, service error, success), as its last action, right
after its one response-writing action; nothing before that action writes a
response or cancels. -/
theorem C13_cancel_once_after_response (m : Method) (mux : ServeMux)
    (client : MLTrainingServiceClient) (server : MLTrainingServiceServer)
    (w : ResponseWriter) (req : Request) (pathParams : PathParams) (σ : World) :
    (∃ pre r,
      (m.serverHandler mux server w req pathParams σ).since σ =
        pre ++ [r, Event.cancel (context.WithCancel req.Context)] ∧
      r.isResponse = true ∧
      ∀ ev ∈ pre, ev.isCancel = false ∧ ev.isResponse = false) ∧
    (∃ pre r,
      (m.clientHandler mux client w req pathParams σ).since σ =
        pre ++ [r, Event.cancel (context.WithCancel req.Context)] ∧
      r.isResponse = true ∧
      ∀ ev ∈ pre, ev.isCancel = false ∧ ev.isResponse = false) ∧
    ((m.serverHandler mux server w req pathParams σ).since σ).countP Event.isCancel = 1 ∧
    ((m.clientHandler mux client w req pathParams σ).since σ).countP Event.isCancel = 1 := by
  have hs : (∃ pre r,
      (m.serverHandler mux server w req pathParams σ).since σ =
        pre ++ [r, Event.cancel (context.WithCancel req.Context)] ∧
      r.isResponse = true ∧
      ∀ ev ∈ pre, ev.isCancel = false ∧ ev.isResponse = false) ∧
      ((m.serverHandler mux server w req pathParams σ).since σ).countP Event.isCancel = 1 := by
    cases hann : mux.annotateIncomingContext
        (Context.WithServerTransportStream (Context.WithCancel req.ctx)) req
        m.rpcName m.rpcName with
    | error err =>
      rw [serverHandler_annotate_error m mux server w req pathParams σ err hann,
        since_of_trace _ σ _ rfl]
      exact ⟨⟨[], _, rfl, rfl, by simp⟩, rfl⟩
    | ok actx =>
      by_cases hfail : decodeFailed
          (((mux.marshalerForRequest req).1.NewDecoder req.Body).Decode m.protoReq).2
      · rw [serverHandler_decode_failed m mux server w req pathParams σ actx hann hfail,
          since_of_trace _ σ _ rfl]
        refine ⟨⟨[_], _, rfl, rfl, ?_⟩, rfl⟩
        intro ev hev
        simp only [List.mem_singleton] at hev
        subst hev
        exact ⟨rfl, rfl⟩
      · rw [serverHandler_dispatched m mux server w req pathParams σ actx hann hfail,
          since_of_trace _ σ _ rfl]
        have hpre : ∀ ev ∈ [Event.decode (mux.marshalerForRequest req).1 req.Body,
            Event.serverCall m actx
              (((mux.marshalerForRequest req).1.NewDecoder req.Body).Decode m.protoReq).1],
            ev.isCancel = false ∧ ev.isResponse = false := by
          intro ev hev
          simp only [List.mem_cons, List.mem_singleton, List.not_mem_nil, or_false] at hev
          rcases hev with h | h <;> subst h <;> exact ⟨rfl, rfl⟩
        cases (server.op m actx
          (((mux.marshalerForRequest req).1.NewDecoder req.Body).Decode m.protoReq).1 {}).err
        · exact ⟨⟨[_, _], _, rfl, rfl, hpre⟩, rfl⟩
        · exact ⟨⟨[_, _], _, rfl, rfl, hpre⟩, rfl⟩
  have hc : (∃ pre r,
      (m.clientHandler mux client w req pathParams σ).since σ =
        pre ++ [r, Event.cancel (context.WithCancel req.Context)] ∧
      r.isResponse = true ∧
      ∀ ev ∈ pre, ev.isCancel = false ∧ ev.isResponse = false) ∧
      ((m.clientHandler mux client w req pathParams σ).since σ).countP Event.isCancel = 1 := by
    cases hann : mux.annotateContext (Context.WithCancel req.ctx) req m.rpcName m.rpcName with
    | error err =>
      rw [clientHandler_annotate_error m mux client w req pathParams σ err hann,
        since_of_trace _ σ _ rfl]
      exact ⟨⟨[], _, rfl, rfl, by simp⟩, rfl⟩
    | ok actx =>
      by_cases hfail : decodeFailed
          (((mux.marshalerForRequest req).1.NewDecoder req.Body).Decode m.protoReq).2
      · rw [clientHandler_decode_failed m mux client w req pathParams σ actx hann hfail,
          since_of_trace _ σ _ rfl]
        refine ⟨⟨[_], _, rfl, rfl, ?_⟩, rfl⟩
        intro ev hev
        simp only [List.mem_singleton] at hev
        subst hev
        exact ⟨rfl, rfl⟩
      · rw [clientHandler_dispatched m mux client w req pathParams σ actx hann hfail,
          since_of_trace _ σ _ rfl]
        have hpre : ∀ ev ∈ [Event.decode (mux.marshalerForRequest req).1 req.Body,
            Event.clientCall m actx
              (((mux.marshalerForRequest req).1.NewDecoder req.Body).Decode m.protoReq).1],
            ev.isCancel = false ∧ ev.isResponse = false := by
          intro ev hev
          simp only [List.mem_cons, List.mem_singleton, List.not_mem_nil, or_false] at hev
          rcases hev with h | h <;> subst h <;> exact ⟨rfl, rfl⟩
        cases (client.op m actx
          (((mux.marshalerForRequest req).1.NewDecoder req.Body).Decode m.protoReq).1).err
        · exact ⟨⟨[_, _], _, rfl, rfl, hpre⟩, rfl⟩
        · exact ⟨⟨[_, _], _, rfl, rfl, hpre⟩, rfl⟩
  exact ⟨hs.1, hc.1, hs.2, hc.2⟩

/-- C14: in local mode, for each of the seven methods, the header (resp.
trailer) metadata of the server-metadata context handed to the response-writing
action is the join of the header (resp. trailer) metadata returned by the
request function with the headers (resp. trailers) recorded on the per-request
transport stream; the join of two maps keeps every key of both and, under each
key, the values of the first followed by the values of the second, so nothing
is overwritten.  In remote mode the metadata of that context is the metadata
the request function returned, which after a call is exactly the header and
trailer metadata captured from the client call. -/
theorem C14_metadata_is_joined (m : Method) (mux : ServeMux)
    (client : MLTrainingServiceClient) (server : MLTrainingServiceServer)
    (w : ResponseWriter) (req : Request) (pathParams : PathParams) (σ : World)
    (actx : Context) :
    (runtime.AnnotateIncomingContext
        (grpc.NewContextWithServerTransportStream (context.WithCancel req.Context)) mux req
        m.rpcName (runtime.WithHTTPPathPattern m.rpcName) = .ok actx →
      ((m.serverHandler mux server w req pathParams σ).since σ).filterMap
          Event.responseContext =
        [runtime.NewServerMetadataContext actx
          { HeaderMD := metadata.Join
              [(m.local_request actx (runtime.MarshalerForRequest mux req).1 server req pathParams
              { σ with stream := {} }).1.2.1.HeaderMD,
               (m.local_request actx (runtime.MarshalerForRequest mux req).1 server req pathParams
              { σ with stream := {} }).2.stream.Header],
            TrailerMD := metadata.Join
              [(m.local_request actx (runtime.MarshalerForRequest mux req).1 server req pathParams
              { σ with stream := {} }).1.2.1.TrailerMD,
               (m.local_request actx (runtime.MarshalerForRequest mux req).1 server req pathParams
              { σ with stream := {} }).2.stream.Trailer] }]) ∧
    (∀ a b : MD, a.WellFormed → b.WellFormed →
      (metadata.Join [a, b]).WellFormed ∧
      (∀ k, k ∈ (metadata.Join [a, b]).keys ↔ k ∈ a.keys ∨ k ∈ b.keys) ∧
      (∀ k, (metadata.Join [a, b]).get k = a.get k ++ b.get k)) ∧
    (runtime.AnnotateContext (context.WithCancel req.Context) mux req m.rpcName
        (runtime.WithHTTPPathPattern m.rpcName) = .ok actx →
      ((m.clientHandler mux client w req pathParams σ).since σ).filterMap
          Event.responseContext =
        [runtime.NewServerMetadataContext actx
          (m.request actx (runtime.MarshalerForRequest mux req).1 client req pathParams σ).1.2.1]) ∧
    (∀ (msg : Message) (derr : Option GoError),
      ((runtime.MarshalerForRequest mux req).1.NewDecoder req.Body).Decode m.protoReq = (msg, derr) →
      (derr = none ∨ derr = some GoError.EOF) →
      (m.request actx (runtime.MarshalerForRequest mux req).1 client req pathParams σ).1.2.1 =
        { HeaderMD := (client.op m actx msg).header,
          TrailerMD := (client.op m actx msg).trailer }) := by
  refine ⟨?_, ?_, ?_, ?_⟩
  · intro hann
    simp only [runtime.MarshalerForRequest]
    by_cases hfail : decodeFailed
        (((mux.marshalerForRequest req).1.NewDecoder req.Body).Decode m.protoReq).2
    · rw [serverHandler_decode_failed m mux server w req pathParams σ actx hann hfail,
        since_of_trace _ σ _ rfl]
      simp only [local_request_eq, if_pos hfail]
      rfl
    · rw [serverHandler_dispatched m mux server w req pathParams σ actx hann hfail,
        since_of_trace _ σ _ rfl]
      simp only [local_request_eq, if_neg hfail]
      cases (server.op m actx
        (((mux.marshalerForRequest req).1.NewDecoder req.Body).Decode m.protoReq).1 {}).err <;>
        rfl
  · intro a b ha hb
    obtain ⟨h1, h2, h3⟩ := join_pair a b
    refine ⟨h1, h2, ?_⟩
    intro k
    rw [h3 k, collect_eq_get a k ha, collect_eq_get b k hb]
  · intro hann
    simp only [runtime.MarshalerForRequest]
    by_cases hfail : decodeFailed
        (((mux.marshalerForRequest req).1.NewDecoder req.Body).Decode m.protoReq).2
    · rw [clientHandler_decode_failed m mux client w req pathParams σ actx hann hfail,
        since_of_trace _ σ _ rfl]
      simp only [request_eq, if_pos hfail]
      rfl
    · rw [clientHandler_dispatched m mux client w req pathParams σ actx hann hfail,
        since_of_trace _ σ _ rfl]
      simp only [request_eq, if_neg hfail]
      cases (client.op m actx
        (((mux.marshalerForRequest req).1.NewDecoder req.Body).Decode m.protoReq).1).err <;>
        rfl
  · intro msg derr hdec hok
    simp only [runtime.MarshalerForRequest] at hdec ⊢
    have hnf : ¬ decodeFailed
        (((mux.marshalerForRequest req).1.NewDecoder req.Body).Decode m.protoReq).2 := by
      rw [hdec]
      rcases hok with h | h <;> simp [decodeFailed, h]
    rw [request_eq, if_neg hnf, hdec]

/-- An instance of C14: GetTrainingJob for `job-123` on the toy mux.  In local
mode the context carries the header the toy server recorded on the stream, in
remote mode the header captured from the toy client; and a join of two maps
that share the key `a` keeps the values of both under it. -/
theorem C14_metadata_is_joined_witness :
    (MD.WellFormed [("a", ["1"])] ∧ MD.WellFormed [("a", ["2"]), ("b", ["3"])]) ∧
    ((RegisterMLTrainingServiceHandlerServer_func3 demoMux demoServer 0
        (demoRequest "id=job-123") [] {}).since {}).filterMap Event.responseContext =
      [Context.WithServerMetadata
         (Context.annotated
           (Context.WithServerTransportStream (Context.WithCancel (Context.root "http")))
           "/viam.app.mltraining.v1.MLTrainingService/GetTrainingJob"
           "/viam.app.mltraining.v1.MLTrainingService/GetTrainingJob")
         { HeaderMD := [("x-served-by", ["local"])], TrailerMD := [] }] ∧
    ((RegisterMLTrainingServiceHandlerClient_func3 demoMux demoClient 0
        (demoRequest "id=job-123") [] {}).since {}).filterMap Event.responseContext =
      [Context.WithServerMetadata
         (Context.annotated (Context.WithCancel (Context.root "http"))
           "/viam.app.mltraining.v1.MLTrainingService/GetTrainingJob"
           "/viam.app.mltraining.v1.MLTrainingService/GetTrainingJob")
         { HeaderMD := [("x-served-by", ["remote"])], TrailerMD := [] }] ∧
    (metadata.Join [[("a", ["1"])], [("a", ["2"]), ("b", ["3"])]]).get "a" = ["1", "2"] ∧
    metadata.Join [[("a", ["1"])], [("a", ["2"]), ("b", ["3"])]] =
      [("a", ["1", "2"]), ("b", ["3"])] :=
  ⟨⟨by decide, by decide⟩,
   (C14_metadata_is_joined Method.GetTrainingJob demoMux demoClient demoServer 0
      (demoRequest "id=job-123") [] {} _).1 rfl,
   (C14_metadata_is_joined Method.GetTrainingJob demoMux demoClient demoServer 0
      (demoRequest "id=job-123") [] {}
      (Context.annotated (Context.WithCancel (Context.root "http"))
           "/viam.app.mltraining.v1.MLTrainingService/GetTrainingJob"
           "/viam.app.mltraining.v1.MLTrainingService/GetTrainingJob")).2.2.1 rfl,
   ((C14_metadata_is_joined Method.GetTrainingJob demoMux demoClient demoServer 0
      (demoRequest "id=job-123") [] {} (Context.root "any")).2.1
      [("a", ["1"])] [("a", ["2"]), ("b", ["3"])] (by decide) (by decide)).2.2 "a",
   by decide⟩

/-- C15, as stated, fails in its clause that the connection is not closed before
the function returns.  In the toy environment, with a context that is already
done, the scheduler may run the goroutine right after the `go` statement of the
deferred function: registration succeeded (the error is nil), and at the moment
the call returns the connection has already been closed. -/
theorem C15_close_before_return_counterexample :
    demoGrpc.NewClient "localhost:8080" [] = .ok { target := "localhost:8080", opts := [] } ∧
    (RegisterMLTrainingServiceHandlerFromEndpoint.atReturn demoGrpc (fun _ => true)
        [{ ctx := Context.root "main", endpoint := "localhost:8080",
           conn := { target := "localhost:8080", opts := [] } }]
        (Context.root "main") demoMux "localhost:8080" [] {}).map (fun r => (r.1.2, r.2)) =
      some (none,
        { events := [ProcessEvent.NewClient "localhost:8080" [],
                     ProcessEvent.Close { target := "localhost:8080", opts := [] }],
          goroutines := [] }) ∧
    ProcessEvent.Close { target := "localhost:8080", opts := [] } ∈
      [ProcessEvent.NewClient "localhost:8080" [],
       ProcessEvent.Close { target := "localhost:8080", opts := [] }] :=
  ⟨rfl, by decide, by decide⟩

/-- C15, amended: `RegisterMLTrainingServiceHandlerFromEndpoint` dials the
endpoint.  If dialing fails, the dial error is returned, the mux is as it was,
nothing is closed and no goroutine is started.  If dialing gives a connection,
the mux and the error are those of `RegisterMLTrainingServiceHandler` on that
connection and the deferred function runs with that error: with an error it
closes the connection at once and starts no goroutine; with none it closes
nothing and starts one goroutine.  On the success path of the whole function
the function's own thread therefore closes nothing; the goroutine it started
cannot move, whatever else the scheduler runs, while the context is not done,
and once the context is done it runs and closes the connection (logging a close
error).  Whether that happens before or after the call has returned is left
open. -/
theorem C15_from_endpoint_manages_connection (g : GrpcEnv) (ctx : Context) (mux : ServeMux)
    (endpoint : String) (opts : List DialOption) (p : Process) :
    (∀ e, g.NewClient endpoint opts = .error e →
      RegisterMLTrainingServiceHandlerFromEndpoint g ctx mux endpoint opts p =
        ((mux, some e),
         { events := p.events ++ [ProcessEvent.NewClient endpoint opts],
           goroutines := p.goroutines })) ∧
    (∀ conn, g.NewClient endpoint opts = .ok conn →
      (RegisterMLTrainingServiceHandlerFromEndpoint g ctx mux endpoint opts p).1 =
        RegisterMLTrainingServiceHandler g ctx mux conn ∧
      (RegisterMLTrainingServiceHandlerFromEndpoint g ctx mux endpoint opts p).2 =
        RegisterMLTrainingServiceHandlerFromEndpoint_func1 g ctx endpoint conn
          (RegisterMLTrainingServiceHandler g ctx mux conn).2
          (p.emit (ProcessEvent.NewClient endpoint opts))) ∧
    (∀ (conn : ClientConn) (e : GoError) (q : Process),
      (RegisterMLTrainingServiceHandlerFromEndpoint_func1 g ctx endpoint conn (some e) q).events =
        q.events ++ ProcessEvent.Close conn ::
          (match g.Close conn with
           | some cerr =>
             [ProcessEvent.Errorf
               ("Failed to close conn to " ++ endpoint ++ ": " ++ fmt.v (some cerr))]
           | none => []) ∧
      (RegisterMLTrainingServiceHandlerFromEndpoint_func1 g ctx endpoint conn (some e) q).goroutines =
        q.goroutines) ∧
    (∀ (conn : ClientConn) (q : Process),
      RegisterMLTrainingServiceHandlerFromEndpoint_func1 g ctx endpoint conn none q =
        { events := q.events,
          goroutines := q.goroutines ++ [{ ctx := ctx, endpoint := endpoint, conn := conn }] }) ∧
    (∀ conn, g.NewClient endpoint opts = .ok conn →
      (RegisterMLTrainingServiceHandlerFromEndpoint g ctx mux endpoint opts p).2 =
        { events := p.events ++ [ProcessEvent.NewClient endpoint opts],
          goroutines := p.goroutines ++ [{ ctx := ctx, endpoint := endpoint, conn := conn }] } ∧
      (∀ done : Context → Bool, done ctx = false →
        Process.step g done { ctx := ctx, endpoint := endpoint, conn := conn }
          (RegisterMLTrainingServiceHandlerFromEndpoint g ctx mux endpoint opts p).2 = none ∧
        ∀ sched q,
          Process.run g done sched
            (RegisterMLTrainingServiceHandlerFromEndpoint g ctx mux endpoint opts p).2 = some q →
          ({ ctx := ctx, endpoint := endpoint, conn := conn } : Goroutine) ∈ q.goroutines) ∧
      (∀ done : Context → Bool, done ctx = true →
        Process.step g done { ctx := ctx, endpoint := endpoint, conn := conn }
          (RegisterMLTrainingServiceHandlerFromEndpoint g ctx mux endpoint opts p).2 =
          some
            { events :=
                p.events ++ [ProcessEvent.NewClient endpoint opts, ProcessEvent.Close conn] ++
                  (match g.Close conn with
           | some cerr =>
             [ProcessEvent.Errorf
               ("Failed to close conn to " ++ endpoint ++ ": " ++ fmt.v (some cerr))]
           | none => []),
              goroutines :=
                (p.goroutines ++
                    [({ ctx := ctx, endpoint := endpoint, conn := conn } : Goroutine)]).erase
                  { ctx := ctx, endpoint := endpoint, conn := conn } })) := by
  have hret : ∀ conn, g.NewClient endpoint opts = .ok conn →
      (RegisterMLTrainingServiceHandlerFromEndpoint g ctx mux endpoint opts p).2 =
        { events := p.events ++ [ProcessEvent.NewClient endpoint opts],
          goroutines := p.goroutines ++ [{ ctx := ctx, endpoint := endpoint, conn := conn }] } := by
    intro conn hdial
    simp [RegisterMLTrainingServiceHandlerFromEndpoint, hdial, register_handler_nil,
      RegisterMLTrainingServiceHandlerFromEndpoint_func1, Process.emit]
  refine ⟨?_, ?_, ?_, ?_, ?_⟩
  · intro e hdial
    simp [RegisterMLTrainingServiceHandlerFromEndpoint, hdial, Process.emit]
  · intro conn hdial
    simp [RegisterMLTrainingServiceHandlerFromEndpoint, hdial]
  · intro conn e q
    cases hc : g.Close conn <;>
      simp [RegisterMLTrainingServiceHandlerFromEndpoint_func1, Process.emit, hc]
  · intro conn q
    simp [RegisterMLTrainingServiceHandlerFromEndpoint_func1]
  · intro conn hdial
    rw [hret conn hdial]
    refine ⟨rfl, ?_, ?_⟩
    · intro done hnd
      refine ⟨?_, ?_⟩
      · simp [Process.step, hnd]
      · intro sched q hrun
        exact run_keeps_blocked g done { ctx := ctx, endpoint := endpoint, conn := conn } hnd sched _ q
          (by simp) hrun
    · intro done hd
      cases hc : g.Close conn <;>
        simp [Process.step, hd, RegisterMLTrainingServiceHandlerFromEndpoint_func1_1,
          Process.emit, hc]

/-- An instance of the amended C15 in the toy environment: dialing `bad target`
fails and leaves everything as it was; dialing `flaky:443` succeeds, the
function's own thread leaves the connection open with one goroutine started,
the goroutine cannot move while the context is not done, and once the context
is done it closes the connection and logs the close error. -/
theorem C15_from_endpoint_manages_connection_witness :
    (demoGrpc.NewClient "bad target" [] = .error (GoError.plain "grpc: invalid target") ∧
     demoGrpc.NewClient "flaky:443" ["insecure"] =
       .ok { target := "flaky:443", opts := ["insecure"] }) ∧
    (RegisterMLTrainingServiceHandlerFromEndpoint demoGrpc (Context.root "main") demoMux
        "bad target" [] {}).2 =
      { events := [ProcessEvent.NewClient "bad target" []], goroutines := [] } ∧
    (RegisterMLTrainingServiceHandlerFromEndpoint demoGrpc (Context.root "main") demoMux
        "bad target" [] {}).1.2 = some (GoError.plain "grpc: invalid target") ∧
    (RegisterMLTrainingServiceHandlerFromEndpoint demoGrpc (Context.root "main") demoMux
        "flaky:443" ["insecure"] {}).2 =
      { events := [ProcessEvent.NewClient "flaky:443" ["insecure"]],
        goroutines := [{ ctx := Context.root "main", endpoint := "flaky:443",
                         conn := { target := "flaky:443", opts := ["insecure"] } }] } ∧
    Process.step demoGrpc (fun _ => false)
        { ctx := Context.root "main", endpoint := "flaky:443",
          conn := { target := "flaky:443", opts := ["insecure"] } }
        (RegisterMLTrainingServiceHandlerFromEndpoint demoGrpc (Context.root "main") demoMux
          "flaky:443" ["insecure"] {}).2 = none ∧
    Process.step demoGrpc (fun c => decide (c = Context.root "main"))
        { ctx := Context.root "main", endpoint := "flaky:443",
          conn := { target := "flaky:443", opts := ["insecure"] } }
        (RegisterMLTrainingServiceHandlerFromEndpoint demoGrpc (Context.root "main") demoMux
          "flaky:443" ["insecure"] {}).2 =
      some
        { events :=
            [ProcessEvent.NewClient "flaky:443" ["insecure"],
             ProcessEvent.Close { target := "flaky:443", opts := ["insecure"] },
             ProcessEvent.Errorf "Failed to close conn to flaky:443: connection is closing"],
          goroutines := [] } :=
  ⟨⟨rfl, rfl⟩,
   congrArg Prod.snd
     ((C15_from_endpoint_manages_connection demoGrpc (Context.root "main") demoMux
        "bad target" [] {}).1 _ rfl),
   congrArg (fun r => r.1.2)
     ((C15_from_endpoint_manages_connection demoGrpc (Context.root "main") demoMux
        "bad target" [] {}).1 _ rfl),
   ((C15_from_endpoint_manages_connection demoGrpc (Context.root "main") demoMux
      "flaky:443" ["insecure"] {}).2.2.2.2 _ rfl).1,
   (((C15_from_endpoint_manages_connection demoGrpc (Context.root "main") demoMux
      "flaky:443" ["insecure"] {}).2.2.2.2 _ rfl).2.1 (fun _ => false) rfl).1,
   ((C15_from_endpoint_manages_connection demoGrpc (Context.root "main") demoMux
      "flaky:443" ["insecure"] {}).2.2.2.2 _ rfl).2.2
      (fun c => decide (c = Context.root "main")) (by decide)⟩

/-- C16: for each of the seven methods and in both modes, end-of-input from the
decoder is treated exactly like no error: for every message state msg the
decoder left behind, the request function returns the same result when the
decoder reported end-of-input with msg as when a decoder reported no error with
msg; in both cases the operation of the method is invoked once, with msg, and
its reply is returned.  A truncated body is thus not told apart from a complete
one. -/
theorem C16_end_of_input_is_no_error (m : Method) (ctx : Context)
    (marshaler marshaler' : Marshaler) (client : MLTrainingServiceClient)
    (server : MLTrainingServiceServer) (req req' : Request) (pathParams : PathParams)
    (σ : World) (msg : Message)
    (heof : (marshaler.NewDecoder req.Body).Decode m.protoReq = (msg, some GoError.EOF))
    (hnil : (marshaler'.NewDecoder req'.Body).Decode m.protoReq = (msg, none)) :
    ((m.request ctx marshaler client req pathParams σ).1 =
        (m.request ctx marshaler' client req' pathParams σ).1 ∧
     (m.request ctx marshaler client req pathParams σ).1 =
        ((client.op m ctx msg).msg,
         { HeaderMD := (client.op m ctx msg).header, TrailerMD := (client.op m ctx msg).trailer },
         (client.op m ctx msg).err) ∧
     ((m.request ctx marshaler client req pathParams σ).2.since σ).filter Event.isCall =
        [Event.clientCall m ctx msg] ∧
     ((m.request ctx marshaler' client req' pathParams σ).2.since σ).filter Event.isCall =
        [Event.clientCall m ctx msg]) ∧
    ((m.local_request ctx marshaler server req pathParams σ).1 =
        (m.local_request ctx marshaler' server req' pathParams σ).1 ∧
     (m.local_request ctx marshaler server req pathParams σ).1 =
        ((server.op m ctx msg σ.stream).msg, {}, (server.op m ctx msg σ.stream).err) ∧
     (m.local_request ctx marshaler server req pathParams σ).2.stream =
        (m.local_request ctx marshaler' server req' pathParams σ).2.stream ∧
     ((m.local_request ctx marshaler server req pathParams σ).2.since σ).filter Event.isCall =
        [Event.serverCall m ctx msg] ∧
     ((m.local_request ctx marshaler' server req' pathParams σ).2.since σ).filter Event.isCall =
        [Event.serverCall m ctx msg]) := by
  have h1 : ¬ decodeFailed ((marshaler.NewDecoder req.Body).Decode m.protoReq).2 := by
    rw [heof]
    simp [decodeFailed]
  have h2 : ¬ decodeFailed ((marshaler'.NewDecoder req'.Body).Decode m.protoReq).2 := by
    rw [hnil]
    simp [decodeFailed]
  constructor
  · rw [request_eq, request_eq, if_neg h1, if_neg h2, heof, hnil]
    refine ⟨rfl, rfl, ?_, ?_⟩
    · rw [since_of_trace _ σ [Event.decode marshaler req.Body, Event.clientCall m ctx msg]
        (by simp [World.emit])]
      rfl
    · rw [since_of_trace _ σ [Event.decode marshaler' req'.Body, Event.clientCall m ctx msg]
        (by simp [World.emit])]
      rfl
  · rw [local_request_eq, local_request_eq, if_neg h1, if_neg h2, heof, hnil]
    refine ⟨rfl, rfl, rfl, ?_, ?_⟩
    · rw [since_of_trace _ σ [Event.decode marshaler req.Body, Event.serverCall m ctx msg] rfl]
      rfl
    · rw [since_of_trace _ σ [Event.decode marshaler' req'.Body, Event.serverCall m ctx msg]
        rfl]
      rfl

/-- An instance of C16: on the toy stream marshaler the truncated body
`id=job-123` and the complete body `id=job-123;` sent to GetTrainingJobLogs give
the same result in both modes, the reply of the service for job `job-123`. -/
theorem C16_end_of_input_is_no_error_witness :
    ((streamMarshaler.NewDecoder (demoRequest "id=job-123").Body).Decode
        Method.GetTrainingJobLogs.protoReq =
      (⟨"GetTrainingJobLogsRequest", [("id", "job-123")]⟩, some GoError.EOF) ∧
     (streamMarshaler.NewDecoder (demoRequest "id=job-123;").Body).Decode
        Method.GetTrainingJobLogs.protoReq =
      (⟨"GetTrainingJobLogsRequest", [("id", "job-123")]⟩, none)) ∧
    (request_MLTrainingService_GetTrainingJobLogs_0 (Context.root "rpc") streamMarshaler
        demoClient (demoRequest "id=job-123") [] {}).1 =
      (request_MLTrainingService_GetTrainingJobLogs_0 (Context.root "rpc") streamMarshaler
        demoClient (demoRequest "id=job-123;") [] {}).1 ∧
    (request_MLTrainingService_GetTrainingJobLogs_0 (Context.root "rpc") streamMarshaler
        demoClient (demoRequest "id=job-123") [] {}).1 =
      (some ⟨"Response", [("id", "job-123"), ("status", "COMPLETED")]⟩,
       { HeaderMD := [("x-served-by", ["remote"])], TrailerMD := [] }, none) ∧
    (local_request_MLTrainingService_GetTrainingJobLogs_0 (Context.root "rpc") streamMarshaler
        demoServer (demoRequest "id=job-123") [] {}).1 =
      (local_request_MLTrainingService_GetTrainingJobLogs_0 (Context.root "rpc")
        streamMarshaler demoServer (demoRequest "id=job-123;") [] {}).1 :=
  ⟨⟨by decide, by decide⟩,
   (C16_end_of_input_is_no_error Method.GetTrainingJobLogs (Context.root "rpc") streamMarshaler
      streamMarshaler demoClient demoServer (demoRequest "id=job-123")
      (demoRequest "id=job-123;") [] {} ⟨"GetTrainingJobLogsRequest", [("id", "job-123")]⟩
      (by decide) (by decide)).1.1,
   (C16_end_of_input_is_no_error Method.GetTrainingJobLogs (Context.root "rpc") streamMarshaler
      streamMarshaler demoClient demoServer (demoRequest "id=job-123")
      (demoRequest "id=job-123;") [] {} ⟨"GetTrainingJobLogsRequest", [("id", "job-123")]⟩
      (by decide) (by decide)).1.2.1,
   (C16_end_of_input_is_no_error Method.GetTrainingJobLogs (Context.root "rpc") streamMarshaler
      streamMarshaler demoClient demoServer (demoRequest "id=job-123")
      (demoRequest "id=job-123;") [] {} ⟨"GetTrainingJobLogsRequest", [("id", "job-123")]⟩
      (by decide) (by decide)).2.1⟩

/-- C17: the three registrars `RegisterMLTrainingServiceHandlerServer`,
`RegisterMLTrainingServiceHandlerClient` and `RegisterMLTrainingServiceHandler`
return a nil error for every input; so
`RegisterMLTrainingServiceHandlerFromEndpoint` returns a non-nil error exactly
when dialing fails, and after a successful dial its deferred function never
takes the branch that closes the connection: the function's own thread closes
nothing and starts one goroutine that waits for the context. -/
theorem C17_registrars_return_nil (g : GrpcEnv) (ctx : Context) (mux : ServeMux)
    (client : MLTrainingServiceClient) (server : MLTrainingServiceServer)
    (endpoint : String) (opts : List DialOption) (p : Process) :
    (RegisterMLTrainingServiceHandlerServer ctx mux server).2 = none ∧
    (RegisterMLTrainingServiceHandlerClient ctx mux client).2 = none ∧
    (∀ conn, (RegisterMLTrainingServiceHandler g ctx mux conn).2 = none) ∧
    ((RegisterMLTrainingServiceHandlerFromEndpoint g ctx mux endpoint opts p).1.2 ≠ none ↔
      ∃ e, g.NewClient endpoint opts = .error e) ∧
    (∀ conn, g.NewClient endpoint opts = .ok conn →
      (RegisterMLTrainingServiceHandlerFromEndpoint g ctx mux endpoint opts p).1.2 = none ∧
      (RegisterMLTrainingServiceHandlerFromEndpoint g ctx mux endpoint opts p).2 =
        { events := p.events ++ [ProcessEvent.NewClient endpoint opts],
          goroutines := p.goroutines ++ [{ ctx := ctx, endpoint := endpoint, conn := conn }] } ∧
      ∀ ev ∈ (RegisterMLTrainingServiceHandlerFromEndpoint g ctx mux endpoint opts p).2.events.drop
          p.events.length, ∀ c, ev ≠ ProcessEvent.Close c) := by
  refine ⟨rfl, rfl, fun _ => rfl, ?_, ?_⟩
  · cases hdial : g.NewClient endpoint opts with
    | error e => simp [RegisterMLTrainingServiceHandlerFromEndpoint, hdial]
    | ok conn =>
      simp [RegisterMLTrainingServiceHandlerFromEndpoint, hdial, register_handler_nil]
  · intro conn hdial
    have hret : (RegisterMLTrainingServiceHandlerFromEndpoint g ctx mux endpoint opts p).2 =
        { events := p.events ++ [ProcessEvent.NewClient endpoint opts],
          goroutines := p.goroutines ++ [{ ctx := ctx, endpoint := endpoint, conn := conn }] } := by
      simp [RegisterMLTrainingServiceHandlerFromEndpoint, hdial, register_handler_nil,
        RegisterMLTrainingServiceHandlerFromEndpoint_func1, Process.emit]
    refine ⟨?_, hret, ?_⟩
    · simp [RegisterMLTrainingServiceHandlerFromEndpoint, hdial, register_handler_nil]
    · rw [hret]
      intro ev hev c
      simp at hev
      subst hev
      exact fun h => ProcessEvent.noConfusion h

/-- An instance of C17 in the toy environment: after dialing `localhost:8080`
the function returns no error; its own thread has closed nothing and has started
one goroutine. -/
theorem C17_registrars_return_nil_witness :
    demoGrpc.NewClient "localhost:8080" [] = .ok { target := "localhost:8080", opts := [] } ∧
    (RegisterMLTrainingServiceHandlerFromEndpoint demoGrpc (Context.root "main") demoMux
        "localhost:8080" [] {}).1.2 = none ∧
    (RegisterMLTrainingServiceHandlerFromEndpoint demoGrpc (Context.root "main") demoMux
        "localhost:8080" [] {}).2 =
      { events := [ProcessEvent.NewClient "localhost:8080" []],
        goroutines := [{ ctx := Context.root "main", endpoint := "localhost:8080",
                         conn := { target := "localhost:8080", opts := [] } }] } :=
  ⟨rfl,
   ((C17_registrars_return_nil demoGrpc (Context.root "main") demoMux demoClient demoServer
      "localhost:8080" [] {}).2.2.2.2 _ rfl).1,
   ((C17_registrars_return_nil demoGrpc (Context.root "main") demoMux demoClient demoServer
      "localhost:8080" [] {}).2.2.2.2 _ rfl).2.1⟩

end MLTraining
